import Mathlib

/-!
Shallow embedding of the trace event database of the Web Tracing Framework
(wtf.db): the packed event list (`src/wtf/db/eventiterator.js`), the event
type table (`src/wtf/db/framelist.js`, second part of the file), the frame
list (`src/wtf/db/framelist.js`), the event struct layout (part_001) and
the statistics entries (part_002).

Machine integers: the backing buffer is a `Uint32Array`, so every record
cell is a natural number reduced modulo `2 ^ 32` whenever a write could
exceed that range.  JavaScript `Number` quantities that hold times in
milliseconds (`getTime()`, `getUserDuration()`, ...) are modelled as
rationals; the finitely many dyadic rounding corners of IEEE doubles are
not modelled (the claims checked here never reach them, see the comments
at the relevant definitions).

Fallible paths: the rescope pass of the source throws a `TypeError` in a
few corner situations (a scope leave with an empty stack reaches
`typeStack[-1].flags`, a generic enter without argument data dereferences
`null`, an unknown type id dereferences `null`, a merge with a missing
argument bag throws inside `merge`).  The embedding returns `none` there.
A stack deeper than 255 slots overruns the fixed `Uint32Array(256)` stack
of the source (writes are silently dropped and the state is garbage); the
embedding also returns `none` for that corner, so `some` results agree
with the source exactly on the runs where the source neither throws nor
corrupts its stack.
-/

namespace WtfDb

/-- Word size of the backing `Uint32Array` cells. -/
def u32 : Nat := 4294967296

/-- Argument values: the claims only exercise string and integer arguments. -/
inductive ArgValue where
  | str : String → ArgValue
  | int : Int → ArgValue
  deriving DecidableEq, Repr

/-- JavaScript keys an object with the string form of the value; this mirrors
that conversion for the values we model. -/
def ArgValue.toKeyString : ArgValue → String
  | .str s => s
  | .int n => toString n

/-- Argument data: an ordered bag of named values (`wtf.db.ArgumentData`).
The constructor and accessors are modelled from the spec because the class
body is not among the provided sources; `get` returns the value stored
under a name, if any. -/
structure ArgumentData where
  fields : List (String × ArgValue)
  deriving DecidableEq, Repr

/-- Looks up the value stored under `k`. -/
def ArgumentData.get (a : ArgumentData) (k : String) : Option ArgValue :=
  (a.fields.find? (fun p => p.1 == k)).map Prod.snd

/-- Replaces the value under `k` in place, or appends the pair when the name
is new. -/
def setArgField : List (String × ArgValue) → String → ArgValue → List (String × ArgValue)
  | [], k, v => [(k, v)]
  | (k', v') :: rest, k, v =>
    if k' = k then (k, v) :: rest else (k', v') :: setArgField rest k v

/-- Modelled from the spec: `merge(other)` lets fields from `other` overwrite
identical names while preserving insertion order (`wtf.db.ArgumentData`
body is not among the provided sources). -/
def ArgumentData.merge (a b : ArgumentData) : ArgumentData :=
  ⟨b.fields.foldl (fun acc p => setArgField acc p.1 p.2) a.fields⟩

/-- Event class (`wtf.data.EventClass`, modelled from the spec: the enum is
not among the provided sources). -/
inductive EventClass where
  | INSTANCE
  | SCOPE
  deriving DecidableEq, Repr, Inhabited

/-- Event flag bits (`wtf.data.EventFlag`, modelled from the spec: the enum is
not among the provided sources; the claims only depend on the bits being
distinct). -/
def EventFlag.SYSTEM_TIME : Nat := 4

/-- INTERNAL flag bit (modelled from the spec, see `EventFlag.SYSTEM_TIME`). -/
def EventFlag.INTERNAL : Nat := 8

/-- BUILTIN flag bit (modelled from the spec, see `EventFlag.SYSTEM_TIME`). -/
def EventFlag.BUILTIN : Nat := 32

/-- Event type definition: name, assigned id, class and flag bitmask
(`wtf.db.EventType` data; the class body is not among the provided sources,
but every field here is read directly by the provided code). -/
structure EventType where
  name : String
  id : Nat := 0
  eventClass : EventClass
  flags : Nat := 0
  deriving DecidableEq, Repr, Inhabited

/-- Modelled from the spec: `wtf.db.EventType.createScope(name)` builds an
on-demand SCOPE-class type with no flags. -/
def EventType.createScope (nm : String) : EventType :=
  { name := nm, id := 0, eventClass := .SCOPE, flags := 0 }

/-- Modelled from the spec: `wtf.db.EventType.createInstance(name)` builds an
on-demand INSTANCE-class type with no flags. -/
def EventType.createInstance (nm : String) : EventType :=
  { name := nm, id := 0, eventClass := .INSTANCE, flags := 0 }

/-- Event type table (`wtf.db.EventTypeTable`): a monotone id counter starting
at 1 (0 is reserved) plus by-id and by-name lookup structures. -/
structure EventTypeTable where
  nextTypeId : Nat := 1
  eventsById : List (Nat × EventType) := []
  eventsByName : List (String × EventType) := []
  deriving DecidableEq, Repr

/-- Fresh table with no definitions. -/
def emptyTable : EventTypeTable := {}

/-- Lookup by event type id (`getById`). -/
def getById (t : EventTypeTable) (i : Nat) : Option EventType :=
  (t.eventsById.find? (fun p => p.1 == i)).map Prod.snd

/-- Lookup by event type name (`getByName`). -/
def getByName (t : EventTypeTable) (nm : String) : Option EventType :=
  (t.eventsByName.find? (fun p => p.1 == nm)).map Prod.snd

/-- Interns an event type by name (`defineType`): a new name receives the next
id and is stored in both lookup structures; an existing name returns the
existing entry with the table unchanged. -/
def defineType (t : EventTypeTable) (et : EventType) : EventType × EventTypeTable :=
  match getByName t et.name with
  | some existing => (existing, t)
  | none =>
    let et' := { et with id := t.nextTypeId }
    (et', { nextTypeId := t.nextTypeId + 1,
            eventsById := (et'.id, et') :: t.eventsById,
            eventsByName := (et'.name, et') :: t.eventsByName })

/-- One packed event record: the twelve `Uint32` cells of
`wtf.db.EventStruct` (part_001). -/
structure EventRecord where
  id : Nat := 0
  type : Nat := 0
  parent : Nat := 0
  depth : Nat := 0
  time : Nat := 0
  nextSibling : Nat := 0
  arguments : Nat := 0
  value : Nat := 0
  tag : Nat := 0
  endTime : Nat := 0
  systemTime : Nat := 0
  childTime : Nat := 0
  deriving DecidableEq, Repr, Inhabited

/-- Reads the record at index `i`; never-written slots of the backing buffer
are all zero, which is exactly the default record. -/
def recAt (d : List EventRecord) (i : Nat) : EventRecord :=
  d.getD i default

/-- Writes the record at index `i`; an out-of-bounds typed-array write is
silently dropped, matching `List.set`. -/
def setRec (d : List EventRecord) (i : Nat) (r : EventRecord) : List EventRecord :=
  d.set i r

/-- Grows the sparse argument-data array so that slot `i` holds `v`
(JavaScript arrays grow on indexed assignment). -/
def argSet (g : List (Option ArgumentData)) (i : Nat) (v : ArgumentData) :
    List (Option ArgumentData) :=
  if i < g.length then g.set i (some v)
  else g ++ List.replicate (i - g.length) none ++ [some v]

/-- Event data list (`wtf.db.EventList`): the record buffer, its capacity, the
interned argument table (slot 0 reserved), cached first/last times in
milliseconds, the maximum scope depth and the shared event type table. -/
structure EventList where
  count : Nat
  capacity : Nat
  eventData : List EventRecord
  argumentData : List (Option ArgumentData)
  nextArgumentDataId : Nat
  firstEventTime : ℚ
  lastEventTime : ℚ
  maximumScopeDepth : Nat
  eventTypeTable : EventTypeTable
  deriving DecidableEq, Repr

/-- Fresh event list over the given type table. -/
def emptyEventList (t : EventTypeTable) : EventList :=
  { count := 0, capacity := 0, eventData := [], argumentData := [none],
    nextArgumentDataId := 1, firstEventTime := 0, lastEventTime := 0,
    maximumScopeDepth := 0, eventTypeTable := t }

/-- Inserts one event (`EventList.insert`): grows the capacity (doubling, at
least 1024 records) when `count + 1 >= capacity`, appends a record with
`PARENT = ToUint32(-1)`, the given type id and time, and interns the
optional argument bag under the next argument-data id. -/
def EventList.insert (st : EventList) (eventType : EventType) (time : Nat)
    (argData : Option ArgumentData) : EventList :=
  let capacity := if st.count + 1 ≥ st.capacity then max (st.capacity * 2) 1024 else st.capacity
  let argCell := match argData with
    | none => 0
    | some _ => st.nextArgumentDataId % u32
  let argTable := match argData with
    | none => st.argumentData
    | some bag => argSet st.argumentData st.nextArgumentDataId bag
  let nextId := match argData with
    | none => st.nextArgumentDataId
    | some _ => st.nextArgumentDataId + 1
  let r : EventRecord :=
    { id := st.count % u32, type := eventType.id % u32, parent := u32 - 1,
      depth := 0, time := time % u32, nextSibling := 0, arguments := argCell,
      value := 0, tag := 0, endTime := 0, systemTime := 0, childTime := 0 }
  { st with
    count := st.count + 1
    capacity := capacity
    eventData := st.eventData ++ [r]
    argumentData := argTable
    nextArgumentDataId := nextId }

/-- One call of the insertion interface: type, time in microseconds and
optional argument data. -/
structure InsertCall where
  eventType : EventType
  time : Nat
  args : Option ArgumentData
  deriving DecidableEq, Repr, Inhabited

/-- Folds a batch of `insert` calls over an event list. -/
def insertAll (st : EventList) (evs : List InsertCall) : EventList :=
  evs.foldl (fun s e => s.insert e.eventType e.time e.args) st

/-- Comparator used by `resortEvents_`: time ascending, ties by the stored ID
cell (the source comparator returns `atime - btime`, falling back to the
difference of the ID cells). -/
def idxLE (d : List EventRecord) (i j : Nat) : Prop :=
  (recAt d i).time < (recAt d j).time ∨
    ((recAt d i).time = (recAt d j).time ∧ (recAt d i).id ≤ (recAt d j).id)

instance (d : List EventRecord) (i j : Nat) : Decidable (idxLE d i j) := by
  unfold idxLE; infer_instance

instance (d : List EventRecord) : IsTotal Nat (idxLE d) := by
  constructor
  intro i j
  unfold idxLE
  omega

instance (d : List EventRecord) : IsTrans Nat (idxLE d) := by
  constructor
  intro i j k hij hjk
  unfold idxLE at *
  omega

/-- Sort permutation built by `resortEvents_`: the index array `[0, count)`
sorted by the time/id comparator.  The source uses the engine sort; since
the comparator is a total order that is antisymmetric on the distinct ID
cells, any correct sort produces this unique sorted permutation. -/
def resortPerm (st : EventList) : List Nat :=
  List.insertionSort (idxLE st.eventData) (List.range st.count)

/-- Resort pass (`resortEvents_`): materializes the records in sorted order,
renumbers every ID cell to its new index, and recomputes the cached
first/last event times (in milliseconds; the last time uses the end time
when the last record is a scope). -/
def EventList.resortEvents (st : EventList) : EventList :=
  let sortIndex := resortPerm st
  let sorted := sortIndex.map (fun oldIdx => recAt st.eventData oldIdx)
  let newData := (List.range st.count).map (fun n => { recAt sorted n with id := n % u32 })
  let firstT : ℚ := if st.count ≠ 0 then ((recAt newData 0).time : ℚ) / 1000 else 0
  let lastT : ℚ :=
    if st.count ≠ 0 then
      let rl := recAt newData (st.count - 1)
      if rl.endTime ≠ 0 then (rl.endTime : ℚ) / 1000 else (rl.time : ℚ) / 1000
    else 0
  { st with eventData := newData, firstEventTime := firstT, lastEventTime := lastT }

/-- Special builtin handler ids resolved once at the top of `rescopeEvents_`;
`-1` stands for a type that is not defined. -/
structure SpecialIds where
  scopeEnterId : Int
  scopeLeaveId : Int
  appendScopeDataId : Int
  timeStampId : Int
  deriving DecidableEq, Repr

/-- Resolves the id of a named type, `-1` when absent. -/
def specialId (t : EventTypeTable) (nm : String) : Int :=
  match getByName t nm with
  | some e => (e.id : Int)
  | none => -1

/-- The four builtin handler ids of `rescopeEvents_`. -/
def specialIdsOf (t : EventTypeTable) : SpecialIds :=
  { scopeEnterId := specialId t "wtf.scope#enter"
    scopeLeaveId := specialId t "wtf.scope#leave"
    appendScopeDataId := specialId t "wtf.scope#appendData"
    timeStampId := specialId t "wtf.trace#timeStamp" }

/-- Point update of a stack modelled as a function. -/
def upd {α : Type} (f : Nat → α) (i : Nat) (v : α) : Nat → α :=
  fun j => if j = i then v else f j

/-- State threaded through the forward scan of `rescopeEvents_`: the data
buffer, the (shared) type table, the argument table, the four parallel
stacks (`stack`, `typeStack`, `childTimeStack`, `systemTimeStack`), the
stack top and the maximum observed depth. -/
structure RescopeState where
  data : List EventRecord
  table : EventTypeTable
  argTable : List (Option ArgumentData)
  stack : Nat → Nat
  typeStack : Nat → Option EventType
  childTimeStack : Nat → Nat
  systemTimeStack : Nat → Nat
  stackTop : Nat
  stackMax : Nat

/-- Pushes an open scope: the record id goes on `stack`, the type on
`typeStack`, and the maximum depth is updated.  The source stack is a fixed
`Uint32Array(256)`; a deeper push silently corrupts the source state, so
the model fails there instead (see the file comment). -/
def pushScope (s : RescopeState) (recId : Nat) (ty : EventType) : Option RescopeState :=
  let top := s.stackTop + 1
  if top > 255 then none
  else some { s with
    stack := upd s.stack top recId
    typeStack := upd s.typeStack top (some ty)
    stackTop := top
    stackMax := max s.stackMax top }

/-- The name key a generic event resolves through: the `"name"` argument
converted to a property key (an absent value reads as `undefined`, which
JavaScript keys as the string `"undefined"`). -/
def nameKeyOf (bag : ArgumentData) : String :=
  match bag.get "name" with
  | some v => v.toKeyString
  | none => "undefined"

/-- Applies `appendScopeData_`: when the target scope record has no argument
bag its ARGUMENTS cell simply adopts `argsId`; otherwise the bag of
`argsId` is merged into the scope's bag.  A missing bag on the merge path
throws in the source (modelled as `none`). -/
def applyAppendScopeData (d : List EventRecord) (g : List (Option ArgumentData))
    (scopeId argsId : Nat) : Option (List EventRecord × List (Option ArgumentData)) :=
  let sc := recAt d scopeId
  if sc.arguments = 0 then
    some (setRec d scopeId { sc with arguments := argsId }, g)
  else
    match g.getD sc.arguments none, g.getD argsId none with
    | some target, some src => some (d, g.set sc.arguments (some (target.merge src)))
    | _, _ => none

/-- The next-event id read at the top of each scan iteration: the ID cell of
record `n + 1`, or 0 for the last record. -/
def nextIdOf (count n : Nat) (d : List EventRecord) : Nat :=
  if n < count - 1 then (recAt d (n + 1)).id else 0

/-- The common prefix of each `rescopeEvents_` iteration: writes PARENT (the
current stack top), DEPTH (the stack height) and the provisional
NEXT_SIBLING of record `n`. -/
def prepRecord (count n : Nat) (s : RescopeState) : List EventRecord :=
  let parentId := s.stack s.stackTop
  let d1 := setRec s.data n { recAt s.data n with parent := parentId, depth := s.stackTop }
  setRec d1 n { recAt d1 n with nextSibling := nextIdOf count n d1 }

/-- The generic `wtf.scope#enter` branch: resolves (or defines) the on-demand
SCOPE type named by the `"name"` argument, rewrites the TYPE cell, and
pushes the scope.  A missing argument bag is a `TypeError` in the source. -/
def genericEnterBranch (count n : Nat) (s : RescopeState) : Option RescopeState :=
  let d2 := prepRecord count n s
  match s.argTable.getD ((recAt d2 n).arguments) none with
  | none => none
  | some bag =>
    let nm := nameKeyOf bag
    let rt := match getByName s.table nm with
      | some t => (t, s.table)
      | none => defineType s.table (EventType.createScope nm)
    let d3 := setRec d2 n { recAt d2 n with type := rt.1.id % u32 }
    pushScope { s with data := d3, table := rt.2 } ((recAt d3 n).id) rt.1

/-- The `wtf.scope#leave` branch: zeroes the leave's NEXT_SIBLING, pops the
stack, closes the popped scope (NEXT_SIBLING fix-up, END_TIME, SYSTEM_TIME,
CHILD_TIME) and rolls the timing accumulators into the new top.  Note the
source reads `typeStack[stackTop]` after the decrement — the new top's
type, not the popped scope's.  A leave on an empty stack dereferences
`typeStack[-1]` in the source (a `TypeError`). -/
def leaveBranch (count n : Nat) (s : RescopeState) : Option RescopeState :=
  let parentId := s.stack s.stackTop
  let d2 := prepRecord count n s
  let nextEventId := nextIdOf count n d2
  let d3 := setRec d2 n { recAt d2 n with nextSibling := 0 }
  if s.stackTop = 0 then none
  else
    let top := s.stackTop - 1
    let d4 := setRec d3 parentId { recAt d3 parentId with nextSibling := nextEventId }
    let time := (recAt d4 n).time
    let duration : Int := (time : Int) - ((recAt d4 parentId).time : Int)
    let d5 := setRec d4 parentId { recAt d4 parentId with endTime := time }
    let childTime := s.childTimeStack top
    let systemTime := s.systemTimeStack top
    let d6 := setRec d5 parentId
      { recAt d5 parentId with systemTime := systemTime, childTime := childTime }
    let cts1 := upd s.childTimeStack top 0
    let sts1 := upd s.systemTimeStack top 0
    if top ≠ 0 then
      match s.typeStack top with
      | none => none
      | some pt =>
        let cts2 := upd cts1 (top - 1)
          (Int.toNat (((cts1 (top - 1) : Int) + duration) % (u32 : Int)))
        let sysT : Int :=
          if pt.flags &&& EventFlag.SYSTEM_TIME ≠ 0 then (systemTime : Int) + duration
          else (systemTime : Int)
        let sts2 := upd sts1 (top - 1)
          (Int.toNat (((sts1 (top - 1) : Int) + sysT) % (u32 : Int)))
        some { s with data := d6, stackTop := top, childTimeStack := cts2, systemTimeStack := sts2 }
    else
      some { s with data := d6, stackTop := top, childTimeStack := cts1, systemTimeStack := sts1 }

/-- The `wtf.scope#appendData` branch: merges the event's bag into the
current top-of-stack scope through `appendScopeData_`. -/
def appendBranch (count n : Nat) (s : RescopeState) : Option RescopeState :=
  let d2 := prepRecord count n s
  match applyAppendScopeData d2 s.argTable (s.stack s.stackTop) ((recAt d2 n).arguments) with
  | none => none
  | some dg => some { s with data := dg.1, argTable := dg.2 }

/-- The `wtf.trace#timeStamp` branch: resolves (or defines) the on-demand
INSTANCE type named by the `"name"` argument and rewrites the TYPE cell. -/
def timeStampBranch (count n : Nat) (s : RescopeState) : Option RescopeState :=
  let d2 := prepRecord count n s
  match s.argTable.getD ((recAt d2 n).arguments) none with
  | none => none
  | some bag =>
    let nm := nameKeyOf bag
    let rt := match getByName s.table nm with
      | some t => (t, s.table)
      | none => defineType s.table (EventType.createInstance nm)
    let d3 := setRec d2 n { recAt d2 n with type := rt.1.id % u32 }
    some { s with data := d3, table := rt.2 }

/-- The residual branch: looks the type up by id and pushes SCOPE-class
events; a missing type is a `TypeError` in the source. -/
def otherBranch (count n : Nat) (s : RescopeState) : Option RescopeState :=
  let d2 := prepRecord count n s
  match getById s.table ((recAt d2 n).type) with
  | none => none
  | some ty =>
    if ty.eventClass = EventClass.SCOPE then
      pushScope { s with data := d2 } ((recAt d2 n).id) ty
    else
      some { s with data := d2 }

/-- One iteration of the `rescopeEvents_` scan for record `n`: the common
prefix, then the dispatch on the type id exactly in the order of the source
(`wtf.scope#enter`, `wtf.scope#leave`, `wtf.scope#appendData`,
`wtf.trace#timeStamp`, other).  `none` marks the corner cases where the
source throws or corrupts its stack. -/
def rescopeStep (ids : SpecialIds) (count : Nat) (n : Nat) (s : RescopeState) :
    Option RescopeState :=
  let typeId := (recAt (prepRecord count n s) n).type
  if (typeId : Int) = ids.scopeEnterId then genericEnterBranch count n s
  else if (typeId : Int) = ids.scopeLeaveId then leaveBranch count n s
  else if (typeId : Int) = ids.appendScopeDataId then appendBranch count n s
  else if (typeId : Int) = ids.timeStampId then timeStampBranch count n s
  else otherBranch count n s

/-- Runs the rescope scan from record `n` with explicit fuel (structural so
that concrete runs reduce definitionally). -/
def rescopeIter (ids : SpecialIds) (count : Nat) : Nat → Nat → RescopeState → Option RescopeState
  | 0, _, s => some s
  | fuel + 1, n, s =>
    if n < count then
      match rescopeStep ids count n s with
      | none => none
      | some s' => rescopeIter ids count fuel (n + 1) s'
    else some s

/-- Initial scan state: zeroed stacks, empty type stack, depth 0. -/
def initRescope (st : EventList) : RescopeState :=
  { data := st.eventData, table := st.eventTypeTable, argTable := st.argumentData,
    stack := fun _ => 0, typeStack := fun _ => none,
    childTimeStack := fun _ => 0, systemTimeStack := fun _ => 0,
    stackTop := 0, stackMax := 0 }

/-- Rescope pass (`rescopeEvents_`): resolves the four builtin handler ids,
scans every record once and stores the maximum observed scope depth. -/
def EventList.rescopeEvents (st : EventList) : Option EventList :=
  let ids := specialIdsOf st.eventTypeTable
  match rescopeIter ids st.count st.count 0 (initRescope st) with
  | none => none
  | some e => some { st with
      eventData := e.data
      eventTypeTable := e.table
      argumentData := e.argTable
      maximumScopeDepth := e.stackMax }

/-- Rebuild (`EventList.rebuild`): resort then rescope.  The ancillary-list
rebuild that follows in the source only reads the buffer (the frame list
dispatch is modelled separately by `frameDispatch`). -/
def EventList.rebuild (st : EventList) : Option EventList :=
  st.resortEvents.rescopeEvents

/-- Binary search loop of `getIndexOfEventNearTime`, with structural fuel:
shrinks `[low, high]` towards the first index whose TIME cell is not below
`t` (microseconds, as a rational because the caller multiplies a
millisecond `Number`). -/
def nearTimeLoop (d : List EventRecord) (t : ℚ) : Nat → Nat → Nat → Nat
  | 0, low, _ => low
  | fuel + 1, low, high =>
    if low < high then
      let mid := (low + high) / 2
      if ((recAt d mid).time : ℚ) < t then nearTimeLoop d t fuel (mid + 1) high
      else nearTimeLoop d t fuel low mid
    else low

/-- Near-time lookup (`getIndexOfEventNearTime`): multiplies the millisecond
query by 1000, binary searches `[0, count - 1]` and returns `low - 1`
unless `low` is zero.  With `count = 0` the JavaScript loop bound is `-1`
and the function returns 0; truncated subtraction gives the same result. -/
def EventList.getIndexOfEventNearTime (st : EventList) (time : ℚ) : Nat :=
  let t := time * 1000
  let low := nearTimeLoop st.eventData t st.count 0 (st.count - 1)
  if low ≠ 0 then low - 1 else 0

/-- Frame of the frame list.  Modelled from the spec: `wtf.db.Frame` is not
among the provided sources; per the spec it is keyed by the `number`
argument and carries the times of its start and end events (0, which reads
as missing, until they are seen).  Times are in milliseconds as returned
by the event iterator. -/
structure Frame where
  numberKey : String
  startTime : ℚ := 0
  endTime : ℚ := 0
  deriving DecidableEq, Repr, Inhabited

/-- State of `wtf.db.FrameList`: the sparse number-keyed map and the densely
packed list.  The dense list stores the keys; the shared mutable `Frame`
objects of the source are recovered by resolving keys through the map. -/
structure FrameListState where
  frames : List (String × Frame) := []
  frameList : List String := []
  deriving DecidableEq, Repr

/-- Lookup in the sparse frame map. -/
def lookupFrame (l : List (String × Frame)) (k : String) : Option Frame :=
  (l.find? (fun p => p.1 == k)).map Prod.snd

/-- Updates the entry under `k` in place, appending when absent. -/
def setFrameEntry : List (String × Frame) → String → Frame → List (String × Frame)
  | [], k, f => [(k, f)]
  | (k', f') :: rest, k, f =>
    if k' == k then (k, f) :: rest else (k', f') :: setFrameEntry rest k f

/-- Densely packed frames (`frameList_`), resolving each stored key. -/
def FrameListState.denseFrames (fls : FrameListState) : List Frame :=
  fls.frameList.filterMap (fun k => lookupFrame fls.frames k)

/-- Handles one subscribed event (`FrameList.handleEvent`): reads the `number`
argument (an absent bag or value keys the map under `"undefined"`),
creates the frame on first sight, and records the event time as the start
(`eventTypeIndex = 0`) or end (`eventTypeIndex = 1`) time. -/
def FrameListState.handleEvent (fls : FrameListState) (eventTypeIndex : Nat)
    (r : EventRecord) (g : List (Option ArgumentData)) : FrameListState :=
  let number := match g.getD r.arguments none with
    | some bag =>
      match bag.get "number" with
      | some v => v.toKeyString
      | none => "undefined"
    | none => "undefined"
  let found := lookupFrame fls.frames number
  let fr := match found with
    | some f => f
    | none => { numberKey := number }
  let fls1 := match found with
    | some _ => fls
    | none => { frames := setFrameEntry fls.frames number fr
                frameList := fls.frameList ++ [number] }
  let timeMs : ℚ := (r.time : ℚ) / 1000
  let fr' :=
    if eventTypeIndex = 0 then { fr with startTime := timeMs }
    else if eventTypeIndex = 1 then { fr with endTime := timeMs }
    else fr
  { fls1 with frames := setFrameEntry fls1.frames number fr' }

/-- Finalizes a rebuild (`FrameList.endRebuild`): frames whose start or end
time reads falsy are dropped from the dense list and deleted from the
sparse map. -/
def FrameListState.endRebuild (fls : FrameListState) : FrameListState :=
  let dense := fls.denseFrames
  let valid := dense.filter (fun f => f.startTime ≠ 0 ∧ f.endTime ≠ 0)
  let invalidKeys := (dense.filter (fun f => ¬(f.startTime ≠ 0 ∧ f.endTime ≠ 0))).map
    Frame.numberKey
  { frames := fls.frames.filter (fun p => ¬ invalidKeys.contains p.1)
    frameList := valid.map Frame.numberKey }

/-- Ancillary dispatch of `rebuildAncillaryLists_` specialized to one frame
list: `beginRebuild` subscribes `wtf.timing#frameStart` (index 0) and
`wtf.timing#frameEnd` (index 1, skipped if undefined), and every record of
the rebuilt buffer is dispatched in order to the handlers whose type id
matches. -/
def frameDispatch (el : EventList) (fls0 : FrameListState) : FrameListState :=
  let tStart := getByName el.eventTypeTable "wtf.timing#frameStart"
  let tEnd := getByName el.eventTypeTable "wtf.timing#frameEnd"
  (List.range el.count).foldl
    (fun fls n =>
      let r := recAt el.eventData n
      let fls := match tStart with
        | some t => if t.id = r.type then fls.handleEvent 0 r el.argumentData else fls
        | none => fls
      match tEnd with
      | some t => if t.id = r.type then fls.handleEvent 1 r el.argumentData else fls
      | none => fls)
    fls0

/-- Full frame-list rebuild over a rebuilt event list: dispatch then
`endRebuild`. -/
def rebuildFrameList (el : EventList) : FrameListState :=
  (frameDispatch el {}).endRebuild

/-- The `goog.array.binarySearch_` loop used by `getFrameAtTime` through
`goog.array.binarySelect`, with the evaluator modelled from the spec as
`Frame.selector(target, frame) = sign(target.time - frame.time)`: returns
the leftmost index whose frame time equals the target, or
`-(insertion point) - 1`. -/
def frameBinSearch (arr : List Frame) (t : ℚ) : Nat → Nat → Nat → Bool → Int
  | 0, left, _, found => if found then (left : Int) else -(left : Int) - 1
  | fuel + 1, left, right, found =>
    if left < right then
      let mid := (left + right) / 2
      let fr := arr.getD mid default
      if t > fr.startTime then frameBinSearch arr t fuel (mid + 1) right found
      else frameBinSearch arr t fuel left mid (t == fr.startTime)
    else if found then (left : Int) else -(left : Int) - 1

/-- Time lookup (`FrameList.getFrameAtTime`): binary-selects over the dense
list, maps a miss to the element before the insertion point, clamps into
range, and answers the frame only when it actually contains the time. -/
def FrameListState.getFrameAtTime (fls : FrameListState) (t : ℚ) : Option Frame :=
  let dense := fls.denseFrames
  if dense.length = 0 then none
  else
    let idx0 : Int := frameBinSearch dense t (dense.length + 1) 0 dense.length false
    let idx1 : Int := if idx0 < 0 then -idx0 - 2 else idx0
    let idx2 : Int := min (max idx1 0) ((dense.length : Int) - 1)
    let fr := dense.getD idx2.toNat default
    if fr.startTime ≤ t ∧ t ≤ fr.endTime then some fr else none

/-- Total scope duration in milliseconds as read by
`EventIterator.getTotalDuration` (`(END_TIME - TIME) / 1000` over JavaScript
numbers, modelled exactly as a rational). -/
def getTotalDurationQ (r : EventRecord) : ℚ :=
  ((r.endTime : ℚ) - (r.time : ℚ)) / 1000

/-- User scope duration in milliseconds as read by
`EventIterator.getUserDuration` (`(END_TIME - TIME - SYSTEM_TIME) / 1000`). -/
def getUserDurationQ (r : EventRecord) : ℚ :=
  ((r.endTime : ℚ) - (r.time : ℚ) - (r.systemTime : ℚ)) / 1000

/-- The `| 0` coercion of JavaScript applied to an integer: wrap into the
signed 32-bit range. -/
def toInt32 (x : Int) : Int :=
  let m := x % (u32 : Int)
  if m < 2147483648 then m else m - (u32 : Int)

/-- A scope entry of the statistics table (`wtf.db.ScopeEventDataEntry`):
count, total and user time accumulators and the 1000 one-millisecond
histogram buckets (a `Uint32Array`). -/
structure ScopeEventDataEntry where
  eventType : EventType
  count : Nat := 0
  totalTime : ℚ := 0
  userTime : ℚ := 0
  buckets : List Nat := List.replicate 1000 0
  deriving DecidableEq, Repr

/-- Appends one scope event (`ScopeEventDataEntry.appendEvent`): bumps the
count, accumulates the durations, and increments the bucket
`Math.round(userDuration) | 0`, capped above at 999.  A negative index
(impossible for well-formed scopes) would be an ignored out-of-range
typed-array write. -/
def ScopeEventDataEntry.appendEvent (e : ScopeEventDataEntry) (r : EventRecord) :
    ScopeEventDataEntry :=
  let userDuration := getUserDurationQ r
  let b0 : Int := toInt32 (round userDuration)
  let bucketIndex : Int := if b0 ≥ 1000 then 999 else b0
  let buckets :=
    if 0 ≤ bucketIndex ∧ bucketIndex < 1000 then
      e.buckets.set bucketIndex.toNat ((e.buckets.getD bucketIndex.toNat 0 + 1) % u32)
    else e.buckets
  { e with
    count := e.count + 1
    totalTime := e.totalTime + getTotalDurationQ r
    userTime := e.userTime + userDuration
    buckets := buckets }

/-- Mean time of a scope entry (`ScopeEventDataEntry.getMeanTime`): zero when
no events were recorded, otherwise total time per event for SYSTEM_TIME
flagged types and user time per event for the rest. -/
def ScopeEventDataEntry.getMeanTime (e : ScopeEventDataEntry) : ℚ :=
  if e.count ≠ 0 then
    if e.eventType.flags &&& EventFlag.SYSTEM_TIME ≠ 0 then e.totalTime / (e.count : ℚ)
    else e.userTime / (e.count : ℚ)
  else 0

/-! Basic buffer lemmas. -/

theorem length_setRec (d : List EventRecord) (i : Nat) (r : EventRecord) :
    (setRec d i r).length = d.length :=
  List.length_set d i r

theorem recAt_setRec_self {d : List EventRecord} {i : Nat} (h : i < d.length)
    (r : EventRecord) : recAt (setRec d i r) i = r := by
  simp [recAt, setRec, List.getD_eq_getElem?_getD, List.getElem?_set_self h]

theorem recAt_setRec_ne {d : List EventRecord} {i j : Nat} (h : i ≠ j)
    (r : EventRecord) : recAt (setRec d i r) j = recAt d j := by
  simp [recAt, setRec, List.getD_eq_getElem?_getD, List.getElem?_set_ne h]

theorem recAt_append_lt {d : List EventRecord} {i : Nat} (h : i < d.length)
    (r : EventRecord) : recAt (d ++ [r]) i = recAt d i := by
  simp [recAt, List.getD_eq_getElem?_getD, List.getElem?_append, h]

theorem recAt_append_self {d : List EventRecord} (r : EventRecord) :
    recAt (d ++ [r]) d.length = r := by
  simp [recAt, List.getD_eq_getElem?_getD, List.getElem?_append_right (Nat.le_refl _)]

/-! Scenario fixtures used by the concrete claim theorems.  The rational
operations of Batteries are sealed; unsealing them lets `decide` evaluate
the concrete runs below. -/

unseal Rat.mul Rat.inv Rat.add Rat.sub Rat.ofScientific

/-- SCOPE-class event type `a` with no flags. -/
def tyScopeA : EventType := { name := "a", id := 1, eventClass := .SCOPE, flags := 0 }

/-- SCOPE-class event type `b` carrying the SYSTEM_TIME flag. -/
def tyScopeB : EventType := { name := "b", id := 2, eventClass := .SCOPE, flags := 4 }

/-- The builtin `wtf.scope#leave` handler type. -/
def tyLeave : EventType :=
  { name := "wtf.scope#leave", id := 3, eventClass := .INSTANCE, flags := 0 }

/-- Table for the system-time attribution scenario (spec S3). -/
def c2Table : EventTypeTable :=
  { nextTypeId := 4
    eventsById := [(1, tyScopeA), (2, tyScopeB), (3, tyLeave)]
    eventsByName := [("a", tyScopeA), ("b", tyScopeB), ("wtf.scope#leave", tyLeave)] }

/-- Events of spec S3: scope `a` on `[0, 500]` directly containing the
SYSTEM_TIME-flagged scope `b` on `[100, 300]` (duration 200 μs). -/
def c2Events : List InsertCall :=
  [ { eventType := tyScopeA, time := 0, args := none }
  , { eventType := tyScopeB, time := 100, args := none }
  , { eventType := tyLeave, time := 300, args := none }
  , { eventType := tyLeave, time := 500, args := none } ]

/-- The builtin `wtf.scope#appendData` handler type. -/
def tyAppend : EventType :=
  { name := "wtf.scope#appendData", id := 1, eventClass := .INSTANCE, flags := 0 }

/-- Plain INSTANCE-class event type `x`. -/
def tyInstX : EventType := { name := "x", id := 2, eventClass := .INSTANCE, flags := 0 }

/-- Table for the empty-stack appendScopeData scenario. -/
def c4Table : EventTypeTable :=
  { nextTypeId := 3
    eventsById := [(1, tyAppend), (2, tyInstX)]
    eventsByName := [("wtf.scope#appendData", tyAppend), ("x", tyInstX)] }

/-- Events for the empty-stack appendScopeData scenario: an argument-less
instance event followed by an appendScopeData event while no scope is
open. -/
def c4Events : List InsertCall :=
  [ { eventType := tyInstX, time := 0, args := none }
  , { eventType := tyAppend, time := 10, args := some ⟨[("foo", .int 7)]⟩ } ]

/-- The builtin `wtf.scope#enter` handler type. -/
def tyEnter : EventType :=
  { name := "wtf.scope#enter", id := 1, eventClass := .SCOPE, flags := 0 }

/-- A pre-declared INSTANCE-class type whose name `foo` collides with an
on-demand scope name. -/
def tyInstFoo : EventType := { name := "foo", id := 2, eventClass := .INSTANCE, flags := 0 }

/-- Plain INSTANCE-class event type `y`. -/
def tyInstY : EventType := { name := "y", id := 3, eventClass := .INSTANCE, flags := 0 }

/-- Table for the rebuild-idempotence counterexample: a generic enter will
resolve by name to the INSTANCE-class `foo`. -/
def c6Table : EventTypeTable :=
  { nextTypeId := 4
    eventsById := [(1, tyEnter), (2, tyInstFoo), (3, tyInstY)]
    eventsByName := [("wtf.scope#enter", tyEnter), ("foo", tyInstFoo), ("y", tyInstY)] }

/-- Events for the rebuild-idempotence counterexample: a generic scope enter
naming `foo`, then an instance event that lands inside the pushed scope. -/
def c6Events : List InsertCall :=
  [ { eventType := tyEnter, time := 0, args := some ⟨[("name", .str "foo")]⟩ }
  , { eventType := tyInstY, time := 10, args := none } ]

/-- Table for the near-time counterexample: one plain instance type. -/
def c3Table : EventTypeTable :=
  { nextTypeId := 4
    eventsById := [(3, tyInstY)]
    eventsByName := [("y", tyInstY)] }

/-- Events for the near-time counterexample: instance events at 1000 μs and
2000 μs. -/
def c3Events : List InsertCall :=
  [ { eventType := tyInstY, time := 1000, args := none }
  , { eventType := tyInstY, time := 2000, args := none } ]

/-- C2. During rebuild's re-scope pass the source consults
`typeStack[stackTop]` after the pop, i.e. the flags of the new top of the
stack (the parent), not the popped scope's own type.  On the S3 scenario
(scope `a` containing the SYSTEM_TIME-flagged scope `b` of duration 200 μs
and nothing else) the rebuilt buffer therefore carries SYSTEM_TIME = 0 for
`a` where the claim requires 200.  This evaluates the modelled code at the
failing input. -/
theorem claim_C2_system_time_eval :
    (EventList.rebuild (insertAll (emptyEventList c2Table) c2Events)).map
        (fun st => ((recAt st.eventData 0).time, (recAt st.eventData 0).endTime,
          (recAt st.eventData 1).time, (recAt st.eventData 1).endTime,
          (recAt st.eventData 0).systemTime, (recAt st.eventData 0).childTime)) =
      some (0, 500, 100, 300, 0, 200) ∧
    (EventList.rebuild (insertAll (emptyEventList c2Table) c2Events)).map
        (fun st => (recAt st.eventData 0).systemTime) ≠ some 200 := by
  constructor
  · decide
  · decide

/-- C4, counterexample. An `wtf.scope#appendData` event processed while no
scope is open is not ignored: it is applied to record index 0 (the stack
sentinel).  Here record 0 is an argument-less instance event whose
ARGUMENTS cell is 0 before rebuild and 1 (the append event's interned bag)
after rebuild, while the claim requires every record's ARGUMENTS cell to be
left unmodified.  The append record itself stays an instance event. -/
theorem claim_C4_counterexample :
    (recAt (insertAll (emptyEventList c4Table) c4Events).eventData 0).arguments = 0 ∧
    (EventList.rebuild (insertAll (emptyEventList c4Table) c4Events)).map
        (fun st => ((recAt st.eventData 0).arguments, (recAt st.eventData 1).endTime)) =
      some (1, 0) := by
  constructor
  · decide
  · decide

/-- C6, counterexample. Rebuild is not idempotent for every event stream: a
generic `wtf.scope#enter` that resolves by name to a pre-declared
INSTANCE-class type is pushed as a scope during the first rebuild (the
generic-enter branch pushes unconditionally) but not during the second
(the rewritten type dispatches through the class check), so the DEPTH cell
of the following record changes from 1 to 0. -/
theorem claim_C6_counterexample :
    (EventList.rebuild (insertAll (emptyEventList c6Table) c6Events)).isSome = true ∧
    ((EventList.rebuild (insertAll (emptyEventList c6Table) c6Events)).bind
      EventList.rebuild).isSome = true ∧
    ((EventList.rebuild (insertAll (emptyEventList c6Table) c6Events)).bind
        EventList.rebuild).map (fun st => st.eventData) ≠
      (EventList.rebuild (insertAll (emptyEventList c6Table) c6Events)).map
        (fun st => st.eventData) := by
  refine ⟨by decide, by decide, by decide⟩

/-- C3, counterexample. On the rebuilt stream with TIME cells 1000 μs and
2000 μs the query `getIndexOfEventNearTime 2` (2 ms = 2000 μs) returns 0,
while the largest record index whose TIME is ≤ 2000 is 1: the binary
search returns the index before the first record whose TIME reaches the
query, not the last record at or before it. -/
theorem claim_C3_counterexample :
    (EventList.rebuild (insertAll (emptyEventList c3Table) c3Events)).map
        (fun st => (st.count, (recAt st.eventData 1).time,
          st.getIndexOfEventNearTime 2)) = some (2, 2000, 0) := by
  decide

/-- C9. Every `insert(type, time, args?)` appends exactly one record: the
count rises by one, the new record carries the given type id and time with
PARENT = ToUint32(-1) (the -1 sentinel written into a `Uint32Array` cell),
NEXT_SIBLING = 0 and END_TIME = 0, all previously stored records are
untouched, and the capacity doubles (with a floor of 1024 records) exactly
when `count + 1` reaches the old capacity. -/
theorem claim_C9_insert (st : EventList) (et : EventType) (time : Nat)
    (bag : Option ArgumentData) (hwf : st.eventData.length = st.count)
    (hid : et.id < u32) (ht : time < u32) :
    (st.insert et time bag).count = st.count + 1 ∧
    (st.insert et time bag).eventData.length = st.count + 1 ∧
    (∀ i, i < st.count → recAt (st.insert et time bag).eventData i = recAt st.eventData i) ∧
    (recAt (st.insert et time bag).eventData st.count).type = et.id ∧
    (recAt (st.insert et time bag).eventData st.count).time = time ∧
    (recAt (st.insert et time bag).eventData st.count).parent = u32 - 1 ∧
    (recAt (st.insert et time bag).eventData st.count).nextSibling = 0 ∧
    (recAt (st.insert et time bag).eventData st.count).endTime = 0 ∧
    (st.insert et time bag).capacity =
      (if st.count + 1 ≥ st.capacity then max (st.capacity * 2) 1024 else st.capacity) := by
  have main : ∀ ac : Nat, (st.insert et time bag).eventData =
      st.eventData ++ [{
        id := st.count % u32
        type := et.id % u32
        parent := u32 - 1
        time := time % u32
        arguments := ac }] →
      (st.insert et time bag).count = st.count + 1 ∧
      (st.insert et time bag).eventData.length = st.count + 1 ∧
      (∀ i, i < st.count → recAt (st.insert et time bag).eventData i = recAt st.eventData i) ∧
      (recAt (st.insert et time bag).eventData st.count).type = et.id ∧
      (recAt (st.insert et time bag).eventData st.count).time = time ∧
      (recAt (st.insert et time bag).eventData st.count).parent = u32 - 1 ∧
      (recAt (st.insert et time bag).eventData st.count).nextSibling = 0 ∧
      (recAt (st.insert et time bag).eventData st.count).endTime = 0 ∧
      (st.insert et time bag).capacity =
        (if st.count + 1 ≥ st.capacity then max (st.capacity * 2) 1024 else st.capacity) := by
    intro ac hED
    have hlast := recAt_append_self (d := st.eventData)
      (r := {
        id := st.count % u32
        type := et.id % u32
        parent := u32 - 1
        time := time % u32
        arguments := ac })
    rw [hwf] at hlast
    refine ⟨rfl, by rw [hED]; simp [hwf], ?_, ?_, ?_, ?_, ?_, ?_, rfl⟩
    · intro i hi
      have hi' : i < st.eventData.length := by omega
      rw [hED]
      exact recAt_append_lt hi' _
    · rw [hED, hlast]; exact Nat.mod_eq_of_lt hid
    · rw [hED, hlast]; exact Nat.mod_eq_of_lt ht
    · rw [hED, hlast]
    · rw [hED, hlast]
    · rw [hED, hlast]
  cases bag with
  | none => exact main 0 rfl
  | some b => exact main (st.nextArgumentDataId % u32) rfl

/-- Closed witness for `claim_C9_insert` on a concrete one-record insert. -/
theorem claim_C9_insert_witness :
    ((emptyEventList c2Table).insert tyScopeA 42 none).count = 1 ∧
    (recAt ((emptyEventList c2Table).insert tyScopeA 42 none).eventData 0).type = 1 ∧
    ((emptyEventList c2Table).insert tyScopeA 42 none).capacity = 1024 := by
  have h := claim_C9_insert (emptyEventList c2Table) tyScopeA 42 none (by decide)
    (by decide) (by decide)
  refine ⟨h.1, h.2.2.2.1, ?_⟩
  rw [h.2.2.2.2.2.2.2.2]
  decide

/-- Fresh statistics entry for an event type. -/
def freshScopeEntry (ty : EventType) : ScopeEventDataEntry := { eventType := ty }

theorem scopeEntry_fold_projections (ty : EventType) (rs : List EventRecord) :
    (rs.foldl ScopeEventDataEntry.appendEvent (freshScopeEntry ty)).count = rs.length ∧
    (rs.foldl ScopeEventDataEntry.appendEvent (freshScopeEntry ty)).totalTime =
      (rs.map getTotalDurationQ).sum ∧
    (rs.foldl ScopeEventDataEntry.appendEvent (freshScopeEntry ty)).userTime =
      (rs.map getUserDurationQ).sum ∧
    (rs.foldl ScopeEventDataEntry.appendEvent (freshScopeEntry ty)).eventType = ty := by
  suffices h : ∀ (e : ScopeEventDataEntry),
      (rs.foldl ScopeEventDataEntry.appendEvent e).count = e.count + rs.length ∧
      (rs.foldl ScopeEventDataEntry.appendEvent e).totalTime =
        e.totalTime + (rs.map getTotalDurationQ).sum ∧
      (rs.foldl ScopeEventDataEntry.appendEvent e).userTime =
        e.userTime + (rs.map getUserDurationQ).sum ∧
      (rs.foldl ScopeEventDataEntry.appendEvent e).eventType = e.eventType by
    obtain ⟨h1, h2, h3, h4⟩ := h (freshScopeEntry ty)
    rw [show (freshScopeEntry ty).count = 0 from rfl, Nat.zero_add] at h1
    rw [show (freshScopeEntry ty).totalTime = 0 from rfl, zero_add] at h2
    rw [show (freshScopeEntry ty).userTime = 0 from rfl, zero_add] at h3
    rw [show (freshScopeEntry ty).eventType = ty from rfl] at h4
    exact ⟨h1, h2, h3, h4⟩
  induction rs with
  | nil => intro e; simp
  | cons r rest ih =>
    intro e
    have := ih (e.appendEvent r)
    have hc : (e.appendEvent r).count = e.count + 1 := rfl
    have htot : (e.appendEvent r).totalTime = e.totalTime + getTotalDurationQ r := rfl
    have huser : (e.appendEvent r).userTime = e.userTime + getUserDurationQ r := rfl
    have hty : (e.appendEvent r).eventType = e.eventType := rfl
    refine ⟨?_, ?_, ?_, ?_⟩
    · rw [List.foldl_cons, this.1, hc]
      simp
      omega
    · rw [List.foldl_cons, this.2.1, htot]
      simp
      ring
    · rw [List.foldl_cons, this.2.2.1, huser]
      simp
      ring
    · rw [List.foldl_cons, this.2.2.2, hty]

/-- C10. `getMeanTime` never divides by zero: with no recorded events (a fold
of zero `appendEvent` calls) it returns 0, and with at least one event it
returns total-time/count for SYSTEM_TIME flagged types and user-time/count
otherwise. -/
theorem claim_C10_mean_time (ty : EventType) (rs : List EventRecord) :
    (rs = [] →
      (rs.foldl ScopeEventDataEntry.appendEvent (freshScopeEntry ty)).getMeanTime = 0) ∧
    (rs ≠ [] →
      (rs.foldl ScopeEventDataEntry.appendEvent (freshScopeEntry ty)).getMeanTime =
        (if ty.flags &&& EventFlag.SYSTEM_TIME ≠ 0 then (rs.map getTotalDurationQ).sum
         else (rs.map getUserDurationQ).sum) / (rs.length : ℚ)) := by
  obtain ⟨hc, htot, huser, hty⟩ := scopeEntry_fold_projections ty rs
  constructor
  · rintro rfl
    rfl
  · intro hne
    have hlen : rs.length ≠ 0 := by simpa using hne
    rw [ScopeEventDataEntry.getMeanTime, if_pos (by rw [hc]; exact hlen), hty, htot, huser, hc]
    split <;> rfl

/-- Closed witness for `claim_C10_mean_time`: the empty fold and a singleton
fold over an unflagged type. -/
theorem claim_C10_mean_time_witness :
    (([] : List EventRecord).foldl ScopeEventDataEntry.appendEvent
      (freshScopeEntry tyScopeA)).getMeanTime = 0 ∧
    ([({ endTime := 3000 } : EventRecord)].foldl ScopeEventDataEntry.appendEvent
      (freshScopeEntry tyScopeA)).getMeanTime =
      ([({ endTime := 3000 } : EventRecord)].map getUserDurationQ).sum / 1 := by
  constructor
  · exact (claim_C10_mean_time tyScopeA []).1 rfl
  · have h := (claim_C10_mean_time tyScopeA [{ endTime := 3000 }]).2 (by decide)
    simpa using h

/-- Folds a batch of `defineType` calls over a table, keeping the table. -/
def defineAll (t : EventTypeTable) (ets : List EventType) : EventTypeTable :=
  ets.foldl (fun acc et => (defineType acc et).2) t

/-- Invariant of freshly built tables: the id counter is one past the number
of interned names and the by-name entries carry the ids `k, ..., 1` (the
most recent definition first). -/
def TableIdsSpec (t : EventTypeTable) : Prop :=
  t.nextTypeId = t.eventsByName.length + 1 ∧
  t.eventsByName.map (fun p => p.2.id) = (List.range' 1 t.eventsByName.length).reverse

theorem tableIdsSpec_defineType {t : EventTypeTable} (h : TableIdsSpec t)
    (et : EventType) : TableIdsSpec (defineType t et).2 := by
  unfold defineType
  cases hby : getByName t et.name with
  | some e => exact h
  | none =>
    obtain ⟨h1, h2⟩ := h
    refine ⟨?_, ?_⟩
    · simp [h1]
    · simp only [List.map_cons, h2, List.length_cons, h1]
      rw [List.range'_concat]
      simp [Nat.add_comm]

theorem tableIdsSpec_defineAll {t : EventTypeTable} (h : TableIdsSpec t)
    (ets : List EventType) : TableIdsSpec (defineAll t ets) := by
  induction ets generalizing t with
  | nil => exact h
  | cons et rest ih => exact ih (tableIdsSpec_defineType h et)

/-- C7. The event type table interns by name: a name not yet present is
assigned the next id and becomes retrievable by `getById` and `getByName`;
a name collision returns the existing entry unchanged with the table
untouched (no error, no id consumed); and over any fresh build the ids are
assigned monotonically from 1 with no gaps (the by-name entries, newest
first, carry ids `k, ..., 1` and the counter sits at `k + 1`). -/
theorem claim_C7_type_table :
    (∀ (t : EventTypeTable) (et e : EventType),
      getByName t et.name = some e → defineType t et = (e, t)) ∧
    (∀ (t : EventTypeTable) (et : EventType),
      getByName t et.name = none →
        (defineType t et).1 = { et with id := t.nextTypeId } ∧
        (defineType t et).2.nextTypeId = t.nextTypeId + 1 ∧
        getById (defineType t et).2 t.nextTypeId = some { et with id := t.nextTypeId } ∧
        getByName (defineType t et).2 et.name = some { et with id := t.nextTypeId }) ∧
    (∀ ets : List EventType, TableIdsSpec (defineAll emptyTable ets)) := by
  refine ⟨?_, ?_, ?_⟩
  · intro t et e hby
    unfold defineType
    rw [hby]
  · intro t et hby
    unfold defineType
    rw [hby]
    refine ⟨rfl, rfl, ?_, ?_⟩
    · simp [getById]
    · simp [getByName]
  · intro ets
    exact tableIdsSpec_defineAll (by constructor <;> rfl) ets

/-- Closed witness for `claim_C7_type_table`: a collision on `a` leaves the
scenario table unchanged, a fresh define on the empty table receives id 1,
and a two-element fresh build satisfies the id invariant. -/
theorem claim_C7_type_table_witness :
    defineType c2Table { name := "a", eventClass := .INSTANCE, flags := 7 } =
      (tyScopeA, c2Table) ∧
    (defineType emptyTable { name := "z", eventClass := .SCOPE }).1.id = 1 ∧
    TableIdsSpec (defineAll emptyTable
      [{ name := "p", eventClass := .SCOPE }, { name := "q", eventClass := .INSTANCE }]) := by
  refine ⟨?_, ?_, ?_⟩
  · exact claim_C7_type_table.1 c2Table { name := "a", eventClass := .INSTANCE, flags := 7 }
      tyScopeA (by decide)
  · rw [(claim_C7_type_table.2.1 emptyTable { name := "z", eventClass := .SCOPE }
      (by decide)).1]
    rfl
  · exact claim_C7_type_table.2.2
      [{ name := "p", eventClass := .SCOPE }, { name := "q", eventClass := .INSTANCE }]

/-! Histogram lemmas for the statistics scope entry. -/

theorem userDuration_nonneg {r : EventRecord} (h : r.time + r.systemTime ≤ r.endTime) :
    0 ≤ getUserDurationQ r := by
  unfold getUserDurationQ
  have hc : ((r.time : ℚ) + (r.systemTime : ℚ)) ≤ (r.endTime : ℚ) := by
    exact_mod_cast h
  have : (0 : ℚ) ≤ (r.endTime : ℚ) - (r.time : ℚ) - (r.systemTime : ℚ) := by linarith
  positivity

theorem round_userDuration_lt {r : EventRecord} (hend : r.endTime < u32) :
    round (getUserDurationQ r) < 2147483648 := by
  rw [round_eq, Int.floor_lt]
  unfold getUserDurationQ
  have he : ((r.endTime : ℚ)) ≤ 4294967296 := by
    have : (r.endTime : ℚ) ≤ (u32 : ℚ) := by exact_mod_cast Nat.le_of_lt hend
    rw [show (u32 : ℚ) = 4294967296 by norm_num [u32]] at this
    exact this
  have ht : (0 : ℚ) ≤ (r.time : ℚ) := by positivity
  have hs : (0 : ℚ) ≤ (r.systemTime : ℚ) := by positivity
  push_cast
  linarith

theorem appendEvent_eq (e : ScopeEventDataEntry) (r : EventRecord)
    (h : r.time + r.systemTime ≤ r.endTime) (hend : r.endTime < u32) :
    e.appendEvent r = { e with
      count := e.count + 1
      totalTime := e.totalTime + getTotalDurationQ r
      userTime := e.userTime + getUserDurationQ r
      buckets := e.buckets.set (min (round (getUserDurationQ r)).toNat 999)
        ((e.buckets.getD (min (round (getUserDurationQ r)).toNat 999) 0 + 1) % u32) } := by
  have h0 : (0 : ℤ) ≤ round (getUserDurationQ r) := by
    rw [round_eq]
    have hd := userDuration_nonneg h
    have hd2 : (0 : ℚ) ≤ getUserDurationQ r + 1 / 2 := by linarith
    exact Int.le_floor.mpr (by exact_mod_cast hd2)
  have hlt := round_userDuration_lt hend
  have h32 : toInt32 (round (getUserDurationQ r)) = round (getUserDurationQ r) := by
    unfold toInt32
    rw [Int.emod_eq_of_lt h0 (by unfold u32; push_cast; omega)]
    rw [if_pos hlt]
  simp only [ScopeEventDataEntry.appendEvent]
  rw [h32]
  by_cases hc : round (getUserDurationQ r) ≥ 1000
  · rw [if_pos hc, if_pos (by constructor <;> omega)]
    have hmin : min (round (getUserDurationQ r)).toNat 999 = ((999 : Int)).toNat := by
      omega
    rw [hmin]
  · rw [if_neg hc, if_pos (by constructor <;> omega)]
    have hmin : min (round (getUserDurationQ r)).toNat 999 =
        (round (getUserDurationQ r)).toNat := by omega
    rw [hmin]

theorem buckets_sum_fold (rs : List EventRecord) :
    ∀ (e : ScopeEventDataEntry),
      (∀ r ∈ rs, r.time + r.systemTime ≤ r.endTime ∧ r.endTime < u32) →
      e.buckets.length = 1000 → e.buckets.sum + rs.length < u32 →
      (rs.foldl ScopeEventDataEntry.appendEvent e).buckets.sum = e.buckets.sum + rs.length ∧
      (rs.foldl ScopeEventDataEntry.appendEvent e).buckets.length = 1000 := by
  induction rs with
  | nil =>
    intro e _ hlen _
    exact ⟨by simp, hlen⟩
  | cons r rest ih =>
    intro e hr hlen hsum
    have hr0 := hr r (List.mem_cons_self r rest)
    have happ := appendEvent_eq e r hr0.1 hr0.2
    set idx := min (round (getUserDurationQ r)).toNat 999 with hidx
    have hidxlt : idx < 1000 := by omega
    have hidxlt' : idx < e.buckets.length := by omega
    have hold : e.buckets.getD idx 0 = e.buckets[idx] := by
      simp [List.getD_eq_getElem?_getD, List.getElem?_eq_getElem hidxlt']
    have holdle : e.buckets[idx] ≤ e.buckets.sum :=
      List.single_le_sum (by intro x _; omega) _ (List.getElem_mem hidxlt')
    have hlencons : (r :: rest).length = rest.length + 1 := rfl
    rw [hlencons] at hsum
    have hnw : e.buckets.getD idx 0 + 1 < u32 := by
      rw [hold]
      omega
    have hmod : (e.buckets.getD idx 0 + 1) % u32 = e.buckets.getD idx 0 + 1 :=
      Nat.mod_eq_of_lt hnw
    have hbsum : (e.appendEvent r).buckets.sum = e.buckets.sum + 1 := by
      rw [happ]
      show (e.buckets.set idx ((e.buckets.getD idx 0 + 1) % u32)).sum = e.buckets.sum + 1
      rw [hmod, List.sum_set]
      rw [if_pos hidxlt']
      have hsplit : (List.take idx e.buckets).sum + (List.drop idx e.buckets).sum =
          e.buckets.sum := List.sum_take_add_sum_drop _ _
      rw [List.drop_eq_getElem_cons hidxlt'] at hsplit
      rw [List.sum_cons] at hsplit
      rw [hold]
      omega
    have hblen : (e.appendEvent r).buckets.length = 1000 := by
      rw [happ]
      show (e.buckets.set idx _).length = 1000
      rw [List.length_set]
      exact hlen
    have hrest := ih (e.appendEvent r) (fun x hx => hr x (List.mem_cons_of_mem r hx)) hblen
      (by rw [hbsum]; omega)
    rw [List.foldl_cons]
    refine ⟨?_, hrest.2⟩
    rw [hrest.1, hbsum, hlencons]
    omega

/-- C5. For every scope entry built by a sequence of `appendEvent` calls over
well-formed scope records (SYSTEM_TIME within the scope span, cells in
32-bit range, fewer than `2^32` events), the histogram buckets sum to the
count, the histogram has exactly 1000 buckets (so every touched index is
in `[0, 999]`), and each individual `appendEvent` increments exactly the
bucket `min(round(user_duration_ms), 999)`. -/
theorem claim_C5_histogram (ty : EventType) (rs : List EventRecord)
    (hr : ∀ r ∈ rs, r.time + r.systemTime ≤ r.endTime ∧ r.endTime < u32)
    (hlen : rs.length < u32) :
    (rs.foldl ScopeEventDataEntry.appendEvent (freshScopeEntry ty)).count = rs.length ∧
    (rs.foldl ScopeEventDataEntry.appendEvent (freshScopeEntry ty)).buckets.length = 1000 ∧
    (rs.foldl ScopeEventDataEntry.appendEvent (freshScopeEntry ty)).buckets.sum = rs.length ∧
    (∀ (e : ScopeEventDataEntry) (r : EventRecord),
      r.time + r.systemTime ≤ r.endTime → r.endTime < u32 →
      (e.appendEvent r).buckets =
        e.buckets.set (min (round (getUserDurationQ r)).toNat 999)
          ((e.buckets.getD (min (round (getUserDurationQ r)).toNat 999) 0 + 1) % u32)) := by
  have hfresh : (freshScopeEntry ty).buckets.length = 1000 := by
    show (List.replicate 1000 (0 : Nat)).length = 1000
    exact List.length_replicate 1000 0
  have hfreshsum : (freshScopeEntry ty).buckets.sum = 0 := by
    show (List.replicate 1000 (0 : Nat)).sum = 0
    rw [List.sum_replicate, smul_zero]
  have hmain := buckets_sum_fold rs (freshScopeEntry ty) hr hfresh (by rw [hfreshsum]; omega)
  refine ⟨(scopeEntry_fold_projections ty rs).1, hmain.2, ?_, ?_⟩
  · rw [hmain.1, hfreshsum, Nat.zero_add]
  · intro e r h1 h2
    rw [appendEvent_eq e r h1 h2]

/-- Closed witness for `claim_C5_histogram`: two scope records with user
durations 0.4 ms and 5.7 ms land in buckets 0 and 6. -/
theorem claim_C5_histogram_witness :
    ([({ endTime := 400 } : EventRecord), { endTime := 5700 }].foldl
      ScopeEventDataEntry.appendEvent (freshScopeEntry tyScopeA)).buckets.sum = 2 ∧
    ([({ endTime := 400 } : EventRecord), { endTime := 5700 }].foldl
      ScopeEventDataEntry.appendEvent (freshScopeEntry tyScopeA)).count = 2 := by
  have h := claim_C5_histogram tyScopeA [{ endTime := 400 }, { endTime := 5700 }]
    (by intro r hr; fin_cases hr <;> constructor <;> decide) (by decide)
  exact ⟨h.2.2.1, h.1⟩

/-! Structural lemmas about one rescope iteration. -/

theorem prepRecord_length (count n : Nat) (s : RescopeState) :
    (prepRecord count n s).length = s.data.length := by
  unfold prepRecord
  rw [length_setRec, length_setRec]

theorem recAt_prepRecord_ne (count : Nat) {n m : Nat} (s : RescopeState) (hm : m ≠ n) :
    recAt (prepRecord count n s) m = recAt s.data m := by
  simp only [prepRecord]
  rw [recAt_setRec_ne (fun h => hm h.symm), recAt_setRec_ne (fun h => hm h.symm)]

theorem nextIdOf_prepRecord (count n : Nat) (s : RescopeState) :
    nextIdOf count n (prepRecord count n s) = nextIdOf count n s.data := by
  unfold nextIdOf
  by_cases h : n < count - 1
  · rw [if_pos h, if_pos h, recAt_prepRecord_ne count s (by omega)]
  · rw [if_neg h, if_neg h]

theorem recAt_prepRecord_self (count : Nat) {n : Nat} (s : RescopeState)
    (hn : n < s.data.length) :
    recAt (prepRecord count n s) n = { recAt s.data n with
      parent := s.stack s.stackTop
      depth := s.stackTop
      nextSibling := nextIdOf count n s.data } := by
  unfold prepRecord
  have h1 : recAt (setRec s.data n { recAt s.data n with
      parent := s.stack s.stackTop, depth := s.stackTop }) n =
      { recAt s.data n with parent := s.stack s.stackTop, depth := s.stackTop } :=
    recAt_setRec_self hn _
  have h2 : nextIdOf count n (setRec s.data n { recAt s.data n with
      parent := s.stack s.stackTop, depth := s.stackTop }) = nextIdOf count n s.data := by
    unfold nextIdOf
    by_cases h : n < count - 1
    · rw [if_pos h, if_pos h, recAt_setRec_ne (by omega)]
    · rw [if_neg h, if_neg h]
  rw [recAt_setRec_self (by rw [length_setRec]; exact hn), h1, h2]

theorem rescopeStep_append_eq (ids : SpecialIds) (count n : Nat) (s : RescopeState)
    (h1 : ¬ (((recAt (prepRecord count n s) n).type : Int) = ids.scopeEnterId))
    (h2 : ¬ (((recAt (prepRecord count n s) n).type : Int) = ids.scopeLeaveId))
    (h3 : ((recAt (prepRecord count n s) n).type : Int) = ids.appendScopeDataId) :
    rescopeStep ids count n s =
      (applyAppendScopeData (prepRecord count n s) s.argTable (s.stack s.stackTop)
        ((recAt (prepRecord count n s) n).arguments)).map
        (fun dg => { s with data := dg.1, argTable := dg.2 }) := by
  simp only [rescopeStep]
  rw [if_neg h1, if_neg h2, if_pos h3]
  simp only [appendBranch]
  cases applyAppendScopeData (prepRecord count n s) s.argTable (s.stack s.stackTop)
    ((recAt (prepRecord count n s) n).arguments) with
  | none => rfl
  | some dg => rfl

/-- C4, amended. A `wtf.scope#appendData` event processed while no scope is
open (stack top 0, zero sentinel at the stack base, distinct builtin ids)
is not ignored: after the PARENT/DEPTH/NEXT_SIBLING prefix writes, the
event is applied through `appendScopeData_` to record index 0, so record
0's ARGUMENTS cell adopts the event's bag id when it had none and the bags
are merged otherwise; the stack is untouched.  Concretely, on the
two-event scenario, record 0's ARGUMENTS cell becomes 1 and the
appendScopeData record stays an instance event (END_TIME stays 0). -/
theorem claim_C4_append_empty_stack_amended :
    (∀ (ids : SpecialIds) (count n : Nat) (s : RescopeState),
      s.stackTop = 0 → s.stack 0 = 0 →
      ¬ (((recAt (prepRecord count n s) n).type : Int) = ids.scopeEnterId) →
      ¬ (((recAt (prepRecord count n s) n).type : Int) = ids.scopeLeaveId) →
      ((recAt (prepRecord count n s) n).type : Int) = ids.appendScopeDataId →
      rescopeStep ids count n s =
        (applyAppendScopeData (prepRecord count n s) s.argTable 0
          ((recAt (prepRecord count n s) n).arguments)).map
          (fun dg => { s with data := dg.1, argTable := dg.2 })) ∧
    (EventList.rebuild (insertAll (emptyEventList c4Table) c4Events)).map
        (fun st => ((recAt st.eventData 0).arguments, (recAt st.eventData 1).endTime,
          (recAt st.eventData 1).depth)) = some (1, 0, 0) := by
  constructor
  · intro ids count n s hTop hS0 h1 h2 h3
    have e1 : s.stack s.stackTop = 0 := by rw [hTop, hS0]
    rw [rescopeStep_append_eq ids count n s h1 h2 h3, e1]
  · decide

/-- Closed witness for `claim_C4_append_empty_stack_amended`: the general part
applied to the concrete scan state of the scenario at record 1. -/
theorem claim_C4_append_empty_stack_amended_witness :
    rescopeStep (specialIdsOf c4Table) 2 1
      (initRescope ((insertAll (emptyEventList c4Table) c4Events).resortEvents)) =
      (applyAppendScopeData
        (prepRecord 2 1 (initRescope ((insertAll (emptyEventList c4Table) c4Events).resortEvents)))
        (initRescope ((insertAll (emptyEventList c4Table) c4Events).resortEvents)).argTable 0
        ((recAt (prepRecord 2 1
          (initRescope ((insertAll (emptyEventList c4Table) c4Events).resortEvents))) 1).arguments)).map
        (fun dg => { initRescope ((insertAll (emptyEventList c4Table) c4Events).resortEvents) with
          data := dg.1, argTable := dg.2 }) := by
  exact claim_C4_append_empty_stack_amended.1 (specialIdsOf c4Table) 2 1
    (initRescope ((insertAll (emptyEventList c4Table) c4Events).resortEvents))
    rfl rfl (by decide) (by decide) (by decide)

/-! Resort lemmas. -/

theorem resortPerm_length (st : EventList) : (resortPerm st).length = st.count := by
  unfold resortPerm
  rw [List.length_insertionSort, List.length_range]

theorem resortPerm_perm (st : EventList) : (resortPerm st).Perm (List.range st.count) :=
  List.perm_insertionSort _ _

theorem resort_count (st : EventList) : st.resortEvents.count = st.count := rfl

theorem resort_capacity (st : EventList) : st.resortEvents.capacity = st.capacity := rfl

theorem resort_table (st : EventList) :
    st.resortEvents.eventTypeTable = st.eventTypeTable := rfl

theorem resort_argTable (st : EventList) :
    st.resortEvents.argumentData = st.argumentData := rfl

theorem resort_length (st : EventList) : st.resortEvents.eventData.length = st.count := by
  simp only [EventList.resortEvents]
  rw [List.length_map, List.length_range]

theorem resort_recAt (st : EventList) {i : Nat} (hi : i < st.count) :
    recAt st.resortEvents.eventData i =
      { recAt st.eventData ((resortPerm st).getD i 0) with id := i % u32 } := by
  simp only [EventList.resortEvents, recAt, List.getD_eq_getElem?_getD]
  rw [List.getElem?_map, List.getElem?_range hi]
  simp only [Option.map_some', Option.getD_some]
  have hσ : i < (resortPerm st).length := by rw [resortPerm_length]; exact hi
  rw [List.getElem?_map, List.getElem?_eq_getElem hσ]
  have hg : (resortPerm st)[i] = (resortPerm st).getD i 0 := by
    rw [List.getD_eq_getElem?_getD, List.getElem?_eq_getElem hσ]
    rfl
  rw [hg]
  rfl

theorem resort_pairwise (st : EventList) :
    List.Pairwise (idxLE st.eventData) (resortPerm st) := by
  unfold resortPerm
  exact List.sorted_insertionSort _ _

theorem resort_time_mono (st : EventList) : ∀ i j, i ≤ j → j < st.count →
    (recAt st.resortEvents.eventData i).time ≤ (recAt st.resortEvents.eventData j).time := by
  intro i j hij hj
  rcases Nat.eq_or_lt_of_le hij with rfl | hlt
  · exact Nat.le_refl _
  · have hi : i < st.count := Nat.lt_of_lt_of_le hlt (Nat.le_of_lt_succ (Nat.lt_succ_of_lt hj))
    rw [resort_recAt st hi, resort_recAt st hj]
    have hσi : i < (resortPerm st).length := by rw [resortPerm_length]; exact hi
    have hσj : j < (resortPerm st).length := by rw [resortPerm_length]; exact hj
    have hpw := List.pairwise_iff_getElem.mp (resort_pairwise st) i j hσi hσj hlt
    have hgi : (resortPerm st)[i] = (resortPerm st).getD i 0 := by
      rw [List.getD_eq_getElem?_getD, List.getElem?_eq_getElem hσi]; rfl
    have hgj : (resortPerm st)[j] = (resortPerm st).getD j 0 := by
      rw [List.getD_eq_getElem?_getD, List.getElem?_eq_getElem hσj]; rfl
    rw [hgi, hgj] at hpw
    unfold idxLE at hpw
    show (recAt st.eventData ((resortPerm st).getD i 0)).time ≤
      (recAt st.eventData ((resortPerm st).getD j 0)).time
    omega

/-! Rescope preserves the ID and TIME cells, the buffer length and the list
bookkeeping fields. -/

/-- The (id, time) columns of the buffer, which the rescope pass never
writes. -/
def idTimeOf (d : List EventRecord) (m : Nat) : Nat × Nat :=
  ((recAt d m).id, (recAt d m).time)

/-- Relation between the data buffers before and after a rescope step: same
length, same ID and TIME columns. -/
def KeepsIdTime (d d' : List EventRecord) : Prop :=
  d'.length = d.length ∧ ∀ m, idTimeOf d' m = idTimeOf d m

theorem keepsIdTime_refl (d : List EventRecord) : KeepsIdTime d d :=
  ⟨rfl, fun _ => rfl⟩

theorem keepsIdTime_trans {a b c : List EventRecord} (h1 : KeepsIdTime a b)
    (h2 : KeepsIdTime b c) : KeepsIdTime a c :=
  ⟨h2.1.trans h1.1, fun m => (h2.2 m).trans (h1.2 m)⟩

theorem keepsIdTime_setRec (d : List EventRecord) (i : Nat) (r : EventRecord)
    (h1 : r.id = (recAt d i).id) (h2 : r.time = (recAt d i).time) :
    KeepsIdTime d (setRec d i r) := by
  refine ⟨length_setRec d i r, ?_⟩
  intro m
  by_cases hm : m = i
  · subst hm
    by_cases hlt : m < d.length
    · unfold idTimeOf
      rw [recAt_setRec_self hlt, h1, h2]
    · unfold idTimeOf setRec
      rw [List.set_eq_of_length_le (Nat.le_of_not_lt hlt)]
  · unfold idTimeOf
    rw [recAt_setRec_ne (fun h => hm h.symm)]

theorem keepsIdTime_snoc {a b : List EventRecord} (h : KeepsIdTime a b) (i : Nat)
    (r : EventRecord) (h1 : r.id = (recAt b i).id) (h2 : r.time = (recAt b i).time) :
    KeepsIdTime a (setRec b i r) :=
  keepsIdTime_trans h (keepsIdTime_setRec b i r h1 h2)

theorem keepsIdTime_prep (count n : Nat) (s : RescopeState) :
    KeepsIdTime s.data (prepRecord count n s) := by
  show KeepsIdTime s.data (setRec
    (setRec s.data n { recAt s.data n with parent := s.stack s.stackTop, depth := s.stackTop }) n
    { recAt (setRec s.data n
        { recAt s.data n with parent := s.stack s.stackTop, depth := s.stackTop }) n with
      nextSibling := nextIdOf count n (setRec s.data n
        { recAt s.data n with parent := s.stack s.stackTop, depth := s.stackTop }) })
  refine keepsIdTime_snoc (keepsIdTime_snoc (keepsIdTime_refl s.data) _ _ ?_ ?_) _ _ ?_ ?_ <;>
    rfl

theorem keepsIdTime_append (d : List EventRecord) (g : List (Option ArgumentData))
    (scopeId argsId : Nat) {dg : List EventRecord × List (Option ArgumentData)}
    (h : applyAppendScopeData d g scopeId argsId = some dg) : KeepsIdTime d dg.1 := by
  unfold applyAppendScopeData at h
  by_cases hz : (recAt d scopeId).arguments = 0
  · rw [if_pos hz] at h
    injection h with h
    subst h
    refine keepsIdTime_snoc (keepsIdTime_refl d) _ _ ?_ ?_ <;> rfl
  · rw [if_neg hz] at h
    cases ht : g.getD (recAt d scopeId).arguments none with
    | none => rw [ht] at h; cases hsrc : g.getD argsId none <;> rw [hsrc] at h <;> cases h
    | some target =>
      rw [ht] at h
      cases hsrc : g.getD argsId none with
      | none => rw [hsrc] at h; cases h
      | some src =>
        rw [hsrc] at h
        injection h with h
        subst h
        exact keepsIdTime_refl d

theorem pushScope_fields {s : RescopeState} {recId : Nat} {ty : EventType}
    {s' : RescopeState} (h : pushScope s recId ty = some s') :
    s'.data = s.data ∧ s'.table = s.table ∧ s'.argTable = s.argTable ∧
    s'.stackTop = s.stackTop + 1 := by
  unfold pushScope at h
  by_cases htop : s.stackTop + 1 > 255
  · rw [if_pos htop] at h; cases h
  · rw [if_neg htop] at h
    injection h with h
    subst h
    exact ⟨rfl, rfl, rfl, rfl⟩

theorem rescopeStep_keeps {ids : SpecialIds} {count n : Nat} {s s' : RescopeState}
    (h : rescopeStep ids count n s = some s') : KeepsIdTime s.data s'.data := by
  have hprep := keepsIdTime_prep count n s
  have hcases : rescopeStep ids count n s = genericEnterBranch count n s ∨
      rescopeStep ids count n s = leaveBranch count n s ∨
      rescopeStep ids count n s = appendBranch count n s ∨
      rescopeStep ids count n s = timeStampBranch count n s ∨
      rescopeStep ids count n s = otherBranch count n s := by
    simp only [rescopeStep]
    split_ifs
    · exact Or.inl rfl
    · exact Or.inr (Or.inl rfl)
    · exact Or.inr (Or.inr (Or.inl rfl))
    · exact Or.inr (Or.inr (Or.inr (Or.inl rfl)))
    · exact Or.inr (Or.inr (Or.inr (Or.inr rfl)))
  rcases hcases with hb | hb | hb | hb | hb
  · rw [hb] at h
    simp only [genericEnterBranch] at h
    cases hbag : s.argTable.getD ((recAt (prepRecord count n s) n).arguments) none with
    | none => rw [hbag] at h; cases h
    | some bag =>
      rw [hbag] at h
      have hpush := pushScope_fields h
      have hdata : s'.data = setRec (prepRecord count n s) n
          { recAt (prepRecord count n s) n with
            type := (match getByName s.table (nameKeyOf bag) with
              | some t => (t, s.table)
              | none => defineType s.table (EventType.createScope (nameKeyOf bag))).1.id % u32 } :=
        hpush.1
      rw [hdata]
      refine keepsIdTime_snoc hprep _ _ ?_ ?_ <;> rfl
  · rw [hb] at h
    simp only [leaveBranch] at h
    by_cases hTop : s.stackTop = 0
    · rw [if_pos hTop] at h; cases h
    · rw [if_neg hTop] at h
      by_cases h0 : s.stackTop - 1 ≠ 0
      · rw [if_pos h0] at h
        cases hts : s.typeStack (s.stackTop - 1) with
        | none => rw [hts] at h; cases h
        | some pt =>
          rw [hts] at h
          injection h with h
          rw [← h]
          refine keepsIdTime_snoc (keepsIdTime_snoc (keepsIdTime_snoc (keepsIdTime_snoc
            hprep _ _ ?_ ?_) _ _ ?_ ?_) _ _ ?_ ?_) _ _ ?_ ?_ <;> rfl
      · rw [if_neg h0] at h
        injection h with h
        rw [← h]
        refine keepsIdTime_snoc (keepsIdTime_snoc (keepsIdTime_snoc (keepsIdTime_snoc
          hprep _ _ ?_ ?_) _ _ ?_ ?_) _ _ ?_ ?_) _ _ ?_ ?_ <;> rfl
  · rw [hb] at h
    simp only [appendBranch] at h
    cases happ : applyAppendScopeData (prepRecord count n s) s.argTable (s.stack s.stackTop)
        ((recAt (prepRecord count n s) n).arguments) with
    | none => rw [happ] at h; cases h
    | some dg =>
      rw [happ] at h
      injection h with h
      rw [← h]
      exact keepsIdTime_trans hprep (keepsIdTime_append _ _ _ _ happ)
  · rw [hb] at h
    simp only [timeStampBranch] at h
    cases hbag : s.argTable.getD ((recAt (prepRecord count n s) n).arguments) none with
    | none => rw [hbag] at h; cases h
    | some bag =>
      rw [hbag] at h
      injection h with h
      rw [← h]
      refine keepsIdTime_snoc hprep _ _ ?_ ?_ <;> rfl
  · rw [hb] at h
    simp only [otherBranch] at h
    cases hty : getById s.table ((recAt (prepRecord count n s) n).type) with
    | none => rw [hty] at h; cases h
    | some ty =>
      simp only [hty] at h
      by_cases hcl : ty.eventClass = EventClass.SCOPE
      · rw [if_pos hcl] at h
        have hpush := pushScope_fields h
        have hdata : s'.data = prepRecord count n s := hpush.1
        rw [hdata]
        exact hprep
      · rw [if_neg hcl] at h
        injection h with h
        rw [← h]
        exact hprep

theorem rescopeIter_keeps {ids : SpecialIds} {count : Nat} :
    ∀ (fuel n : Nat) (s s' : RescopeState),
      rescopeIter ids count fuel n s = some s' → KeepsIdTime s.data s'.data := by
  intro fuel
  induction fuel with
  | zero =>
    intro n s s' h
    injection h with h
    rw [← h]
    exact keepsIdTime_refl _
  | succ fuel ih =>
    intro n s s' h
    rw [rescopeIter] at h
    by_cases hn : n < count
    · rw [if_pos hn] at h
      cases hstep : rescopeStep ids count n s with
      | none => rw [hstep] at h; cases h
      | some s1 =>
        rw [hstep] at h
        exact keepsIdTime_trans (rescopeStep_keeps hstep) (ih (n + 1) s1 s' h)
    · rw [if_neg hn] at h
      injection h with h
      rw [← h]
      exact keepsIdTime_refl _

theorem rescope_fields {st st' : EventList} (h : st.rescopeEvents = some st') :
    KeepsIdTime st.eventData st'.eventData ∧ st'.count = st.count ∧
    st'.capacity = st.capacity := by
  simp only [EventList.rescopeEvents] at h
  cases hit : rescopeIter (specialIdsOf st.eventTypeTable) st.count st.count 0
      (initRescope st) with
  | none => rw [hit] at h; cases h
  | some e =>
    rw [hit] at h
    injection h with h
    rw [← h]
    exact ⟨rescopeIter_keeps _ _ _ _ hit, rfl, rfl⟩

theorem rebuild_facts {st0 st : EventList} (h : EventList.rebuild st0 = some st) :
    st.count = st0.count ∧ st.capacity = st0.capacity ∧
    st.eventData.length = st0.count ∧
    (∀ m, idTimeOf st.eventData m = idTimeOf st0.resortEvents.eventData m) ∧
    (∀ i j, i ≤ j → j < st.count →
      (recAt st.eventData i).time ≤ (recAt st.eventData j).time) := by
  have hres := rescope_fields h
  have hcount : st.count = st0.count := by rw [hres.2.1, resort_count]
  have hcap : st.capacity = st0.capacity := by rw [hres.2.2, resort_capacity]
  have hlen : st.eventData.length = st0.count := by
    rw [hres.1.1, resort_length]
  refine ⟨hcount, hcap, hlen, hres.1.2, ?_⟩
  intro i j hij hj
  have hi := hres.1.2 i
  have hjj := hres.1.2 j
  unfold idTimeOf at hi hjj
  have h1 : (recAt st.eventData i).time = (recAt st0.resortEvents.eventData i).time :=
    congrArg Prod.snd hi
  have h2 : (recAt st.eventData j).time = (recAt st0.resortEvents.eventData j).time :=
    congrArg Prod.snd hjj
  rw [h1, h2]
  exact resort_time_mono st0 i j hij (by rw [← hcount]; exact hj)

/-! Binary search characterization for the near-time lookup. -/

theorem nearTimeLoop_spec (d : List EventRecord) (t : ℚ) :
    ∀ (fuel low high : Nat), high - low ≤ fuel → low ≤ high →
      (∀ i j, i ≤ j → j ≤ high → ((recAt d i).time : ℚ) ≤ ((recAt d j).time : ℚ)) →
      low ≤ nearTimeLoop d t fuel low high ∧
      nearTimeLoop d t fuel low high ≤ high ∧
      (∀ k, low ≤ k → k < nearTimeLoop d t fuel low high → ((recAt d k).time : ℚ) < t) ∧
      (nearTimeLoop d t fuel low high < high →
        t ≤ ((recAt d (nearTimeLoop d t fuel low high)).time : ℚ)) := by
  intro fuel
  induction fuel with
  | zero =>
    intro low high hfuel hlh hmono
    have : low = high := by omega
    subst this
    rw [nearTimeLoop]
    exact ⟨Nat.le_refl _, Nat.le_refl _, by omega, by omega⟩
  | succ fuel ih =>
    intro low high hfuel hlh hmono
    rw [nearTimeLoop]
    by_cases hlt : low < high
    · rw [if_pos hlt]
      by_cases hmid : ((recAt d ((low + high) / 2)).time : ℚ) < t
      · rw [if_pos hmid]
        have hrec := ih ((low + high) / 2 + 1) high (by omega) (by omega) hmono
        refine ⟨by omega, hrec.2.1, ?_, hrec.2.2.2⟩
        intro k hk1 hk2
        by_cases hkmid : k ≤ (low + high) / 2
        · exact lt_of_le_of_lt (hmono k ((low + high) / 2) hkmid (by omega)) hmid
        · exact hrec.2.2.1 k (by omega) hk2
      · rw [if_neg hmid]
        have hrec := ih low ((low + high) / 2) (by omega) (by omega)
          (fun i j hij hj => hmono i j hij (by omega))
        refine ⟨hrec.1, by omega, hrec.2.2.1, ?_⟩
        intro hm
        by_cases hmeq : nearTimeLoop d t fuel low ((low + high) / 2) < (low + high) / 2
        · exact hrec.2.2.2 hmeq
        · have : nearTimeLoop d t fuel low ((low + high) / 2) = (low + high) / 2 := by
            have := hrec.2.1
            omega
          rw [this]
          exact le_of_not_lt hmid
    · rw [if_neg hlt]
      exact ⟨Nat.le_refl _, by omega, by omega, by omega⟩

/-- C3, amended. For every rebuilt event list, `getIndexOfEventNearTime(t)`
returns `m - 1` where `m` is the result of the lower-bound binary search
over `[0, count - 1]` for `t * 1000`: `m` is bounded by `count - 1`, every
index below `m` holds a TIME strictly below `t * 1000`, and if `m` stops
short of `count - 1` then TIME at `m` reaches `t * 1000`; when `m = 0` the
result is 0.  In particular the result is not in general the largest index
with TIME ≤ `t * 1000`. -/
theorem claim_C3_near_time_amended (st0 st : EventList)
    (h : EventList.rebuild st0 = some st) (time : ℚ) :
    ∃ m, m ≤ st.count - 1 ∧
      (∀ k, k < m → ((recAt st.eventData k).time : ℚ) < time * 1000) ∧
      (m < st.count - 1 → time * 1000 ≤ ((recAt st.eventData m).time : ℚ)) ∧
      st.getIndexOfEventNearTime time = if m = 0 then 0 else m - 1 := by
  have hfacts := rebuild_facts h
  have hmono : ∀ i j, i ≤ j → j ≤ st.count - 1 →
      ((recAt st.eventData i).time : ℚ) ≤ ((recAt st.eventData j).time : ℚ) := by
    intro i j hij hj
    by_cases hc : st.count = 0
    · have hi0 : recAt st.eventData i = default := by
        unfold recAt
        rw [List.getD_eq_getElem?_getD, List.getElem?_eq_none]
        · rfl
        · rw [hfacts.2.2.1, ← hfacts.1]
          omega
      have hj0 : recAt st.eventData j = default := by
        unfold recAt
        rw [List.getD_eq_getElem?_getD, List.getElem?_eq_none]
        · rfl
        · rw [hfacts.2.2.1, ← hfacts.1]
          omega
      rw [hi0, hj0]
    · exact_mod_cast hfacts.2.2.2.2 i j hij (by omega)
  have hspec := nearTimeLoop_spec st.eventData (time * 1000) st.count 0 (st.count - 1)
    (by omega) (Nat.zero_le _) hmono
  refine ⟨nearTimeLoop st.eventData (time * 1000) st.count 0 (st.count - 1),
    hspec.2.1, ?_, hspec.2.2.2, ?_⟩
  · intro k hk
    exact hspec.2.2.1 k (Nat.zero_le _) hk
  · simp only [EventList.getIndexOfEventNearTime]
    by_cases h0 : nearTimeLoop st.eventData (time * 1000) st.count 0 (st.count - 1) = 0
    · rw [if_neg (by omega), if_pos h0]
    · rw [if_pos h0, if_neg h0]

/-- Closed witness for `claim_C3_near_time_amended` on the two-record
counterexample stream at `t = 2` ms. -/
theorem claim_C3_near_time_amended_witness :
    ∃ st, EventList.rebuild (insertAll (emptyEventList c3Table) c3Events) = some st ∧
      ∃ m, m ≤ st.count - 1 ∧
        (∀ k, k < m → ((recAt st.eventData k).time : ℚ) < 2 * 1000) ∧
        (m < st.count - 1 → 2 * 1000 ≤ ((recAt st.eventData m).time : ℚ)) ∧
        st.getIndexOfEventNearTime 2 = if m = 0 then 0 else m - 1 := by
  cases hre : EventList.rebuild (insertAll (emptyEventList c3Table) c3Events) with
  | none =>
    exact absurd hre (by decide)
  | some st =>
    exact ⟨st, rfl, claim_C3_near_time_amended _ st hre 2⟩

/-! Insert-batch lemmas for the sort-stability claim. -/

theorem insert_shape (st : EventList) (et : EventType) (time : Nat)
    (bag : Option ArgumentData) :
    (st.insert et time bag).count = st.count + 1 ∧
    (st.insert et time bag).eventData = st.eventData ++ [{
      id := st.count % u32
      type := et.id % u32
      parent := u32 - 1
      time := time % u32
      arguments := (match bag with | none => 0 | some _ => st.nextArgumentDataId % u32) }] := by
  cases bag with
  | none => exact ⟨rfl, rfl⟩
  | some b => exact ⟨rfl, rfl⟩

theorem insertAll_facts (evs : List InsertCall) :
    ∀ (st : EventList), st.eventData.length = st.count →
      (insertAll st evs).count = st.count + evs.length ∧
      (insertAll st evs).eventData.length = st.count + evs.length ∧
      (∀ m, m < st.count → recAt (insertAll st evs).eventData m = recAt st.eventData m) ∧
      (∀ k, k < evs.length →
        (recAt (insertAll st evs).eventData (st.count + k)).id = (st.count + k) % u32 ∧
        (recAt (insertAll st evs).eventData (st.count + k)).time =
          (evs.getD k default).time % u32) := by
  induction evs with
  | nil =>
    intro st hwf
    exact ⟨rfl, by simpa using hwf, fun m _ => rfl,
      fun k hk => absurd hk (by simp)⟩
  | cons e rest ih =>
    intro st hwf
    have hsh := insert_shape st e.eventType e.time e.args
    have hwf1 : (st.insert e.eventType e.time e.args).eventData.length =
        (st.insert e.eventType e.time e.args).count := by
      rw [hsh.1, hsh.2]
      simp [hwf]
    have hrest := ih (st.insert e.eventType e.time e.args) hwf1
    have hstep : insertAll st (e :: rest) = insertAll (st.insert e.eventType e.time e.args) rest :=
      rfl
    have hnew : recAt (st.insert e.eventType e.time e.args).eventData st.count = {
        id := st.count % u32
        type := e.eventType.id % u32
        parent := u32 - 1
        time := e.time % u32
        arguments := (match e.args with | none => 0 | some _ => st.nextArgumentDataId % u32) } := by
      rw [hsh.2]
      have := recAt_append_self (d := st.eventData) (r := {
        id := st.count % u32
        type := e.eventType.id % u32
        parent := u32 - 1
        time := e.time % u32
        arguments := (match e.args with | none => 0 | some _ => st.nextArgumentDataId % u32) })
      rw [hwf] at this
      exact this
    refine ⟨?_, ?_, ?_, ?_⟩
    · rw [hstep, hrest.1, hsh.1]
      simp
      omega
    · rw [hstep, hrest.2.1, hsh.1]
      simp
      omega
    · intro m hm
      rw [hstep, hrest.2.2.1 m (by rw [hsh.1]; omega), hsh.2,
        recAt_append_lt (by rw [hwf]; exact hm)]
    · intro k hk
      cases k with
      | zero =>
        rw [hstep, Nat.add_zero]
        have hpres := hrest.2.2.1 st.count (by rw [hsh.1]; omega)
        rw [hpres, hnew]
        exact ⟨rfl, rfl⟩
      | succ k' =>
        have hk' : k' < rest.length := by
          simp only [List.length_cons] at hk
          omega
        have hthis := hrest.2.2.2 k' hk'
        have harith : (st.insert e.eventType e.time e.args).count + k' =
            st.count + (k' + 1) := by
          rw [hsh.1]
          omega
        rw [harith] at hthis
        rw [hstep]
        exact ⟨hthis.1, hthis.2⟩

/-- C1. For every batch of inserts into a fresh store followed by a completed
rebuild (and a count that fits the 32-bit ID cells), the records end up
ordered by (TIME ascending, original insertion index ascending — ties in
TIME are broken by the original ID, which for a fresh batch is the
insertion index), and every record's ID cell equals its index.  The
ordering is witnessed by the sort permutation `σ`: record `i` carries the
time of insertion `σ i`, and `σ` is pairwise increasing in the
(time, insertion index) order. -/
theorem claim_C1_sort_stability (tbl : EventTypeTable) (evs : List InsertCall)
    (st : EventList) (hlen : evs.length < u32)
    (h : EventList.rebuild (insertAll (emptyEventList tbl) evs) = some st) :
    st.count = evs.length ∧
    st.eventData.length = evs.length ∧
    (∀ i, i < evs.length → (recAt st.eventData i).id = i) ∧
    ∃ σ : List Nat, σ.Perm (List.range evs.length) ∧
      (∀ i, i < evs.length →
        (recAt st.eventData i).time = (evs.getD (σ.getD i 0) default).time % u32) ∧
      List.Pairwise (fun a b =>
        (evs.getD a default).time % u32 < (evs.getD b default).time % u32 ∨
        ((evs.getD a default).time % u32 = (evs.getD b default).time % u32 ∧ a < b)) σ := by
  set pre := insertAll (emptyEventList tbl) evs with hpre
  have hins := insertAll_facts evs (emptyEventList tbl) rfl
  rw [← hpre] at hins
  have hcount : pre.count = evs.length := by
    rw [hins.1]
    show 0 + evs.length = evs.length
    omega
  have hpredata : ∀ k, k < evs.length →
      (recAt pre.eventData k).id = k ∧
      (recAt pre.eventData k).time = (evs.getD k default).time % u32 := by
    intro k hk
    have := hins.2.2.2 k hk
    simp only [Nat.zero_add] at this
    have h0 : (emptyEventList tbl).count + k = k := by
      show 0 + k = k
      omega
    rw [h0] at this
    refine ⟨?_, ?_⟩
    · rw [this.1, Nat.mod_eq_of_lt (by omega)]
    · exact this.2
  have hfacts := rebuild_facts h
  have hstc : st.count = evs.length := by rw [hfacts.1, hcount]
  have hstl : st.eventData.length = evs.length := by rw [hfacts.2.2.1, hcount]
  -- the sort permutation and its element bound
  have hperm : (resortPerm pre).Perm (List.range evs.length) := by
    have := resortPerm_perm pre
    rw [hcount] at this
    exact this
  have hσlen : (resortPerm pre).length = evs.length := by
    rw [resortPerm_length, hcount]
  have hσmem : ∀ a ∈ resortPerm pre, a < evs.length := by
    intro a ha
    have := hperm.mem_iff.mp ha
    exact List.mem_range.mp this
  have hσget : ∀ i, i < evs.length → (resortPerm pre).getD i 0 < evs.length := by
    intro i hi
    have hi' : i < (resortPerm pre).length := by rw [hσlen]; exact hi
    have hmem : (resortPerm pre).getD i 0 ∈ resortPerm pre := by
      rw [List.getD_eq_getElem?_getD, List.getElem?_eq_getElem hi']
      exact List.getElem_mem hi'
    exact hσmem _ hmem
  -- the resorted record at i
  have hresrec : ∀ i, i < evs.length →
      (recAt st.eventData i).id = i ∧
      (recAt st.eventData i).time = (evs.getD ((resortPerm pre).getD i 0) default).time % u32 := by
    intro i hi
    have hidt := hfacts.2.2.2.1 i
    unfold idTimeOf at hidt
    have hres := resort_recAt pre (i := i) (by rw [hcount]; exact hi)
    have hid : (recAt st.eventData i).id = (recAt pre.resortEvents.eventData i).id :=
      congrArg Prod.fst hidt
    have htm : (recAt st.eventData i).time = (recAt pre.resortEvents.eventData i).time :=
      congrArg Prod.snd hidt
    constructor
    · rw [hid, hres]
      show i % u32 = i
      exact Nat.mod_eq_of_lt (by omega)
    · rw [htm, hres]
      show (recAt pre.eventData ((resortPerm pre).getD i 0)).time = _
      exact (hpredata _ (hσget i hi)).2
  refine ⟨hstc, hstl, fun i hi => (hresrec i hi).1, resortPerm pre, hperm,
    fun i hi => (hresrec i hi).2, ?_⟩
  -- pairwise strict order on the permutation
  have hnd : (resortPerm pre).Nodup := hperm.symm.nodup (List.nodup_range _)
  rw [List.pairwise_iff_getElem]
  intro i j hi hj hij
  have hpw := List.pairwise_iff_getElem.mp (resort_pairwise pre) i j hi hj hij
  unfold idxLE at hpw
  have hine : (resortPerm pre)[i] ≠ (resortPerm pre)[j] := by
    intro heq
    have := List.Nodup.getElem_inj_iff hnd |>.mp heq
    omega
  have hia : (resortPerm pre)[i] < evs.length := hσmem _ (List.getElem_mem hi)
  have hja : (resortPerm pre)[j] < evs.length := hσmem _ (List.getElem_mem hj)
  have hcella := hpredata _ hia
  have hcellb := hpredata _ hja
  rw [hcella.1, hcella.2, hcellb.1, hcellb.2] at hpw
  rcases hpw with hlt | ⟨heq, hle⟩
  · exact Or.inl hlt
  · exact Or.inr ⟨heq, lt_of_le_of_ne hle hine⟩

/-- Closed witness for `claim_C1_sort_stability`: the out-of-order
two-instance stream rebuilds with both obligations intact. -/
theorem claim_C1_sort_stability_witness :
    ∃ st, EventList.rebuild (insertAll (emptyEventList c3Table) c3Events) = some st ∧
      st.count = 2 ∧ (∀ i, i < 2 → (recAt st.eventData i).id = i) := by
  cases hre : EventList.rebuild (insertAll (emptyEventList c3Table) c3Events) with
  | none => exact absurd hre (by decide)
  | some st =>
    have hc := claim_C1_sort_stability c3Table c3Events st (by decide) hre
    exact ⟨st, rfl, hc.1, fun i hi => hc.2.2.1 i hi⟩

/-! ### C8: frame list rebuild -/

/-- `wtf.timing#frameStart` as registered by the standard providers (spec
scenario S4). -/
def tyFS : EventType :=
  { name := "wtf.timing#frameStart", id := 1, eventClass := .INSTANCE, flags := 0 }

/-- `wtf.timing#frameEnd` as registered by the standard providers. -/
def tyFE : EventType :=
  { name := "wtf.timing#frameEnd", id := 2, eventClass := .INSTANCE, flags := 0 }

/-- Type table holding the two frame timing events. -/
def c8Table : EventTypeTable :=
  { nextTypeId := 3
    eventsById := [(1, tyFS), (2, tyFE)]
    eventsByName := [("wtf.timing#frameStart", tyFS), ("wtf.timing#frameEnd", tyFE)] }

/-- Spec scenario S4: `frameStart(number=1) @ 1000`, `frameEnd(number=1)
@ 17000`, `frameStart(number=2) @ 17000` with no matching end. -/
def c8Events : List InsertCall :=
  [ { eventType := tyFS, time := 1000, args := some ⟨[("number", .int 1)]⟩ }
  , { eventType := tyFE, time := 17000, args := some ⟨[("number", .int 1)]⟩ }
  , { eventType := tyFS, time := 17000, args := some ⟨[("number", .int 2)]⟩ } ]

/-- The frame map of `endRebuild` literally: the source map filtered by key. -/
theorem endRebuild_frames (fls : FrameListState) :
    fls.endRebuild.frames = fls.frames.filter
      (fun p => ¬ ((fls.denseFrames.filter
        (fun f => ¬(f.startTime ≠ 0 ∧ f.endTime ≠ 0))).map Frame.numberKey).contains p.1) :=
  rfl

/-- The dense list of `endRebuild` literally: keys of the valid frames. -/
theorem endRebuild_frameList (fls : FrameListState) :
    fls.endRebuild.frameList =
      (fls.denseFrames.filter (fun f => f.startTime ≠ 0 ∧ f.endTime ≠ 0)).map
        Frame.numberKey :=
  rfl

/-- A successful map lookup comes from an entry of the list. -/
theorem lookupFrame_eq_some {l : List (String × Frame)} {k : String} {f : Frame}
    (h : lookupFrame l k = some f) : ∃ p, p ∈ l ∧ p.1 = k ∧ p.2 = f := by
  unfold lookupFrame at h
  cases hf : l.find? (fun p => p.1 == k) with
  | none => rw [hf] at h; exact absurd h (by simp)
  | some p =>
    rw [hf] at h
    have hmem := List.mem_of_find?_eq_some hf
    have hkey := List.find?_some hf
    simp at h hkey
    exact ⟨p, hmem, hkey, h⟩

/-- Lookup at the head entry's key answers the head. -/
theorem lookupFrame_cons_pos {p : String × Frame} {rest : List (String × Frame)}
    {k : String} (h : p.1 = k) : lookupFrame (p :: rest) k = some p.2 := by
  unfold lookupFrame
  rw [List.find?_cons_of_pos _ (by simp [h])]
  rfl

/-- Lookup skips a head entry with a different key. -/
theorem lookupFrame_cons_neg {p : String × Frame} {rest : List (String × Frame)}
    {k : String} (h : ¬ p.1 = k) : lookupFrame (p :: rest) k = lookupFrame rest k := by
  unfold lookupFrame
  rw [List.find?_cons_of_neg _ (by simp [h])]

/-- Filtering the map by a key blacklist commutes with lookup. -/
theorem lookupFrame_filter_contains (ks : List String) (k : String) :
    ∀ l : List (String × Frame),
      lookupFrame (l.filter (fun p => ¬ ks.contains p.1)) k =
        if ks.contains k then none else lookupFrame l k
  | [] => by simp [lookupFrame]
  | p :: rest => by
    have ih := lookupFrame_filter_contains ks k rest
    rw [List.filter_cons]
    by_cases hq : ks.contains p.1
    · rw [if_neg (by simpa using hq), ih]
      by_cases hk : p.1 = k
      · rw [if_pos (hk ▸ hq), if_pos (hk ▸ hq)]
      · by_cases hck : ks.contains k
        · rw [if_pos hck, if_pos hck]
        · rw [if_neg hck, if_neg hck, lookupFrame_cons_neg hk]
    · rw [if_pos (by simpa using hq)]
      by_cases hk : p.1 = k
      · have hck : ¬ ks.contains k = true := hk ▸ hq
        rw [lookupFrame_cons_pos hk, if_neg hck, lookupFrame_cons_pos hk]
      · rw [lookupFrame_cons_neg hk, ih]
        by_cases hck : ks.contains k
        · rw [if_pos hck, if_pos hck]
        · rw [if_neg hck, if_neg hck, lookupFrame_cons_neg hk]

/-- Membership in the dense frame list resolves through the sparse map. -/
theorem mem_denseFrames {fls : FrameListState} {f : Frame} :
    f ∈ fls.denseFrames ↔ ∃ k, k ∈ fls.frameList ∧ lookupFrame fls.frames k = some f := by
  simp [FrameListState.denseFrames, List.mem_filterMap]

/-- Under the key/`numberKey` synchronisation invariant, a looked-up frame
carries its key. -/
theorem lookupFrame_numberKey {l : List (String × Frame)} {k : String} {f : Frame}
    (hks : ∀ p ∈ l, (p.2).numberKey = p.1) (h : lookupFrame l k = some f) :
    f.numberKey = k := by
  obtain ⟨p, hp, hk, hf⟩ := lookupFrame_eq_some h
  rw [← hf, hks p hp, hk]

/-- C8: after `endRebuild` every frame reachable from the dense list has both
a start and an end time, and a frame missing either is deleted from the sparse
map and dropped from the dense list (under the invariant that every map entry
stores its own key, which `handleEvent` maintains); concretely, spec scenario
S4 — `frameStart(1) @ 1000`, `frameEnd(1) @ 17000`, `frameStart(2) @ 17000`
with no end for frame 2 — rebuilds to a frame list of count 1 whose frame at
10 ms is frame 1 spanning 1 ms to 17 ms. -/
theorem claim_C8_frame_list :
    (∀ fls : FrameListState, (∀ p ∈ fls.frames, (p.2).numberKey = p.1) →
      (∀ f ∈ fls.endRebuild.denseFrames, f.startTime ≠ 0 ∧ f.endTime ≠ 0) ∧
      (∀ k f, k ∈ fls.frameList → lookupFrame fls.frames k = some f →
        f.startTime = 0 ∨ f.endTime = 0 →
        lookupFrame fls.endRebuild.frames k = none ∧ k ∉ fls.endRebuild.frameList)) ∧
    (∀ st, EventList.rebuild (insertAll (emptyEventList c8Table) c8Events) = some st →
      (rebuildFrameList st).frameList.length = 1 ∧
      (rebuildFrameList st).getFrameAtTime 10 =
        some { numberKey := "1", startTime := 1, endTime := 17 }) := by
  constructor
  · intro fls hks
    constructor
    · intro f hf
      obtain ⟨k, hkmem, hlook⟩ := mem_denseFrames.mp hf
      rw [endRebuild_frames, lookupFrame_filter_contains] at hlook
      by_cases hc : ((fls.denseFrames.filter
          (fun f => ¬(f.startTime ≠ 0 ∧ f.endTime ≠ 0))).map Frame.numberKey).contains k
      · rw [if_pos hc] at hlook
        exact absurd hlook (by simp)
      · rw [if_neg hc] at hlook
        rw [endRebuild_frameList] at hkmem
        obtain ⟨v, hvf, hvk⟩ := List.mem_map.mp hkmem
        have hv := List.mem_filter.mp hvf
        obtain ⟨k2, hk2, hlook2⟩ := mem_denseFrames.mp hv.1
        have hk2eq : k2 = k := by
          rw [← lookupFrame_numberKey hks hlook2, hvk]
        rw [hk2eq, hlook] at hlook2
        have hvP := of_decide_eq_true hv.2
        rw [Option.some.injEq] at hlook2
        rw [hlook2]
        exact hvP
    · intro k f hkmem hlook hbad
      have hfdense : f ∈ fls.denseFrames := mem_denseFrames.mpr ⟨k, hkmem, hlook⟩
      have hkey : f.numberKey = k := lookupFrame_numberKey hks hlook
      have hinv : f ∈ fls.denseFrames.filter
          (fun f => ¬(f.startTime ≠ 0 ∧ f.endTime ≠ 0)) := by
        rw [List.mem_filter]
        refine ⟨hfdense, ?_⟩
        simp only [decide_eq_true_eq]
        tauto
      have hkinv : k ∈ (fls.denseFrames.filter
          (fun f => ¬(f.startTime ≠ 0 ∧ f.endTime ≠ 0))).map Frame.numberKey :=
        hkey ▸ List.mem_map_of_mem Frame.numberKey hinv
      constructor
      · rw [endRebuild_frames, lookupFrame_filter_contains,
          if_pos (by simpa using hkinv)]
      · intro hkmem'
        rw [endRebuild_frameList] at hkmem'
        obtain ⟨v, hvf, hvk⟩ := List.mem_map.mp hkmem'
        have hv := List.mem_filter.mp hvf
        obtain ⟨k2, hk2, hlook2⟩ := mem_denseFrames.mp hv.1
        have hk2eq : k2 = k := by
          rw [← lookupFrame_numberKey hks hlook2, hvk]
        rw [hk2eq, hlook, Option.some.injEq] at hlook2
        have hvP := of_decide_eq_true hv.2
        rw [← hlook2] at hvP
        tauto
  · intro st hst
    have h2 : (EventList.rebuild (insertAll (emptyEventList c8Table) c8Events)).map
        (fun st => ((rebuildFrameList st).frameList.length,
          (rebuildFrameList st).getFrameAtTime 10)) =
        some (1, some { numberKey := "1", startTime := 1, endTime := 17 }) := by decide
    rw [hst] at h2
    simp only [Option.map_some', Option.some.injEq, Prod.mk.injEq] at h2
    exact h2

/-- Closed witness for `claim_C8_frame_list`: a synchronised one-entry map
whose frame lacks an end time loses the entry, and scenario S4 rebuilds to a
single frame. -/
theorem claim_C8_frame_list_witness :
    lookupFrame (FrameListState.endRebuild
      { frames := [("2", { numberKey := "2", startTime := 17, endTime := 0 })]
        frameList := ["2"] }).frames "2" = none ∧
    (EventList.rebuild (insertAll (emptyEventList c8Table) c8Events)).map
      (fun st => (rebuildFrameList st).frameList.length) = some 1 := by
  constructor
  · exact ((claim_C8_frame_list.1
      { frames := [("2", { numberKey := "2", startTime := 17, endTime := 0 })]
        frameList := ["2"] } (by decide)).2 "2"
      { numberKey := "2", startTime := 17, endTime := 0 }
      (by decide) (by decide) (Or.inr rfl)).1
  · cases hre : EventList.rebuild (insertAll (emptyEventList c8Table) c8Events) with
    | none => exact absurd hre (by decide)
    | some st =>
      rw [Option.map_some']
      exact congrArg some (claim_C8_frame_list.2 st hre).1

/-! ### C6 amended: rebuild idempotence for pre-registered streams

The counterexample shows the generic `wtf.scope#enter` rewrite breaks
idempotence.  The amended claim proves the second `rebuild` is the identity
on the backing buffer for every completing stream whose records dispatch
only through the `wtf.scope#leave` and residual branches — that is, whose
type ids avoid the generic `wtf.scope#enter`, `wtf.scope#appendData` and
`wtf.trace#timeStamp` handler ids.  The proof is a lock-step simulation of
the second rescope scan against the first. -/

/-- Full description of a buffer write (`setRec`): the record at `i` when in
bounds, untouched elsewhere and on an out-of-bounds write. -/
theorem recAt_setRec_eq (d : List EventRecord) (i : Nat) (r : EventRecord) (m : Nat) :
    recAt (setRec d i r) m = if m = i ∧ i < d.length then r else recAt d m := by
  by_cases hm : m = i
  · subst hm
    by_cases hl : m < d.length
    · rw [recAt_setRec_self hl, if_pos ⟨rfl, hl⟩]
    · rw [if_neg (fun hc => hl hc.2)]
      unfold setRec
      rw [List.set_eq_of_length_le (Nat.le_of_not_lt hl)]
  · rw [recAt_setRec_ne (fun h => hm h.symm), if_neg (fun hc => hm hc.1)]

/-- Full description of the scan prefix writes at record `n`. -/
theorem recAt_prepRecord (count n : Nat) (s : RescopeState) (m : Nat) :
    recAt (prepRecord count n s) m =
      if m = n ∧ n < s.data.length then
        { recAt s.data n with
          parent := s.stack s.stackTop
          depth := s.stackTop
          nextSibling := nextIdOf count n s.data }
      else recAt s.data m := by
  by_cases hc : m = n ∧ n < s.data.length
  · obtain ⟨rfl, hl⟩ := hc
    rw [if_pos ⟨rfl, hl⟩, recAt_prepRecord_self count s hl]
  · rw [if_neg hc]
    by_cases hm : m = n
    · subst hm
      have hl : ¬ m < s.data.length := fun h => hc ⟨rfl, h⟩
      simp only [prepRecord, setRec]
      rw [List.set_eq_of_length_le (by rw [List.length_set]; exact Nat.le_of_not_lt hl),
        List.set_eq_of_length_le (Nat.le_of_not_lt hl)]
    · exact recAt_prepRecord_ne count s hm

/-- Reading inside the bounds is plain indexing. -/
theorem recAt_eq_getElem {d : List EventRecord} {m : Nat} (h : m < d.length) :
    recAt d m = d[m] := by
  unfold recAt
  rw [List.getD_eq_getElem?_getD, List.getElem?_eq_getElem h]
  rfl

/-- Buffers that agree under `recAt` everywhere and have equal length are
equal. -/
theorem data_ext {d d' : List EventRecord} (hlen : d.length = d'.length)
    (hall : ∀ m, recAt d m = recAt d' m) : d = d' := by
  apply List.ext_getElem hlen
  intro m h1 h2
  rw [← recAt_eq_getElem h1, ← recAt_eq_getElem h2]
  exact hall m

/-- The six cells the plain scan branches never write: ID, TIME, TYPE,
ARGUMENTS, VALUE and TAG. -/
def Cells6Eq (r r' : EventRecord) : Prop :=
  r.id = r'.id ∧ r.time = r'.time ∧ r.type = r'.type ∧
  r.arguments = r'.arguments ∧ r.value = r'.value ∧ r.tag = r'.tag

theorem cells6_refl (r : EventRecord) : Cells6Eq r r :=
  ⟨rfl, rfl, rfl, rfl, rfl, rfl⟩

theorem cells6_trans {a b c : EventRecord} (h1 : Cells6Eq a b) (h2 : Cells6Eq b c) :
    Cells6Eq a c := by
  obtain ⟨a1, a2, a3, a4, a5, a6⟩ := h1
  obtain ⟨b1, b2, b3, b4, b5, b6⟩ := h2
  exact ⟨a1.trans b1, a2.trans b2, a3.trans b3, a4.trans b4, a5.trans b5, a6.trans b6⟩

/-- A write that keeps the six stable cells of its own slot keeps them
everywhere. -/
theorem cells6_setRec {d : List EventRecord} {i : Nat} {r : EventRecord}
    (h : Cells6Eq r (recAt d i)) (m : Nat) :
    Cells6Eq (recAt (setRec d i r) m) (recAt d m) := by
  rw [recAt_setRec_eq]
  by_cases hc : m = i ∧ i < d.length
  · rw [if_pos hc, hc.1]
    exact h
  · rw [if_neg hc]
    exact cells6_refl _

/-- The scan prefix keeps the six stable cells everywhere. -/
theorem cells6_prep (count n : Nat) (s : RescopeState) (m : Nat) :
    Cells6Eq (recAt (prepRecord count n s) m) (recAt s.data m) := by
  rw [recAt_prepRecord]
  by_cases hc : m = n ∧ n < s.data.length
  · rw [if_pos hc, hc.1]
    exact ⟨rfl, rfl, rfl, rfl, rfl, rfl⟩
  · rw [if_neg hc]
    exact cells6_refl _

/-- The type cell of the current record is unchanged by the scan prefix. -/
theorem prep_type (count n : Nat) (s : RescopeState) :
    (recAt (prepRecord count n s) n).type = (recAt s.data n).type :=
  (cells6_prep count n s n).2.2.1

/-- The ID cell of the current record is unchanged by the scan prefix. -/
theorem prep_id (count n : Nat) (s : RescopeState) :
    (recAt (prepRecord count n s) n).id = (recAt s.data n).id :=
  (cells6_prep count n s n).1

/-- All eleven cells other than NEXT_SIBLING. -/
def Cells11Eq (r r' : EventRecord) : Prop :=
  Cells6Eq r r' ∧ r.parent = r'.parent ∧ r.depth = r'.depth ∧
  r.endTime = r'.endTime ∧ r.systemTime = r'.systemTime ∧ r.childTime = r'.childTime

theorem cells11_refl (r : EventRecord) : Cells11Eq r r :=
  ⟨cells6_refl r, rfl, rfl, rfl, rfl, rfl⟩

/-- Records that agree on the eleven stable cells and on NEXT_SIBLING are
equal. -/
theorem rec_eq_of_cells11 {r r' : EventRecord} (h : Cells11Eq r r')
    (hns : r.nextSibling = r'.nextSibling) : r = r' := by
  obtain ⟨⟨h1, h2, h3, h4, h5, h6⟩, h7, h8, h9, h10, h11⟩ := h
  cases r
  cases r'
  simp only at h1 h2 h3 h4 h5 h6 h7 h8 h9 h10 h11 hns
  simp only [EventRecord.mk.injEq]
  exact ⟨h1, h3, h7, h8, h2, hns, h4, h5, h6, h9, h10, h11⟩

/-- Record index `m` is an open scope: it sits on the stack above the zero
sentinel. -/
def OpenAt (s : RescopeState) (m : Nat) : Prop :=
  ∃ j, 1 ≤ j ∧ j ≤ s.stackTop ∧ s.stack j = m

/-- The provisional NEXT_SIBLING the scan prefix writes for record `m` when
every ID cell is its index. -/
def provNS (count m : Nat) : Nat :=
  if m < count - 1 then m + 1 else 0

/-- A type cell that avoids the generic-enter, appendData and timeStamp
handler ids, so the scan dispatches it to `leaveBranch` or `otherBranch`. -/
def PlainType (ids : SpecialIds) (t : Nat) : Prop :=
  (t : Int) ≠ ids.scopeEnterId ∧ (t : Int) ≠ ids.appendScopeDataId ∧
  (t : Int) ≠ ids.timeStampId

/-- Every record's type cell is plain and every ID cell is its index. -/
def PlainData (ids : SpecialIds) (count : Nat) (d : List EventRecord) : Prop :=
  ∀ m, m < count → PlainType ids (recAt d m).type ∧ (recAt d m).id = m

/-- The buffer produced by the `wtf.scope#leave` branch, with the lets of the
source spelled out. -/
def leaveData (count n : Nat) (s : RescopeState) : List EventRecord :=
  let parentId := s.stack s.stackTop
  let d2 := prepRecord count n s
  let nextEventId := nextIdOf count n d2
  let d3 := setRec d2 n { recAt d2 n with nextSibling := 0 }
  let d4 := setRec d3 parentId { recAt d3 parentId with nextSibling := nextEventId }
  let time := (recAt d4 n).time
  let d5 := setRec d4 parentId { recAt d4 parentId with endTime := time }
  setRec d5 parentId
    { recAt d5 parentId with
      systemTime := s.systemTimeStack (s.stackTop - 1)
      childTime := s.childTimeStack (s.stackTop - 1) }

/-- The scope duration computed by the `wtf.scope#leave` branch. -/
def leaveDuration (count n : Nat) (s : RescopeState) : Int :=
  let parentId := s.stack s.stackTop
  let d2 := prepRecord count n s
  let d3 := setRec d2 n { recAt d2 n with nextSibling := 0 }
  let d4 := setRec d3 parentId { recAt d3 parentId with nextSibling := nextIdOf count n d2 }
  ((recAt d4 n).time : Int) - ((recAt d4 parentId).time : Int)

/-- A plain type cell dispatches to the leave or the residual branch. -/
theorem rescopeStep_plain_eq (ids : SpecialIds) (count n : Nat) (s : RescopeState)
    (hplain : PlainType ids (recAt s.data n).type) :
    rescopeStep ids count n s =
      if ((recAt s.data n).type : Int) = ids.scopeLeaveId then leaveBranch count n s
      else otherBranch count n s := by
  simp only [rescopeStep, prep_type]
  rw [if_neg hplain.1]
  by_cases hl : ((recAt s.data n).type : Int) = ids.scopeLeaveId
  · rw [if_pos hl, if_pos hl]
  · rw [if_neg hl, if_neg hl, if_neg hplain.2.1, if_neg hplain.2.2]

/-- The residual branch evaluated on a resolvable type. -/
theorem otherBranch_eval (count n : Nat) (s : RescopeState) (ty : EventType)
    (hty : getById s.table (recAt s.data n).type = some ty) :
    otherBranch count n s =
      if ty.eventClass = EventClass.SCOPE then
        pushScope { s with data := prepRecord count n s } ((recAt s.data n).id) ty
      else some { s with data := prepRecord count n s } := by
  simp only [otherBranch, prep_type, prep_id, hty]

/-- The residual branch on an unresolvable type throws. -/
theorem otherBranch_none (count n : Nat) (s : RescopeState)
    (hty : getById s.table (recAt s.data n).type = none) :
    otherBranch count n s = none := by
  simp only [otherBranch, prep_type, hty]

/-- A push below the 256-slot limit evaluated. -/
theorem pushScope_eval (s : RescopeState) (recId : Nat) (ty : EventType)
    (h : ¬ s.stackTop + 1 > 255) :
    pushScope s recId ty = some { s with
      stack := upd s.stack (s.stackTop + 1) recId
      typeStack := upd s.typeStack (s.stackTop + 1) (some ty)
      stackTop := s.stackTop + 1
      stackMax := max s.stackMax (s.stackTop + 1) } := by
  simp only [pushScope]
  rw [if_neg h]

/-- A push beyond the 256-slot limit fails. -/
theorem pushScope_overflow (s : RescopeState) (recId : Nat) (ty : EventType)
    (h : s.stackTop + 1 > 255) : pushScope s recId ty = none := by
  simp only [pushScope]
  rw [if_pos h]

/-- A leave on an empty stack throws. -/
theorem leaveBranch_top0 (count n : Nat) (s : RescopeState) (htop : s.stackTop = 0) :
    leaveBranch count n s = none := by
  simp only [leaveBranch]
  rw [if_pos htop]

/-- A leave whose surviving parent has no stacked type throws. -/
theorem leaveBranch_nopt (count n : Nat) (s : RescopeState) (htop : ¬ s.stackTop = 0)
    (h0 : s.stackTop - 1 ≠ 0) (hpt : s.typeStack (s.stackTop - 1) = none) :
    leaveBranch count n s = none := by
  simp only [leaveBranch]
  rw [if_neg htop, if_pos h0, hpt]

/-- The leave branch evaluated when the stack empties: the accumulator slot is
cleared and nothing is rolled up. -/
theorem leaveBranch_eval_base (count n : Nat) (s : RescopeState) (htop : ¬ s.stackTop = 0)
    (h0 : s.stackTop - 1 = 0) :
    leaveBranch count n s = some { s with
      data := leaveData count n s
      stackTop := s.stackTop - 1
      childTimeStack := upd s.childTimeStack (s.stackTop - 1) 0
      systemTimeStack := upd s.systemTimeStack (s.stackTop - 1) 0 } := by
  simp only [leaveBranch, leaveData]
  rw [if_neg htop, if_neg (fun hc => hc h0)]

/-- The leave branch evaluated when a parent scope survives: the accumulators
are rolled into the slot below. -/
theorem leaveBranch_eval_inner (count n : Nat) (s : RescopeState) (htop : ¬ s.stackTop = 0)
    (h0 : s.stackTop - 1 ≠ 0) (pt : EventType)
    (hpt : s.typeStack (s.stackTop - 1) = some pt) :
    leaveBranch count n s = some { s with
      data := leaveData count n s
      stackTop := s.stackTop - 1
      childTimeStack := upd (upd s.childTimeStack (s.stackTop - 1) 0) (s.stackTop - 1 - 1)
        (Int.toNat ((((upd s.childTimeStack (s.stackTop - 1) 0 (s.stackTop - 1 - 1) : Nat) : Int) +
          leaveDuration count n s) % (u32 : Int)))
      systemTimeStack := upd (upd s.systemTimeStack (s.stackTop - 1) 0) (s.stackTop - 1 - 1)
        (Int.toNat ((((upd s.systemTimeStack (s.stackTop - 1) 0 (s.stackTop - 1 - 1) : Nat) : Int) +
          (if pt.flags &&& EventFlag.SYSTEM_TIME ≠ 0 then
            (s.systemTimeStack (s.stackTop - 1) : Int) + leaveDuration count n s
          else (s.systemTimeStack (s.stackTop - 1) : Int))) % (u32 : Int))) } := by
  simp only [leaveBranch, leaveData, leaveDuration]
  rw [if_neg htop, if_pos h0, hpt]

/-- The leave writes touch only the buffer slots of record `n` and of its
parent scope. -/
theorem recAt_leaveData_ne (count n : Nat) (s : RescopeState) {m : Nat} (hmn : m ≠ n)
    (hmp : m ≠ s.stack s.stackTop) :
    recAt (leaveData count n s) m = recAt s.data m := by
  simp only [leaveData]
  rw [recAt_setRec_ne (fun h => hmp h.symm), recAt_setRec_ne (fun h => hmp h.symm),
    recAt_setRec_ne (fun h => hmp h.symm), recAt_setRec_ne (fun h => hmn h.symm),
    recAt_prepRecord_ne count s hmn]

/-- The leave branch leaves record `n` with the prefix writes and a zeroed
NEXT_SIBLING. -/
theorem recAt_leaveData_self (count n : Nat) (s : RescopeState)
    (hp : s.stack s.stackTop ≠ n) (hn : n < s.data.length) :
    recAt (leaveData count n s) n =
      { recAt (prepRecord count n s) n with nextSibling := 0 } := by
  simp only [leaveData]
  rw [recAt_setRec_ne hp, recAt_setRec_ne hp, recAt_setRec_ne hp,
    recAt_setRec_self (by rw [prepRecord_length]; exact hn)]

/-- The duration in terms of the original TIME cells. -/
theorem leaveDuration_eq (count n : Nat) (s : RescopeState)
    (hp : s.stack s.stackTop ≠ n) :
    leaveDuration count n s =
      ((recAt s.data n).time : Int) - ((recAt s.data (s.stack s.stackTop)).time : Int) := by
  simp only [leaveDuration]
  have h4n : ∀ (d : List EventRecord) (r : EventRecord),
      (recAt (setRec d (s.stack s.stackTop) r) n).time = (recAt d n).time := by
    intro d r
    rw [recAt_setRec_ne hp]
  rw [h4n]
  have h3n : (recAt (setRec (prepRecord count n s) n
      { recAt (prepRecord count n s) n with nextSibling := 0 }) n).time =
      (recAt s.data n).time := by
    rw [recAt_setRec_eq]
    by_cases hc : n = n ∧ n < (prepRecord count n s).length
    · rw [if_pos hc]
      exact (cells6_prep count n s n).2.1
    · rw [if_neg hc]
      exact (cells6_prep count n s n).2.1
  rw [h3n]
  have h4p : (recAt (setRec (setRec (prepRecord count n s) n
      { recAt (prepRecord count n s) n with nextSibling := 0 }) (s.stack s.stackTop)
      { recAt (setRec (prepRecord count n s) n
          { recAt (prepRecord count n s) n with nextSibling := 0 }) (s.stack s.stackTop) with
        nextSibling := nextIdOf count n (prepRecord count n s) })
      (s.stack s.stackTop)).time = (recAt s.data (s.stack s.stackTop)).time := by
    rw [recAt_setRec_eq]
    by_cases hc : s.stack s.stackTop = s.stack s.stackTop ∧
        s.stack s.stackTop < (setRec (prepRecord count n s) n
          { recAt (prepRecord count n s) n with nextSibling := 0 }).length
    · rw [if_pos hc]
      show (recAt (setRec (prepRecord count n s) n
        { recAt (prepRecord count n s) n with nextSibling := 0 }) (s.stack s.stackTop)).time = _
      rw [recAt_setRec_ne (fun h => hp h.symm), recAt_prepRecord_ne count s hp]
    · rw [if_neg hc, recAt_setRec_ne (fun h => hp h.symm), recAt_prepRecord_ne count s hp]
  rw [h4p]

/-- The leave branch closes the parent scope slot: kept prefix cells, the
fixed-up NEXT_SIBLING, the END_TIME of the leave and the two accumulator
cells. -/
theorem recAt_leaveData_parent (count n : Nat) (s : RescopeState)
    (hp : s.stack s.stackTop ≠ n) (hplen : s.stack s.stackTop < s.data.length) :
    recAt (leaveData count n s) (s.stack s.stackTop) =
      { recAt s.data (s.stack s.stackTop) with
        nextSibling := nextIdOf count n (prepRecord count n s)
        endTime := (recAt s.data n).time
        systemTime := s.systemTimeStack (s.stackTop - 1)
        childTime := s.childTimeStack (s.stackTop - 1) } := by
  simp only [leaveData]
  have hl3 : (setRec (prepRecord count n s) n
      { recAt (prepRecord count n s) n with nextSibling := 0 }).length = s.data.length := by
    rw [length_setRec, prepRecord_length]
  have e3 : recAt (setRec (prepRecord count n s) n
      { recAt (prepRecord count n s) n with nextSibling := 0 }) (s.stack s.stackTop) =
      recAt s.data (s.stack s.stackTop) := by
    rw [recAt_setRec_ne (fun h => hp h.symm), recAt_prepRecord_ne count s hp]
  have e3t : (recAt (setRec (prepRecord count n s) n
      { recAt (prepRecord count n s) n with nextSibling := 0 }) n).time =
      (recAt s.data n).time := by
    rw [recAt_setRec_eq]
    by_cases hc : n = n ∧ n < (prepRecord count n s).length
    · rw [if_pos hc]
      exact (cells6_prep count n s n).2.1
    · rw [if_neg hc]
      exact (cells6_prep count n s n).2.1
  rw [recAt_setRec_self (by
      rw [length_setRec, length_setRec, hl3]
      exact hplen),
    recAt_setRec_self (by
      rw [length_setRec, hl3]
      exact hplen),
    recAt_setRec_self (by
      rw [hl3]
      exact hplen),
    e3, recAt_setRec_ne hp, e3t]

/-- The eight cells never written once a record's own prefix ran: the six
stable cells plus PARENT and DEPTH. -/
def Cells8Eq (r r' : EventRecord) : Prop :=
  Cells6Eq r r' ∧ r.parent = r'.parent ∧ r.depth = r'.depth

theorem cells8_refl (r : EventRecord) : Cells8Eq r r :=
  ⟨cells6_refl r, rfl, rfl⟩

theorem cells8_trans {a b c : EventRecord} (h1 : Cells8Eq a b) (h2 : Cells8Eq b c) :
    Cells8Eq a c :=
  ⟨cells6_trans h1.1 h2.1, h1.2.1.trans h2.2.1, h1.2.2.trans h2.2.2⟩

theorem cells8_setRec {d : List EventRecord} {i : Nat} {r : EventRecord}
    (h : Cells8Eq r (recAt d i)) (m : Nat) :
    Cells8Eq (recAt (setRec d i r) m) (recAt d m) := by
  rw [recAt_setRec_eq]
  by_cases hc : m = i ∧ i < d.length
  · rw [if_pos hc, hc.1]
    exact h
  · rw [if_neg hc]
    exact cells8_refl _

/-- The leave writes keep PARENT, DEPTH and the six stable cells of every slot
relative to the prefixed buffer. -/
theorem cells8_leaveData (count n : Nat) (s : RescopeState) (m : Nat) :
    Cells8Eq (recAt (leaveData count n s) m) (recAt (prepRecord count n s) m) := by
  simp only [leaveData]
  refine cells8_trans (cells8_setRec ?_ m)
    (cells8_trans (cells8_setRec ?_ m)
      (cells8_trans (cells8_setRec ?_ m)
        (cells8_setRec ?_ m))) <;>
    exact ⟨⟨rfl, rfl, rfl, rfl, rfl, rfl⟩, rfl, rfl⟩

/-- The leave writes keep the six stable cells of every slot. -/
theorem cells6_leaveData (count n : Nat) (s : RescopeState) (m : Nat) :
    Cells6Eq (recAt (leaveData count n s) m) (recAt s.data m) :=
  cells6_trans (cells8_leaveData count n s m).1 (cells6_prep count n s m)

theorem leaveData_length (count n : Nat) (s : RescopeState) :
    (leaveData count n s).length = s.data.length := by
  simp only [leaveData]
  rw [length_setRec, length_setRec, length_setRec, length_setRec, prepRecord_length]

/-- Shape of a successful leave step: the buffer is `leaveData`, the stack
array, type stack and table are untouched and the top drops by one. -/
theorem leaveBranch_fields {count n : Nat} {s s1 : RescopeState}
    (h : leaveBranch count n s = some s1) :
    s1.data = leaveData count n s ∧ s1.table = s.table ∧ s1.argTable = s.argTable ∧
    s1.stack = s.stack ∧ s1.typeStack = s.typeStack ∧ s1.stackTop = s.stackTop - 1 ∧
    s1.stackMax = s.stackMax ∧ s.stackTop ≠ 0 := by
  by_cases htop : s.stackTop = 0
  · rw [leaveBranch_top0 count n s htop] at h
    cases h
  · by_cases h0 : s.stackTop - 1 = 0
    · rw [leaveBranch_eval_base count n s htop h0] at h
      injection h with h
      subst h
      exact ⟨rfl, rfl, rfl, rfl, rfl, rfl, rfl, htop⟩
    · cases hpt : s.typeStack (s.stackTop - 1) with
      | none =>
        rw [leaveBranch_nopt count n s htop h0 hpt] at h
        cases h
      | some pt =>
        rw [leaveBranch_eval_inner count n s htop h0 pt hpt] at h
        injection h with h
        subst h
        exact ⟨rfl, rfl, rfl, rfl, rfl, rfl, rfl, htop⟩

/-- Shape of a successful residual step: the buffer is the prefixed buffer
and the stacks either stand still (non-SCOPE class) or receive the pushed
record (SCOPE class). -/
theorem otherBranch_fields {count n : Nat} {s s1 : RescopeState}
    (h : otherBranch count n s = some s1) :
    s1.data = prepRecord count n s ∧ s1.table = s.table ∧ s1.argTable = s.argTable ∧
    s1.childTimeStack = s.childTimeStack ∧ s1.systemTimeStack = s.systemTimeStack ∧
    (∃ ty, getById s.table (recAt s.data n).type = some ty ∧
      ((ty.eventClass ≠ EventClass.SCOPE ∧ s1.stack = s.stack ∧ s1.typeStack = s.typeStack ∧
        s1.stackTop = s.stackTop ∧ s1.stackMax = s.stackMax) ∨
       (ty.eventClass = EventClass.SCOPE ∧ ¬ s.stackTop + 1 > 255 ∧
        s1.stack = upd s.stack (s.stackTop + 1) ((recAt s.data n).id) ∧
        s1.typeStack = upd s.typeStack (s.stackTop + 1) (some ty) ∧
        s1.stackTop = s.stackTop + 1 ∧ s1.stackMax = max s.stackMax (s.stackTop + 1)))) := by
  cases hty : getById s.table (recAt s.data n).type with
  | none =>
    rw [otherBranch_none count n s hty] at h
    cases h
  | some ty =>
    rw [otherBranch_eval count n s ty hty] at h
    by_cases hcl : ty.eventClass = EventClass.SCOPE
    · rw [if_pos hcl] at h
      by_cases hov : s.stackTop + 1 > 255
      · rw [pushScope_overflow { s with data := prepRecord count n s } _ _ hov] at h
        cases h
      · rw [pushScope_eval { s with data := prepRecord count n s } _ _ hov] at h
        injection h with h
        subst h
        exact ⟨rfl, rfl, rfl, rfl, rfl, ty, rfl, Or.inr ⟨hcl, hov, rfl, rfl, rfl, rfl⟩⟩
    · rw [if_neg hcl] at h
      injection h with h
      subst h
      exact ⟨rfl, rfl, rfl, rfl, rfl, ty, rfl, Or.inl ⟨hcl, rfl, rfl, rfl, rfl⟩⟩

/-- Forward invariance of a plain scan: the table, the six stable cells of
every record, the PARENT and DEPTH cells of processed records and the
closing cells of processed non-open records all survive to the end. -/
theorem plain_iter_evolves (ids : SpecialIds) (count : Nat) :
    ∀ (fuel n : Nat) (s sE : RescopeState),
      rescopeIter ids count fuel n s = some sE →
      PlainData ids count s.data →
      sE.table = s.table ∧
      sE.data.length = s.data.length ∧
      (∀ m, Cells6Eq (recAt sE.data m) (recAt s.data m)) ∧
      (∀ m, m < n → (recAt sE.data m).parent = (recAt s.data m).parent ∧
        (recAt sE.data m).depth = (recAt s.data m).depth) ∧
      (∀ m, m < n → ¬ OpenAt s m →
        (recAt sE.data m).nextSibling = (recAt s.data m).nextSibling ∧
        (recAt sE.data m).endTime = (recAt s.data m).endTime ∧
        (recAt sE.data m).systemTime = (recAt s.data m).systemTime ∧
        (recAt sE.data m).childTime = (recAt s.data m).childTime) := by
  intro fuel
  induction fuel with
  | zero =>
    intro n s sE h hpd
    injection h with h
    subst h
    exact ⟨rfl, rfl, fun m => cells6_refl _, fun m _ => ⟨rfl, rfl⟩,
      fun m _ _ => ⟨rfl, rfl, rfl, rfl⟩⟩
  | succ fuel ih =>
    intro n s sE h hpd
    rw [rescopeIter] at h
    by_cases hn : n < count
    · rw [if_pos hn] at h
      cases hstep : rescopeStep ids count n s with
      | none => rw [hstep] at h; cases h
      | some s1 =>
        rw [hstep] at h
        rw [rescopeStep_plain_eq ids count n s (hpd n hn).1] at hstep
        by_cases hleave : ((recAt s.data n).type : Int) = ids.scopeLeaveId
        · rw [if_pos hleave] at hstep
          obtain ⟨hd, htb, _, hstk, _, htop, _, htop0⟩ := leaveBranch_fields hstep
          have hpd1 : PlainData ids count s1.data := by
            intro m hm
            have h6 : Cells6Eq (recAt s1.data m) (recAt s.data m) := by
              rw [hd]
              exact cells6_leaveData count n s m
            constructor
            · rw [h6.2.2.1]
              exact (hpd m hm).1
            · rw [h6.1]
              exact (hpd m hm).2
          have hrec := ih (n + 1) s1 sE h hpd1
          have hpmem : OpenAt s (s.stack s.stackTop) :=
            ⟨s.stackTop, Nat.one_le_iff_ne_zero.mpr htop0, Nat.le_refl _, rfl⟩
          refine ⟨hrec.1.trans htb, hrec.2.1.trans (by rw [hd, leaveData_length]), ?_, ?_, ?_⟩
          · intro m
            exact cells6_trans (hrec.2.2.1 m) (by rw [hd]; exact cells6_leaveData count n s m)
          · intro m hm
            have hpd8 : Cells8Eq (recAt s1.data m) (recAt (prepRecord count n s) m) := by
              rw [hd]
              exact cells8_leaveData count n s m
            have hprep : recAt (prepRecord count n s) m = recAt s.data m :=
              recAt_prepRecord_ne count s (by omega)
            have hx := hrec.2.2.2.1 m (by omega)
            refine ⟨?_, ?_⟩
            · rw [hx.1, hpd8.2.1, hprep]
            · rw [hx.2, hpd8.2.2, hprep]
          · intro m hm hopen
            have hmn : m ≠ n := by omega
            have hmp : m ≠ s.stack s.stackTop := fun hc => hopen (hc ▸ hpmem)
            have hfull : recAt s1.data m = recAt s.data m := by
              rw [hd]
              exact recAt_leaveData_ne count n s hmn hmp
            have hopen1 : ¬ OpenAt s1 m := by
              intro hop
              obtain ⟨j, hj1, hj2, hj3⟩ := hop
              rw [htop] at hj2
              rw [hstk] at hj3
              exact hopen ⟨j, hj1, by omega, hj3⟩
            have hx := hrec.2.2.2.2 m (by omega) hopen1
            rw [hfull] at hx
            exact hx
        · rw [if_neg hleave] at hstep
          obtain ⟨hd, htb, _, _, _, ty, hty, hdisj⟩ := otherBranch_fields hstep
          have hpd1 : PlainData ids count s1.data := by
            intro m hm
            have h6 : Cells6Eq (recAt s1.data m) (recAt s.data m) := by
              rw [hd]
              exact cells6_prep count n s m
            constructor
            · rw [h6.2.2.1]
              exact (hpd m hm).1
            · rw [h6.1]
              exact (hpd m hm).2
          have hrec := ih (n + 1) s1 sE h hpd1
          refine ⟨hrec.1.trans htb, hrec.2.1.trans (by rw [hd, prepRecord_length]), ?_, ?_, ?_⟩
          · intro m
            exact cells6_trans (hrec.2.2.1 m) (by rw [hd]; exact cells6_prep count n s m)
          · intro m hm
            have hprep : recAt (prepRecord count n s) m = recAt s.data m :=
              recAt_prepRecord_ne count s (by omega)
            have hx := hrec.2.2.2.1 m (by omega)
            rw [hd, hprep] at hx
            exact hx
          · intro m hm hopen
            have hprep : recAt (prepRecord count n s) m = recAt s.data m :=
              recAt_prepRecord_ne count s (by omega)
            have hopen1 : ¬ OpenAt s1 m := by
              intro hop
              obtain ⟨j, hj1, hj2, hj3⟩ := hop
              rcases hdisj with ⟨_, hstk, _, htop, _⟩ | ⟨_, _, hstk, _, htop, _⟩
              · rw [htop] at hj2
                rw [hstk] at hj3
                exact hopen ⟨j, hj1, hj2, hj3⟩
              · rw [htop] at hj2
                rw [hstk] at hj3
                by_cases hjtop : j = s.stackTop + 1
                · rw [hjtop] at hj3
                  simp only [upd, if_pos] at hj3
                  rw [(hpd n hn).2] at hj3
                  omega
                · have hupd : upd s.stack (s.stackTop + 1) ((recAt s.data n).id) j =
                      s.stack j := by
                    simp only [upd]
                    rw [if_neg hjtop]
                  rw [hupd] at hj3
                  exact hopen ⟨j, hj1, by omega, hj3⟩
            have hx := hrec.2.2.2.2 m (by omega) hopen1
            rw [hd, hprep] at hx
            exact hx
    · rw [if_neg hn] at h
      injection h with h
      subst h
      exact ⟨rfl, rfl, fun m => cells6_refl _, fun m _ => ⟨rfl, rfl⟩,
        fun m _ _ => ⟨rfl, rfl, rfl, rfl⟩⟩

theorem cells11_trans {a b c : EventRecord} (h1 : Cells11Eq a b) (h2 : Cells11Eq b c) :
    Cells11Eq a c :=
  ⟨cells6_trans h1.1 h2.1, h1.2.1.trans h2.2.1, h1.2.2.1.trans h2.2.2.1,
    h1.2.2.2.1.trans h2.2.2.2.1, h1.2.2.2.2.1.trans h2.2.2.2.2.1,
    h1.2.2.2.2.2.trans h2.2.2.2.2.2⟩

theorem cells11_of_eq {r r' : EventRecord} (h : r = r') : Cells11Eq r r' :=
  h ▸ cells11_refl r

/-- PARENT written by the prefix at the current record. -/
theorem prep_parent (count n : Nat) (s : RescopeState) (hn : n < s.data.length) :
    (recAt (prepRecord count n s) n).parent = s.stack s.stackTop := by
  rw [recAt_prepRecord_self count s hn]

/-- DEPTH written by the prefix at the current record. -/
theorem prep_depth (count n : Nat) (s : RescopeState) (hn : n < s.data.length) :
    (recAt (prepRecord count n s) n).depth = s.stackTop := by
  rw [recAt_prepRecord_self count s hn]

/-- Provisional NEXT_SIBLING written by the prefix at the current record. -/
theorem prep_ns (count n : Nat) (s : RescopeState) (hn : n < s.data.length) :
    (recAt (prepRecord count n s) n).nextSibling = nextIdOf count n s.data := by
  rw [recAt_prepRecord_self count s hn]

/-- Over plain data the next-event id is the provisional sibling index. -/
theorem nextIdOf_eq_provNS (ids : SpecialIds) (count n : Nat) (d : List EventRecord)
    (hplain : PlainData ids count d) :
    nextIdOf count n d = provNS count n := by
  unfold nextIdOf provNS
  by_cases h : n < count - 1
  · rw [if_pos h, if_pos h, (hplain (n + 1) (by omega)).2]
  · rw [if_neg h, if_neg h]

/-- Open records of a state whose stack fields are known. -/
theorem openAt_iff_of {s' : RescopeState} {stk : Nat → Nat} {t : Nat}
    (hs : s'.stack = stk) (hp : s'.stackTop = t) (m : Nat) :
    OpenAt s' m ↔ ∃ j, 1 ≤ j ∧ j ≤ t ∧ stk j = m := by
  simp only [OpenAt, hs, hp]

/-- Pushing onto the stack adds exactly the pushed record to the open set. -/
theorem openAt_iff_push {stk : Nat → Nat} {top v m : Nat} :
    (∃ j, 1 ≤ j ∧ j ≤ top + 1 ∧ upd stk (top + 1) v j = m) ↔
      ((∃ j, 1 ≤ j ∧ j ≤ top ∧ stk j = m) ∨ m = v) := by
  constructor
  · intro hop
    obtain ⟨j, h1, h2, h3⟩ := hop
    by_cases hj : j = top + 1
    · subst hj
      simp only [upd, if_pos] at h3
      exact Or.inr h3.symm
    · left
      refine ⟨j, h1, by omega, ?_⟩
      have : upd stk (top + 1) v j = stk j := by
        simp only [upd]
        rw [if_neg hj]
      rw [← this]
      exact h3
  · intro hop
    rcases hop with ⟨j, h1, h2, h3⟩ | rfl
    · refine ⟨j, h1, by omega, ?_⟩
      have : upd stk (top + 1) v j = stk j := by
        simp only [upd]
        rw [if_neg (by omega)]
      rw [this]
      exact h3
    · refine ⟨top + 1, by omega, Nat.le_refl _, ?_⟩
      simp only [upd, if_pos]

/-- No record at or above the bound of the open entries is open. -/
theorem not_openAt_of_lt {s : RescopeState} {n : Nat}
    (hlt : ∀ j, 1 ≤ j → j ≤ s.stackTop → s.stack j < n) : ¬ OpenAt s n := by
  intro hop
  obtain ⟨j, h1, h2, h3⟩ := hop
  have := hlt j h1 h2
  omega

/-- The lock-step simulation invariant: the second scan's state `s2` mirrors
the stacks of the first scan's state `s1` at record `n`, its table is
already final, and its buffer is the final buffer `sE.data` except that
still-open scopes carry the provisional NEXT_SIBLING.  The run-1 components
record the open-stack bookkeeping the simulation consumes. -/
structure SimLink (ids : SpecialIds) (count n : Nat) (s1 s2 sE : RescopeState) : Prop where
  stackEq : s2.stack = s1.stack
  typeStackEq : s2.typeStack = s1.typeStack
  ctsEq : s2.childTimeStack = s1.childTimeStack
  stsEq : s2.systemTimeStack = s1.systemTimeStack
  topEq : s2.stackTop = s1.stackTop
  maxEq : s2.stackMax = s1.stackMax
  tableEq : s2.table = s1.table
  len1 : s1.data.length = count
  len2 : s2.data.length = sE.data.length
  plain1 : PlainData ids count s1.data
  cells : ∀ m, Cells11Eq (recAt s2.data m) (recAt sE.data m)
  nsOpen : ∀ m, OpenAt s1 m → (recAt s2.data m).nextSibling = provNS count m
  nsDone : ∀ m, ¬ OpenAt s1 m →
    (recAt s2.data m).nextSibling = (recAt sE.data m).nextSibling
  openNS1 : ∀ m, OpenAt s1 m → (recAt s1.data m).nextSibling = provNS count m
  openLt : ∀ j, 1 ≤ j → j ≤ s1.stackTop → s1.stack j < n ∧ s1.stack j < count
  stackInc : ∀ j j', 1 ≤ j → j < j' → j' ≤ s1.stackTop → s1.stack j < s1.stack j'

/-- Link preservation across synchronized residual steps that do not push. -/
theorem simLink_other_nopush (ids : SpecialIds) (count n : Nat)
    (s1 s2 sE s1' s2' : RescopeState) (L : SimLink ids count n s1 s2 sE)
    (hn : n < count) (hlenE : sE.data.length = count)
    (hplainE : PlainData ids count sE.data)
    (hparE : (recAt sE.data n).parent = s1.stack s1.stackTop)
    (hdepE : (recAt sE.data n).depth = s1.stackTop)
    (hnsE : (recAt sE.data n).nextSibling = provNS count n)
    (hd1 : s1'.data = prepRecord count n s1) (hk1 : s1'.table = s1.table)
    (hs1 : s1'.stack = s1.stack) (ht1 : s1'.typeStack = s1.typeStack)
    (hc1 : s1'.childTimeStack = s1.childTimeStack)
    (hy1 : s1'.systemTimeStack = s1.systemTimeStack)
    (hp1 : s1'.stackTop = s1.stackTop) (hm1 : s1'.stackMax = s1.stackMax)
    (hd2 : s2'.data = prepRecord count n s2) (hk2 : s2'.table = s2.table)
    (hs2 : s2'.stack = s2.stack) (ht2 : s2'.typeStack = s2.typeStack)
    (hc2 : s2'.childTimeStack = s2.childTimeStack)
    (hy2 : s2'.systemTimeStack = s2.systemTimeStack)
    (hp2 : s2'.stackTop = s2.stackTop) (hm2 : s2'.stackMax = s2.stackMax) :
    SimLink ids count (n + 1) s1' s2' sE := by
  have hn2 : n < s2.data.length := by
    rw [L.len2, hlenE]
    exact hn
  have hopen' : ∀ m, OpenAt s1' m ↔ OpenAt s1 m := fun m => openAt_iff_of hs1 hp1 m
  have hplain2 : PlainData ids count s2.data := by
    intro m hm
    constructor
    · rw [(L.cells m).1.2.2.1]
      exact (hplainE m hm).1
    · rw [(L.cells m).1.1]
      exact (hplainE m hm).2
  have hmn_of_open : ∀ m, OpenAt s1 m → m ≠ n := by
    intro m hop
    obtain ⟨j, hj1, hj2, hj3⟩ := hop
    have := (L.openLt j hj1 hj2).1
    omega
  refine ⟨?_, ?_, ?_, ?_, ?_, ?_, ?_, ?_, ?_, ?_, ?_, ?_, ?_, ?_, ?_, ?_⟩
  · rw [hs2, hs1]
    exact L.stackEq
  · rw [ht2, ht1]
    exact L.typeStackEq
  · rw [hc2, hc1]
    exact L.ctsEq
  · rw [hy2, hy1]
    exact L.stsEq
  · rw [hp2, hp1]
    exact L.topEq
  · rw [hm2, hm1]
    exact L.maxEq
  · rw [hk2, hk1]
    exact L.tableEq
  · rw [hd1, prepRecord_length, L.len1]
  · rw [hd2, prepRecord_length, L.len2]
  · intro m hm
    rw [hd1]
    constructor
    · rw [(cells6_prep count n s1 m).2.2.1]
      exact (L.plain1 m hm).1
    · rw [(cells6_prep count n s1 m).1]
      exact (L.plain1 m hm).2
  · intro m
    rw [hd2]
    by_cases hm : m = n
    · subst hm
      rw [recAt_prepRecord_self count s2 hn2]
      refine ⟨⟨?_, ?_, ?_, ?_, ?_, ?_⟩, ?_, ?_, ?_, ?_, ?_⟩
      · exact (L.cells m).1.1
      · exact (L.cells m).1.2.1
      · exact (L.cells m).1.2.2.1
      · exact (L.cells m).1.2.2.2.1
      · exact (L.cells m).1.2.2.2.2.1
      · exact (L.cells m).1.2.2.2.2.2
      · rw [hparE, L.stackEq, L.topEq]
      · rw [hdepE, L.topEq]
      · exact (L.cells m).2.2.2.1
      · exact (L.cells m).2.2.2.2.1
      · exact (L.cells m).2.2.2.2.2
    · rw [recAt_prepRecord_ne count s2 hm]
      exact L.cells m
  · intro m hop
    have hop1 : OpenAt s1 m := (hopen' m).mp hop
    rw [hd2, recAt_prepRecord_ne count s2 (hmn_of_open m hop1)]
    exact L.nsOpen m hop1
  · intro m hop
    have hop1 : ¬ OpenAt s1 m := fun hc => hop ((hopen' m).mpr hc)
    by_cases hmn : m = n
    · subst hmn
      rw [hd2, prep_ns count m s2 hn2, nextIdOf_eq_provNS ids count m s2.data hplain2, hnsE]
    · rw [hd2, recAt_prepRecord_ne count s2 hmn]
      exact L.nsDone m hop1
  · intro m hop
    have hop1 : OpenAt s1 m := (hopen' m).mp hop
    rw [hd1, recAt_prepRecord_ne count s1 (hmn_of_open m hop1)]
    exact L.openNS1 m hop1
  · intro j hj1 hj2
    rw [hp1] at hj2
    rw [hs1]
    have := L.openLt j hj1 hj2
    omega
  · intro j j' h1 h2 h3
    rw [hp1] at h3
    rw [hs1]
    exact L.stackInc j j' h1 h2 h3

/-- Link preservation across synchronized residual steps that push the
current record as a scope. -/
theorem simLink_other_push (ids : SpecialIds) (count n : Nat)
    (s1 s2 sE s1' s2' : RescopeState) (ty : EventType)
    (L : SimLink ids count n s1 s2 sE)
    (hn : n < count) (hlenE : sE.data.length = count)
    (hplainE : PlainData ids count sE.data)
    (hparE : (recAt sE.data n).parent = s1.stack s1.stackTop)
    (hdepE : (recAt sE.data n).depth = s1.stackTop)
    (hd1 : s1'.data = prepRecord count n s1) (hk1 : s1'.table = s1.table)
    (hs1 : s1'.stack = upd s1.stack (s1.stackTop + 1) n)
    (ht1 : s1'.typeStack = upd s1.typeStack (s1.stackTop + 1) (some ty))
    (hc1 : s1'.childTimeStack = s1.childTimeStack)
    (hy1 : s1'.systemTimeStack = s1.systemTimeStack)
    (hp1 : s1'.stackTop = s1.stackTop + 1)
    (hm1 : s1'.stackMax = max s1.stackMax (s1.stackTop + 1))
    (hd2 : s2'.data = prepRecord count n s2) (hk2 : s2'.table = s2.table)
    (hs2 : s2'.stack = upd s2.stack (s2.stackTop + 1) n)
    (ht2 : s2'.typeStack = upd s2.typeStack (s2.stackTop + 1) (some ty))
    (hc2 : s2'.childTimeStack = s2.childTimeStack)
    (hy2 : s2'.systemTimeStack = s2.systemTimeStack)
    (hp2 : s2'.stackTop = s2.stackTop + 1)
    (hm2 : s2'.stackMax = max s2.stackMax (s2.stackTop + 1)) :
    SimLink ids count (n + 1) s1' s2' sE := by
  have hn1 : n < s1.data.length := by
    rw [L.len1]
    exact hn
  have hn2 : n < s2.data.length := by
    rw [L.len2, hlenE]
    exact hn
  have hopen' : ∀ m, OpenAt s1' m ↔ (OpenAt s1 m ∨ m = n) := by
    intro m
    rw [openAt_iff_of hs1 hp1 m]
    exact openAt_iff_push
  have hplain2 : PlainData ids count s2.data := by
    intro m hm
    constructor
    · rw [(L.cells m).1.2.2.1]
      exact (hplainE m hm).1
    · rw [(L.cells m).1.1]
      exact (hplainE m hm).2
  have hmn_of_open : ∀ m, OpenAt s1 m → m ≠ n := by
    intro m hop
    obtain ⟨j, hj1, hj2, hj3⟩ := hop
    have := (L.openLt j hj1 hj2).1
    omega
  refine ⟨?_, ?_, ?_, ?_, ?_, ?_, ?_, ?_, ?_, ?_, ?_, ?_, ?_, ?_, ?_, ?_⟩
  · rw [hs2, hs1, L.stackEq, L.topEq]
  · rw [ht2, ht1, L.typeStackEq, L.topEq]
  · rw [hc2, hc1]
    exact L.ctsEq
  · rw [hy2, hy1]
    exact L.stsEq
  · rw [hp2, hp1, L.topEq]
  · rw [hm2, hm1, L.maxEq, L.topEq]
  · rw [hk2, hk1]
    exact L.tableEq
  · rw [hd1, prepRecord_length, L.len1]
  · rw [hd2, prepRecord_length, L.len2]
  · intro m hm
    rw [hd1]
    constructor
    · rw [(cells6_prep count n s1 m).2.2.1]
      exact (L.plain1 m hm).1
    · rw [(cells6_prep count n s1 m).1]
      exact (L.plain1 m hm).2
  · intro m
    rw [hd2]
    by_cases hm : m = n
    · subst hm
      rw [recAt_prepRecord_self count s2 hn2]
      refine ⟨⟨?_, ?_, ?_, ?_, ?_, ?_⟩, ?_, ?_, ?_, ?_, ?_⟩
      · exact (L.cells m).1.1
      · exact (L.cells m).1.2.1
      · exact (L.cells m).1.2.2.1
      · exact (L.cells m).1.2.2.2.1
      · exact (L.cells m).1.2.2.2.2.1
      · exact (L.cells m).1.2.2.2.2.2
      · rw [hparE, L.stackEq, L.topEq]
      · rw [hdepE, L.topEq]
      · exact (L.cells m).2.2.2.1
      · exact (L.cells m).2.2.2.2.1
      · exact (L.cells m).2.2.2.2.2
    · rw [recAt_prepRecord_ne count s2 hm]
      exact L.cells m
  · intro m hop
    rcases (hopen' m).mp hop with hop1 | rfl
    · rw [hd2, recAt_prepRecord_ne count s2 (hmn_of_open m hop1)]
      exact L.nsOpen m hop1
    · rw [hd2, prep_ns count m s2 hn2, nextIdOf_eq_provNS ids count m s2.data hplain2]
  · intro m hop
    have hop1 : ¬ OpenAt s1 m := fun hc => hop ((hopen' m).mpr (Or.inl hc))
    have hmn : m ≠ n := fun hc => hop ((hopen' m).mpr (Or.inr hc))
    rw [hd2, recAt_prepRecord_ne count s2 hmn]
    exact L.nsDone m hop1
  · intro m hop
    rcases (hopen' m).mp hop with hop1 | rfl
    · rw [hd1, recAt_prepRecord_ne count s1 (hmn_of_open m hop1)]
      exact L.openNS1 m hop1
    · rw [hd1, prep_ns count m s1 hn1, nextIdOf_eq_provNS ids count m s1.data L.plain1]
  · intro j hj1 hj2
    rw [hp1] at hj2
    rw [hs1]
    by_cases hj : j = s1.stackTop + 1
    · subst hj
      simp only [upd, if_pos]
      omega
    · have hupd : upd s1.stack (s1.stackTop + 1) n j = s1.stack j := by
        simp only [upd]
        rw [if_neg hj]
      rw [hupd]
      have := L.openLt j hj1 (by omega)
      omega
  · intro j j' h1 h2 h3
    rw [hp1] at h3
    rw [hs1]
    by_cases hj' : j' = s1.stackTop + 1
    · subst hj'
      have hj : j ≤ s1.stackTop := by omega
      have hupd : upd s1.stack (s1.stackTop + 1) n j = s1.stack j := by
        simp only [upd]
        rw [if_neg (by omega)]
      rw [hupd]
      simp only [upd, if_pos]
      exact (L.openLt j h1 hj).1
    · have hupd : upd s1.stack (s1.stackTop + 1) n j = s1.stack j := by
        simp only [upd]
        rw [if_neg (by omega)]
      have hupd' : upd s1.stack (s1.stackTop + 1) n j' = s1.stack j' := by
        simp only [upd]
        rw [if_neg hj']
      rw [hupd, hupd']
      exact L.stackInc j j' h1 h2 (by omega)

/-- Link preservation across synchronized leave steps closing the scope on
top of the stack. -/
theorem simLink_leave (ids : SpecialIds) (count n : Nat)
    (s1 s2 sE s1' s2' : RescopeState) (L : SimLink ids count n s1 s2 sE)
    (hn : n < count) (hlenE : sE.data.length = count)
    (hplainE : PlainData ids count sE.data)
    (htop0 : s1.stackTop ≠ 0)
    (htimeE : (recAt sE.data n).time = (recAt s1.data n).time)
    (hparE : (recAt sE.data n).parent = s1.stack s1.stackTop)
    (hdepE : (recAt sE.data n).depth = s1.stackTop)
    (hnsE : (recAt sE.data n).nextSibling = 0)
    (hnsP : (recAt sE.data (s1.stack s1.stackTop)).nextSibling = provNS count n)
    (hetP : (recAt sE.data (s1.stack s1.stackTop)).endTime = (recAt s1.data n).time)
    (hstP : (recAt sE.data (s1.stack s1.stackTop)).systemTime =
      s1.systemTimeStack (s1.stackTop - 1))
    (hctP : (recAt sE.data (s1.stack s1.stackTop)).childTime =
      s1.childTimeStack (s1.stackTop - 1))
    (hd1 : s1'.data = leaveData count n s1) (hk1 : s1'.table = s1.table)
    (hs1 : s1'.stack = s1.stack) (ht1 : s1'.typeStack = s1.typeStack)
    (hp1 : s1'.stackTop = s1.stackTop - 1)
    (hd2 : s2'.data = leaveData count n s2) (hk2 : s2'.table = s2.table)
    (hs2 : s2'.stack = s2.stack) (ht2 : s2'.typeStack = s2.typeStack)
    (hp2 : s2'.stackTop = s2.stackTop - 1)
    (hcEq : s2'.childTimeStack = s1'.childTimeStack)
    (hyEq : s2'.systemTimeStack = s1'.systemTimeStack)
    (hmEq : s2'.stackMax = s1'.stackMax) :
    SimLink ids count (n + 1) s1' s2' sE := by
  have hn1 : n < s1.data.length := by
    rw [L.len1]
    exact hn
  have hn2 : n < s2.data.length := by
    rw [L.len2, hlenE]
    exact hn
  have htop1 : 1 ≤ s1.stackTop := Nat.one_le_iff_ne_zero.mpr htop0
  have hpopen : OpenAt s1 (s1.stack s1.stackTop) :=
    ⟨s1.stackTop, htop1, Nat.le_refl _, rfl⟩
  have hplt := L.openLt s1.stackTop htop1 (Nat.le_refl _)
  have hpn : s1.stack s1.stackTop ≠ n := by omega
  have hpeq : s2.stack s2.stackTop = s1.stack s1.stackTop := by
    rw [L.stackEq, L.topEq]
  have hp2n : s2.stack s2.stackTop ≠ n := by
    rw [hpeq]
    exact hpn
  have hplen2 : s2.stack s2.stackTop < s2.data.length := by
    rw [L.len2, hlenE, hpeq]
    exact hplt.2
  have hplain2 : PlainData ids count s2.data := by
    intro m hm
    constructor
    · rw [(L.cells m).1.2.2.1]
      exact (hplainE m hm).1
    · rw [(L.cells m).1.1]
      exact (hplainE m hm).2
  have hopen' : ∀ m, OpenAt s1' m → OpenAt s1 m := by
    intro m hop
    obtain ⟨j, hj1, hj2, hj3⟩ := hop
    rw [hp1] at hj2
    rw [hs1] at hj3
    exact ⟨j, hj1, by omega, hj3⟩
  have hopen'p : ∀ m, OpenAt s1' m → m ≠ s1.stack s1.stackTop := by
    intro m hop hc
    obtain ⟨j, hj1, hj2, hj3⟩ := hop
    rw [hp1] at hj2
    rw [hs1] at hj3
    have hlt := L.stackInc j s1.stackTop hj1 (by omega) (Nat.le_refl _)
    rw [hj3, hc] at hlt
    exact absurd hlt (lt_irrefl _)
  have hnotopen' : ∀ m, ¬ OpenAt s1' m → m ≠ n → m ≠ s1.stack s1.stackTop →
      ¬ OpenAt s1 m := by
    intro m hop hmn hmp hcontra
    obtain ⟨j, hj1, hj2, hj3⟩ := hcontra
    by_cases hj : j = s1.stackTop
    · rw [hj] at hj3
      exact hmp hj3.symm
    · refine hop ⟨j, hj1, ?_, ?_⟩
      · rw [hp1]
        omega
      · rw [hs1]
        exact hj3
  have hmn_of_open : ∀ m, OpenAt s1 m → m ≠ n := by
    intro m hop
    obtain ⟨j, hj1, hj2, hj3⟩ := hop
    have := (L.openLt j hj1 hj2).1
    omega
  have hld2p : recAt (leaveData count n s2) (s1.stack s1.stackTop) =
      { recAt s2.data (s1.stack s1.stackTop) with
        nextSibling := nextIdOf count n (prepRecord count n s2)
        endTime := (recAt s2.data n).time
        systemTime := s1.systemTimeStack (s1.stackTop - 1)
        childTime := s1.childTimeStack (s1.stackTop - 1) } := by
    rw [← hpeq, ← L.topEq, ← L.ctsEq, ← L.stsEq]
    exact recAt_leaveData_parent count n s2 hp2n hplen2
  refine ⟨?_, ?_, ?_, ?_, ?_, ?_, ?_, ?_, ?_, ?_, ?_, ?_, ?_, ?_, ?_, ?_⟩
  · rw [hs2, hs1]
    exact L.stackEq
  · rw [ht2, ht1]
    exact L.typeStackEq
  · exact hcEq
  · exact hyEq
  · rw [hp2, hp1, L.topEq]
  · exact hmEq
  · rw [hk2, hk1]
    exact L.tableEq
  · rw [hd1, leaveData_length, L.len1]
  · rw [hd2, leaveData_length, L.len2]
  · intro m hm
    rw [hd1]
    constructor
    · rw [(cells6_leaveData count n s1 m).2.2.1]
      exact (L.plain1 m hm).1
    · rw [(cells6_leaveData count n s1 m).1]
      exact (L.plain1 m hm).2
  · intro m
    rw [hd2]
    by_cases hmn : m = n
    · subst hmn
      rw [recAt_leaveData_self count m s2 hp2n hn2, recAt_prepRecord_self count s2 hn2]
      refine ⟨⟨?_, ?_, ?_, ?_, ?_, ?_⟩, ?_, ?_, ?_, ?_, ?_⟩
      · exact (L.cells m).1.1
      · exact (L.cells m).1.2.1
      · exact (L.cells m).1.2.2.1
      · exact (L.cells m).1.2.2.2.1
      · exact (L.cells m).1.2.2.2.2.1
      · exact (L.cells m).1.2.2.2.2.2
      · rw [hparE, L.stackEq, L.topEq]
      · rw [hdepE, L.topEq]
      · exact (L.cells m).2.2.2.1
      · exact (L.cells m).2.2.2.2.1
      · exact (L.cells m).2.2.2.2.2
    · by_cases hmp : m = s1.stack s1.stackTop
      · subst hmp
        rw [hld2p]
        refine ⟨⟨?_, ?_, ?_, ?_, ?_, ?_⟩, ?_, ?_, ?_, ?_, ?_⟩
        · exact (L.cells (s1.stack s1.stackTop)).1.1
        · exact (L.cells (s1.stack s1.stackTop)).1.2.1
        · exact (L.cells (s1.stack s1.stackTop)).1.2.2.1
        · exact (L.cells (s1.stack s1.stackTop)).1.2.2.2.1
        · exact (L.cells (s1.stack s1.stackTop)).1.2.2.2.2.1
        · exact (L.cells (s1.stack s1.stackTop)).1.2.2.2.2.2
        · exact (L.cells (s1.stack s1.stackTop)).2.1
        · exact (L.cells (s1.stack s1.stackTop)).2.2.1
        · rw [hetP, ← htimeE]
          exact (L.cells n).1.2.1
        · rw [hstP]
        · rw [hctP]
      · have hmp2 : m ≠ s2.stack s2.stackTop := by
          rw [hpeq]
          exact hmp
        rw [recAt_leaveData_ne count n s2 hmn hmp2]
        exact L.cells m
  · intro m hop
    have hop1 : OpenAt s1 m := hopen' m hop
    have hmp2 : m ≠ s2.stack s2.stackTop := by
      rw [hpeq]
      exact hopen'p m hop
    rw [hd2, recAt_leaveData_ne count n s2 (hmn_of_open m hop1) hmp2]
    exact L.nsOpen m hop1
  · intro m hop
    by_cases hmn : m = n
    · subst hmn
      rw [hd2, recAt_leaveData_self count m s2 hp2n hn2, hnsE]
    · by_cases hmp : m = s1.stack s1.stackTop
      · subst hmp
        rw [hd2, hld2p, hnsP]
        show nextIdOf count n (prepRecord count n s2) = provNS count n
        rw [nextIdOf_prepRecord count n s2]
        exact nextIdOf_eq_provNS ids count n s2.data hplain2
      · have hmp2 : m ≠ s2.stack s2.stackTop := by
          rw [hpeq]
          exact hmp
        rw [hd2, recAt_leaveData_ne count n s2 hmn hmp2]
        exact L.nsDone m (hnotopen' m hop hmn hmp)
  · intro m hop
    have hop1 : OpenAt s1 m := hopen' m hop
    have hmp1 : m ≠ s1.stack s1.stackTop := hopen'p m hop
    rw [hd1, recAt_leaveData_ne count n s1 (hmn_of_open m hop1) hmp1]
    exact L.openNS1 m hop1
  · intro j hj1 hj2
    rw [hp1] at hj2
    rw [hs1]
    have := L.openLt j hj1 (by omega)
    omega
  · intro j j' h1 h2 h3
    rw [hp1] at h3
    rw [hs1]
    exact L.stackInc j j' h1 h2 (by omega)

/-- A state whose Link target is the state itself already carries the final
buffer. -/
theorem simLink_data_eq (ids : SpecialIds) (count n : Nat) (s1 s2 : RescopeState)
    (L : SimLink ids count n s1 s2 s1) : s2.data = s1.data := by
  apply data_ext L.len2
  intro m
  apply rec_eq_of_cells11 (L.cells m)
  by_cases hop : OpenAt s1 m
  · rw [L.nsOpen m hop, L.openNS1 m hop]
  · exact L.nsDone m hop

/-- The second scan retraces a completed plain first scan step by step and
reproduces its final buffer exactly. -/
theorem plain_iter_sim (ids : SpecialIds) (count : Nat) :
    ∀ (fuel n : Nat) (s1 s2 sE : RescopeState),
      rescopeIter ids count fuel n s1 = some sE →
      SimLink ids count n s1 s2 sE →
      ∃ s2E, rescopeIter ids count fuel n s2 = some s2E ∧ s2E.data = sE.data := by
  intro fuel
  induction fuel with
  | zero =>
    intro n s1 s2 sE h L
    injection h with h
    subst h
    exact ⟨s2, rfl, simLink_data_eq ids count n s1 s2 L⟩
  | succ fuel ih =>
    intro n s1 s2 sE h L
    rw [rescopeIter] at h
    by_cases hn : n < count
    · rw [if_pos hn] at h
      cases hstep : rescopeStep ids count n s1 with
      | none =>
        rw [hstep] at h
        cases h
      | some s1' =>
        rw [hstep] at h
        have hfull : rescopeIter ids count (fuel + 1) n s1 = some sE := by
          rw [rescopeIter, if_pos hn, hstep]
          exact h
        have hev := plain_iter_evolves ids count (fuel + 1) n s1 sE hfull L.plain1
        have hlenE : sE.data.length = count := by
          rw [hev.2.1, L.len1]
        have hplainE : PlainData ids count sE.data := by
          intro m hm
          constructor
          · rw [(hev.2.2.1 m).2.2.1]
            exact (L.plain1 m hm).1
          · rw [(hev.2.2.1 m).1]
            exact (L.plain1 m hm).2
        have htype2 : (recAt s2.data n).type = (recAt s1.data n).type :=
          ((L.cells n).1.2.2.1).trans ((hev.2.2.1 n).2.2.1)
        have hplain2n : PlainType ids (recAt s2.data n).type := by
          rw [htype2]
          exact (L.plain1 n hn).1
        have hn1 : n < s1.data.length := by
          rw [L.len1]
          exact hn
        have htimeE : (recAt sE.data n).time = (recAt s1.data n).time := (hev.2.2.1 n).2.1
        rw [rescopeStep_plain_eq ids count n s1 (L.plain1 n hn).1] at hstep
        by_cases hleave : ((recAt s1.data n).type : Int) = ids.scopeLeaveId
        · rw [if_pos hleave] at hstep
          obtain ⟨hd1, hk1, _, hs1, ht1, hp1, hm1, htop0⟩ := leaveBranch_fields hstep
          have hplain1' : PlainData ids count s1'.data := by
            intro m hm
            constructor
            · rw [hd1, (cells6_leaveData count n s1 m).2.2.1]
              exact (L.plain1 m hm).1
            · rw [hd1, (cells6_leaveData count n s1 m).1]
              exact (L.plain1 m hm).2
          have hev2 := plain_iter_evolves ids count fuel (n + 1) s1' sE h hplain1'
          have htop1 : 1 ≤ s1.stackTop := Nat.one_le_iff_ne_zero.mpr htop0
          have hplt := L.openLt s1.stackTop htop1 (Nat.le_refl _)
          have hpn : s1.stack s1.stackTop ≠ n := by omega
          have hplen1 : s1.stack s1.stackTop < s1.data.length := by
            rw [L.len1]
            exact hplt.2
          have hnotopen1n : ¬ OpenAt s1' n := by
            apply not_openAt_of_lt
            intro j hj1 hj2
            rw [hp1] at hj2
            rw [hs1]
            exact (L.openLt j hj1 (by omega)).1
          have hnotopen1p : ¬ OpenAt s1' (s1.stack s1.stackTop) := by
            intro hop
            obtain ⟨j, hj1, hj2, hj3⟩ := hop
            rw [hp1] at hj2
            rw [hs1] at hj3
            have hlt := L.stackInc j s1.stackTop hj1 (by omega) (Nat.le_refl _)
            rw [hj3] at hlt
            exact absurd hlt (lt_irrefl _)
          have hself1 : recAt s1'.data n =
              { recAt (prepRecord count n s1) n with nextSibling := 0 } := by
            rw [hd1]
            exact recAt_leaveData_self count n s1 hpn hn1
          have hparE : (recAt sE.data n).parent = s1.stack s1.stackTop := by
            rw [(hev2.2.2.2.1 n (by omega)).1, hself1]
            show (recAt (prepRecord count n s1) n).parent = _
            exact prep_parent count n s1 hn1
          have hdepE : (recAt sE.data n).depth = s1.stackTop := by
            rw [(hev2.2.2.2.1 n (by omega)).2, hself1]
            show (recAt (prepRecord count n s1) n).depth = _
            exact prep_depth count n s1 hn1
          have hnsE0 : (recAt sE.data n).nextSibling = 0 := by
            rw [(hev2.2.2.2.2 n (by omega) hnotopen1n).1, hself1]
          have hldp1 : recAt s1'.data (s1.stack s1.stackTop) =
              { recAt s1.data (s1.stack s1.stackTop) with
                nextSibling := nextIdOf count n (prepRecord count n s1)
                endTime := (recAt s1.data n).time
                systemTime := s1.systemTimeStack (s1.stackTop - 1)
                childTime := s1.childTimeStack (s1.stackTop - 1) } := by
            rw [hd1]
            exact recAt_leaveData_parent count n s1 hpn hplen1
          have hclosedP := hev2.2.2.2.2 (s1.stack s1.stackTop) (by omega) hnotopen1p
          have hnsP : (recAt sE.data (s1.stack s1.stackTop)).nextSibling =
              provNS count n := by
            rw [hclosedP.1, hldp1]
            show nextIdOf count n (prepRecord count n s1) = _
            rw [nextIdOf_prepRecord count n s1]
            exact nextIdOf_eq_provNS ids count n s1.data L.plain1
          have hetP : (recAt sE.data (s1.stack s1.stackTop)).endTime =
              (recAt s1.data n).time := by
            rw [hclosedP.2.1, hldp1]
          have hstP : (recAt sE.data (s1.stack s1.stackTop)).systemTime =
              s1.systemTimeStack (s1.stackTop - 1) := by
            rw [hclosedP.2.2.1, hldp1]
          have hctP : (recAt sE.data (s1.stack s1.stackTop)).childTime =
              s1.childTimeStack (s1.stackTop - 1) := by
            rw [hclosedP.2.2.2, hldp1]
          have htop02 : ¬ s2.stackTop = 0 := by
            rw [L.topEq]
            exact htop0
          have hleave2 : ((recAt s2.data n).type : Int) = ids.scopeLeaveId := by
            rw [htype2]
            exact hleave
          by_cases h0 : s1.stackTop - 1 = 0
          · have heval1 := leaveBranch_eval_base count n s1 htop0 h0
            have hlit1 : s1' = { s1 with
                data := leaveData count n s1
                stackTop := s1.stackTop - 1
                childTimeStack := upd s1.childTimeStack (s1.stackTop - 1) 0
                systemTimeStack := upd s1.systemTimeStack (s1.stackTop - 1) 0 } := by
              have hx := heval1.symm.trans hstep
              injection hx with hx
              exact hx.symm
            have h02 : s2.stackTop - 1 = 0 := by
              rw [L.topEq]
              exact h0
            have hstep2 : rescopeStep ids count n s2 = some { s2 with
                data := leaveData count n s2
                stackTop := s2.stackTop - 1
                childTimeStack := upd s2.childTimeStack (s2.stackTop - 1) 0
                systemTimeStack := upd s2.systemTimeStack (s2.stackTop - 1) 0 } := by
              rw [rescopeStep_plain_eq ids count n s2 hplain2n, if_pos hleave2]
              exact leaveBranch_eval_base count n s2 htop02 h02
            have L' := simLink_leave ids count n s1 s2 sE s1'
              { s2 with
                data := leaveData count n s2
                stackTop := s2.stackTop - 1
                childTimeStack := upd s2.childTimeStack (s2.stackTop - 1) 0
                systemTimeStack := upd s2.systemTimeStack (s2.stackTop - 1) 0 }
              L hn hlenE hplainE htop0 htimeE hparE hdepE hnsE0 hnsP hetP hstP hctP
              hd1 hk1 hs1 ht1 hp1 rfl rfl rfl rfl rfl
              (by rw [hlit1]
                  show upd s2.childTimeStack (s2.stackTop - 1) 0 =
                    upd s1.childTimeStack (s1.stackTop - 1) 0
                  rw [L.ctsEq, L.topEq])
              (by rw [hlit1]
                  show upd s2.systemTimeStack (s2.stackTop - 1) 0 =
                    upd s1.systemTimeStack (s1.stackTop - 1) 0
                  rw [L.stsEq, L.topEq])
              (by rw [hm1]
                  exact L.maxEq)
            obtain ⟨s2E, hit2, hdat⟩ := ih (n + 1) s1' _ sE h L'
            refine ⟨s2E, ?_, hdat⟩
            rw [rescopeIter, if_pos hn, hstep2]
            exact hit2
          · cases hpt1 : s1.typeStack (s1.stackTop - 1) with
            | none =>
              rw [leaveBranch_nopt count n s1 htop0 h0 hpt1] at hstep
              cases hstep
            | some pt =>
              have heval1 := leaveBranch_eval_inner count n s1 htop0 h0 pt hpt1
              have hlit1 : s1' = { s1 with
                  data := leaveData count n s1
                  stackTop := s1.stackTop - 1
                  childTimeStack := upd (upd s1.childTimeStack (s1.stackTop - 1) 0)
                    (s1.stackTop - 1 - 1)
                    (Int.toNat ((((upd s1.childTimeStack (s1.stackTop - 1) 0
                      (s1.stackTop - 1 - 1) : Nat) : Int) +
                      leaveDuration count n s1) % (u32 : Int)))
                  systemTimeStack := upd (upd s1.systemTimeStack (s1.stackTop - 1) 0)
                    (s1.stackTop - 1 - 1)
                    (Int.toNat ((((upd s1.systemTimeStack (s1.stackTop - 1) 0
                      (s1.stackTop - 1 - 1) : Nat) : Int) +
                      (if pt.flags &&& EventFlag.SYSTEM_TIME ≠ 0 then
                        (s1.systemTimeStack (s1.stackTop - 1) : Int) +
                          leaveDuration count n s1
                      else (s1.systemTimeStack (s1.stackTop - 1) : Int))) %
                        (u32 : Int))) } := by
                have hx := heval1.symm.trans hstep
                injection hx with hx
                exact hx.symm
              have h02 : s2.stackTop - 1 ≠ 0 := by
                rw [L.topEq]
                exact h0
              have hpt2 : s2.typeStack (s2.stackTop - 1) = some pt := by
                rw [L.typeStackEq, L.topEq]
                exact hpt1
              have hpeq : s2.stack s2.stackTop = s1.stack s1.stackTop := by
                rw [L.stackEq, L.topEq]
              have hp2n : s2.stack s2.stackTop ≠ n := by
                rw [hpeq]
                exact hpn
              have hdur : leaveDuration count n s2 = leaveDuration count n s1 := by
                rw [leaveDuration_eq count n s2 hp2n, leaveDuration_eq count n s1 hpn]
                have ht2n : (recAt s2.data n).time = (recAt s1.data n).time :=
                  ((L.cells n).1.2.1).trans htimeE
                have ht2p : (recAt s2.data (s1.stack s1.stackTop)).time =
                    (recAt s1.data (s1.stack s1.stackTop)).time :=
                  ((L.cells (s1.stack s1.stackTop)).1.2.1).trans
                    ((hev.2.2.1 (s1.stack s1.stackTop)).2.1)
                rw [ht2n, hpeq, ht2p]
              have hstep2 : rescopeStep ids count n s2 = some { s2 with
                  data := leaveData count n s2
                  stackTop := s2.stackTop - 1
                  childTimeStack := upd (upd s2.childTimeStack (s2.stackTop - 1) 0)
                    (s2.stackTop - 1 - 1)
                    (Int.toNat ((((upd s2.childTimeStack (s2.stackTop - 1) 0
                      (s2.stackTop - 1 - 1) : Nat) : Int) +
                      leaveDuration count n s2) % (u32 : Int)))
                  systemTimeStack := upd (upd s2.systemTimeStack (s2.stackTop - 1) 0)
                    (s2.stackTop - 1 - 1)
                    (Int.toNat ((((upd s2.systemTimeStack (s2.stackTop - 1) 0
                      (s2.stackTop - 1 - 1) : Nat) : Int) +
                      (if pt.flags &&& EventFlag.SYSTEM_TIME ≠ 0 then
                        (s2.systemTimeStack (s2.stackTop - 1) : Int) +
                          leaveDuration count n s2
                      else (s2.systemTimeStack (s2.stackTop - 1) : Int))) %
                        (u32 : Int))) } := by
                rw [rescopeStep_plain_eq ids count n s2 hplain2n, if_pos hleave2]
                exact leaveBranch_eval_inner count n s2 htop02 h02 pt hpt2
              have L' := simLink_leave ids count n s1 s2 sE s1'
                { s2 with
                  data := leaveData count n s2
                  stackTop := s2.stackTop - 1
                  childTimeStack := upd (upd s2.childTimeStack (s2.stackTop - 1) 0)
                    (s2.stackTop - 1 - 1)
                    (Int.toNat ((((upd s2.childTimeStack (s2.stackTop - 1) 0
                      (s2.stackTop - 1 - 1) : Nat) : Int) +
                      leaveDuration count n s2) % (u32 : Int)))
                  systemTimeStack := upd (upd s2.systemTimeStack (s2.stackTop - 1) 0)
                    (s2.stackTop - 1 - 1)
                    (Int.toNat ((((upd s2.systemTimeStack (s2.stackTop - 1) 0
                      (s2.stackTop - 1 - 1) : Nat) : Int) +
                      (if pt.flags &&& EventFlag.SYSTEM_TIME ≠ 0 then
                        (s2.systemTimeStack (s2.stackTop - 1) : Int) +
                          leaveDuration count n s2
                      else (s2.systemTimeStack (s2.stackTop - 1) : Int))) %
                        (u32 : Int))) }
                L hn hlenE hplainE htop0 htimeE hparE hdepE hnsE0 hnsP hetP hstP hctP
                hd1 hk1 hs1 ht1 hp1 rfl rfl rfl rfl rfl
                (by rw [hlit1]
                    show upd (upd s2.childTimeStack (s2.stackTop - 1) 0)
                      (s2.stackTop - 1 - 1)
                      (Int.toNat ((((upd s2.childTimeStack (s2.stackTop - 1) 0
                        (s2.stackTop - 1 - 1) : Nat) : Int) +
                        leaveDuration count n s2) % (u32 : Int))) =
                      upd (upd s1.childTimeStack (s1.stackTop - 1) 0)
                      (s1.stackTop - 1 - 1)
                      (Int.toNat ((((upd s1.childTimeStack (s1.stackTop - 1) 0
                        (s1.stackTop - 1 - 1) : Nat) : Int) +
                        leaveDuration count n s1) % (u32 : Int)))
                    rw [L.ctsEq, L.topEq, hdur])
                (by rw [hlit1]
                    show upd (upd s2.systemTimeStack (s2.stackTop - 1) 0)
                      (s2.stackTop - 1 - 1)
                      (Int.toNat ((((upd s2.systemTimeStack (s2.stackTop - 1) 0
                        (s2.stackTop - 1 - 1) : Nat) : Int) +
                        (if pt.flags &&& EventFlag.SYSTEM_TIME ≠ 0 then
                          (s2.systemTimeStack (s2.stackTop - 1) : Int) +
                            leaveDuration count n s2
                        else (s2.systemTimeStack (s2.stackTop - 1) : Int))) %
                          (u32 : Int))) =
                      upd (upd s1.systemTimeStack (s1.stackTop - 1) 0)
                      (s1.stackTop - 1 - 1)
                      (Int.toNat ((((upd s1.systemTimeStack (s1.stackTop - 1) 0
                        (s1.stackTop - 1 - 1) : Nat) : Int) +
                        (if pt.flags &&& EventFlag.SYSTEM_TIME ≠ 0 then
                          (s1.systemTimeStack (s1.stackTop - 1) : Int) +
                            leaveDuration count n s1
                        else (s1.systemTimeStack (s1.stackTop - 1) : Int))) %
                          (u32 : Int)))
                    rw [L.stsEq, L.topEq, hdur])
                (by rw [hm1]
                    exact L.maxEq)
              obtain ⟨s2E, hit2, hdat⟩ := ih (n + 1) s1' _ sE h L'
              refine ⟨s2E, ?_, hdat⟩
              rw [rescopeIter, if_pos hn, hstep2]
              exact hit2
        · rw [if_neg hleave] at hstep
          obtain ⟨hd1, hk1, _, hc1, hy1, ty, hty1, hdisj⟩ := otherBranch_fields hstep
          have hplain1' : PlainData ids count s1'.data := by
            intro m hm
            constructor
            · rw [hd1, (cells6_prep count n s1 m).2.2.1]
              exact (L.plain1 m hm).1
            · rw [hd1, (cells6_prep count n s1 m).1]
              exact (L.plain1 m hm).2
          have hev2 := plain_iter_evolves ids count fuel (n + 1) s1' sE h hplain1'
          have hprep1n : recAt s1'.data n = { recAt s1.data n with
              parent := s1.stack s1.stackTop
              depth := s1.stackTop
              nextSibling := nextIdOf count n s1.data } := by
            rw [hd1]
            exact recAt_prepRecord_self count s1 hn1
          have hparE : (recAt sE.data n).parent = s1.stack s1.stackTop := by
            rw [(hev2.2.2.2.1 n (by omega)).1, hprep1n]
          have hdepE : (recAt sE.data n).depth = s1.stackTop := by
            rw [(hev2.2.2.2.1 n (by omega)).2, hprep1n]
          have hty2 : getById s2.table (recAt s2.data n).type = some ty := by
            rw [L.tableEq, htype2]
            exact hty1
          have hleave2 : ¬ ((recAt s2.data n).type : Int) = ids.scopeLeaveId := by
            rw [htype2]
            exact hleave
          rcases hdisj with ⟨hclass, hs1o, ht1o, hp1o, hm1o⟩ |
            ⟨hclass, hnov, hs1o, ht1o, hp1o, hm1o⟩
          · have hnotopen1n : ¬ OpenAt s1' n := by
              apply not_openAt_of_lt
              intro j hj1 hj2
              rw [hp1o] at hj2
              rw [hs1o]
              exact (L.openLt j hj1 hj2).1
            have hnsE : (recAt sE.data n).nextSibling = provNS count n := by
              rw [(hev2.2.2.2.2 n (by omega) hnotopen1n).1, hprep1n]
              show nextIdOf count n s1.data = provNS count n
              exact nextIdOf_eq_provNS ids count n s1.data L.plain1
            have hstep2 : rescopeStep ids count n s2 =
                some { s2 with data := prepRecord count n s2 } := by
              rw [rescopeStep_plain_eq ids count n s2 hplain2n, if_neg hleave2,
                otherBranch_eval count n s2 ty hty2, if_neg hclass]
            have L' := simLink_other_nopush ids count n s1 s2 sE s1'
              { s2 with data := prepRecord count n s2 }
              L hn hlenE hplainE hparE hdepE hnsE
              hd1 hk1 hs1o ht1o hc1 hy1 hp1o hm1o
              rfl rfl rfl rfl rfl rfl rfl rfl
            obtain ⟨s2E, hit2, hdat⟩ := ih (n + 1) s1' _ sE h L'
            refine ⟨s2E, ?_, hdat⟩
            rw [rescopeIter, if_pos hn, hstep2]
            exact hit2
          · have hid2 : (recAt s2.data n).id = n :=
              ((L.cells n).1.1).trans ((hev.2.2.1 n).1.trans (L.plain1 n hn).2)
            have hnov2 : ¬ s2.stackTop + 1 > 255 := by
              rw [L.topEq]
              exact hnov
            have hstep2 : rescopeStep ids count n s2 =
                some { s2 with
                  data := prepRecord count n s2
                  stack := upd s2.stack (s2.stackTop + 1) ((recAt s2.data n).id)
                  typeStack := upd s2.typeStack (s2.stackTop + 1) (some ty)
                  stackTop := s2.stackTop + 1
                  stackMax := max s2.stackMax (s2.stackTop + 1) } := by
              rw [rescopeStep_plain_eq ids count n s2 hplain2n, if_neg hleave2,
                otherBranch_eval count n s2 ty hty2, if_pos hclass,
                pushScope_eval { s2 with data := prepRecord count n s2 } _ _ hnov2]
            have hs1n : s1'.stack = upd s1.stack (s1.stackTop + 1) n := by
              rw [hs1o, (L.plain1 n hn).2]
            have L' := simLink_other_push ids count n s1 s2 sE s1'
              { s2 with
                data := prepRecord count n s2
                stack := upd s2.stack (s2.stackTop + 1) ((recAt s2.data n).id)
                typeStack := upd s2.typeStack (s2.stackTop + 1) (some ty)
                stackTop := s2.stackTop + 1
                stackMax := max s2.stackMax (s2.stackTop + 1) } ty
              L hn hlenE hplainE hparE hdepE
              hd1 hk1 hs1n ht1o hc1 hy1 hp1o hm1o
              rfl rfl
              (by show upd s2.stack (s2.stackTop + 1) ((recAt s2.data n).id) =
                    upd s2.stack (s2.stackTop + 1) n
                  rw [hid2])
              rfl rfl rfl rfl rfl
            obtain ⟨s2E, hit2, hdat⟩ := ih (n + 1) s1' _ sE h L'
            refine ⟨s2E, ?_, hdat⟩
            rw [rescopeIter, if_pos hn, hstep2]
            exact hit2
    · rw [if_neg hn] at h
      injection h with h
      subst h
      refine ⟨s2, ?_, simLink_data_eq ids count n s1 s2 L⟩
      rw [rescopeIter, if_neg hn]

/-- The type table survives a batch of inserts. -/
theorem insertAll_table (evs : List InsertCall) :
    ∀ st : EventList, (insertAll st evs).eventTypeTable = st.eventTypeTable := by
  induction evs with
  | nil => intro st; rfl
  | cons e rest ih =>
    intro st
    exact (ih (st.insert e.eventType e.time e.args)).trans rfl

/-- The TYPE cell written for the `k`-th call of a batch. -/
theorem insertAll_type (evs : List InsertCall) :
    ∀ (st : EventList), st.eventData.length = st.count →
      ∀ k, k < evs.length →
        (recAt (insertAll st evs).eventData (st.count + k)).type =
          (evs.getD k default).eventType.id % u32 := by
  induction evs with
  | nil =>
    intro st hwf k hk
    exact absurd hk (by simp)
  | cons e rest ih =>
    intro st hwf k hk
    have hsh := insert_shape st e.eventType e.time e.args
    have hwf1 : (st.insert e.eventType e.time e.args).eventData.length =
        (st.insert e.eventType e.time e.args).count := by
      rw [hsh.1, hsh.2]
      simp [hwf]
    have hstep : insertAll st (e :: rest) =
        insertAll (st.insert e.eventType e.time e.args) rest := rfl
    cases k with
    | zero =>
      rw [hstep, Nat.add_zero]
      have hpres := (insertAll_facts rest (st.insert e.eventType e.time e.args) hwf1).2.2.1
        st.count (by rw [hsh.1]; omega)
      rw [hpres, hsh.2]
      have hself := recAt_append_self (d := st.eventData) (r := {
        id := st.count % u32
        type := e.eventType.id % u32
        parent := u32 - 1
        time := e.time % u32
        arguments := (match e.args with | none => 0 | some _ => st.nextArgumentDataId % u32) })
      rw [hwf] at hself
      rw [hself]
      rfl
    | succ k' =>
      have hk' : k' < rest.length := by
        simp only [List.length_cons] at hk
        omega
      have hthis := ih (st.insert e.eventType e.time e.args) hwf1 k' hk'
      have harith : (st.insert e.eventType e.time e.args).count + k' =
          st.count + (k' + 1) := by
        rw [hsh.1]
        omega
      rw [harith] at hthis
      rw [hstep]
      exact hthis

/-- Resorting a buffer that is already sorted with ID cells equal to their
index is the identity on the backing buffer. -/
theorem resort_eq_self (st : EventList)
    (hlen : st.eventData.length = st.count)
    (hcnt : st.count < u32)
    (hid : ∀ m, m < st.count → (recAt st.eventData m).id = m)
    (hmono : ∀ i j, i ≤ j → j < st.count →
      (recAt st.eventData i).time ≤ (recAt st.eventData j).time) :
    st.resortEvents.eventData = st.eventData := by
  have hsorted : List.Pairwise (idxLE st.eventData) (List.range st.count) := by
    rw [List.pairwise_iff_getElem]
    intro i j hi hj hij
    rw [List.getElem_range, List.getElem_range]
    unfold idxLE
    have hlt : i < st.count := by simpa using hi
    have hltj : j < st.count := by simpa using hj
    have := hmono i j (by omega) hltj
    rw [hid i hlt, hid j hltj]
    omega
  have hperm : resortPerm st = List.range st.count := by
    unfold resortPerm
    exact List.Sorted.insertionSort_eq hsorted
  apply data_ext (by rw [resort_length, hlen])
  intro m
  by_cases hm : m < st.count
  · rw [resort_recAt st hm, hperm]
    have hg : (List.range st.count).getD m 0 = m := by
      rw [List.getD_eq_getElem?_getD, List.getElem?_range hm]
      rfl
    rw [hg, Nat.mod_eq_of_lt (Nat.lt_trans hm hcnt)]
    rcases hx : recAt st.eventData m with ⟨i, t, p, d, ti, ns, a, v, tg, et, sy, ct⟩
    have hi : i = m := by
      have h := hid m hm
      rw [hx] at h
      exact h
    simp [hi]
  · have h1 : recAt st.resortEvents.eventData m = default := by
      unfold recAt
      rw [List.getD_eq_getElem?_getD, List.getElem?_eq_none (by rw [resort_length]; omega)]
      rfl
    have h2 : recAt st.eventData m = default := by
      unfold recAt
      rw [List.getD_eq_getElem?_getD, List.getElem?_eq_none (by rw [hlen]; omega)]
      rfl
    rw [h1, h2]

/-- C6, amended.  `rebuild` is not idempotent for arbitrary streams (see the
counterexample: a generic `wtf.scope#enter` resolving to a pre-declared
INSTANCE-class type is pushed by the first rebuild but not by the second,
changing DEPTH cells).  It is idempotent whenever the batch avoids the
on-demand handlers: for every batch over a type table whose event type ids
avoid the `wtf.scope#enter`, `wtf.scope#appendData` and `wtf.trace#timeStamp`
handler ids (ordinary SCOPE/INSTANCE types and `wtf.scope#leave` are
allowed), whose length fits the 32-bit ID cell, and whose first rebuild
completes, a second `rebuild` completes as well and leaves the backing
event-data buffer bit-identical. -/
theorem claim_C6_rebuild_idempotent_amended (tbl : EventTypeTable)
    (evs : List InsertCall) (st1 : EventList) (hlen : evs.length < u32)
    (hcalls : ∀ c ∈ evs,
      ((c.eventType.id % u32 : Int) ≠ (specialIdsOf tbl).scopeEnterId ∧
       (c.eventType.id % u32 : Int) ≠ (specialIdsOf tbl).appendScopeDataId ∧
       (c.eventType.id % u32 : Int) ≠ (specialIdsOf tbl).timeStampId))
    (hre : EventList.rebuild (insertAll (emptyEventList tbl) evs) = some st1) :
    ∃ st2, EventList.rebuild st1 = some st2 ∧ st2.eventData = st1.eventData := by
  have hins := insertAll_facts evs (emptyEventList tbl) rfl
  have hcount : (insertAll (emptyEventList tbl) evs).count = evs.length := by
    rw [hins.1]
    show 0 + evs.length = evs.length
    omega
  have hpretype : ∀ k, k < evs.length →
      (recAt (insertAll (emptyEventList tbl) evs).eventData k).type =
        (evs.getD k default).eventType.id % u32 := by
    intro k hk
    have := insertAll_type evs (emptyEventList tbl) rfl k hk
    have h0 : (emptyEventList tbl).count + k = k := by
      show 0 + k = k
      omega
    rw [h0] at this
    exact this
  have hpreid : ∀ k, k < evs.length →
      (recAt (insertAll (emptyEventList tbl) evs).eventData k).id = k := by
    intro k hk
    have := (hins.2.2.2 k hk).1
    have h0 : (emptyEventList tbl).count + k = k := by
      show 0 + k = k
      omega
    rw [h0] at this
    rw [this, Nat.mod_eq_of_lt (by omega)]
  -- the sort permutation of the first resort
  have hσmem : ∀ a ∈ resortPerm (insertAll (emptyEventList tbl) evs), a < evs.length := by
    intro a ha
    have hperm := resortPerm_perm (insertAll (emptyEventList tbl) evs)
    rw [hcount] at hperm
    exact List.mem_range.mp (hperm.mem_iff.mp ha)
  have hσget : ∀ i, i < evs.length →
      (resortPerm (insertAll (emptyEventList tbl) evs)).getD i 0 < evs.length := by
    intro i hi
    have hi' : i < (resortPerm (insertAll (emptyEventList tbl) evs)).length := by
      rw [resortPerm_length, hcount]
      exact hi
    have hmem : (resortPerm (insertAll (emptyEventList tbl) evs)).getD i 0 ∈
        resortPerm (insertAll (emptyEventList tbl) evs) := by
      rw [List.getD_eq_getElem?_getD, List.getElem?_eq_getElem hi']
      exact List.getElem_mem hi'
    exact hσmem _ hmem
  -- the resorted buffer is plain
  have hplain0 : PlainData (specialIdsOf tbl) evs.length
      (insertAll (emptyEventList tbl) evs).resortEvents.eventData := by
    intro m hm
    have hres := resort_recAt (insertAll (emptyEventList tbl) evs)
      (i := m) (by rw [hcount]; exact hm)
    have hσm := hσget m hm
    have hcell : (recAt (insertAll (emptyEventList tbl) evs).resortEvents.eventData m).type =
        (evs.getD ((resortPerm (insertAll (emptyEventList tbl) evs)).getD m 0)
          default).eventType.id % u32 := by
      rw [hres]
      show (recAt (insertAll (emptyEventList tbl) evs).eventData _).type = _
      exact hpretype _ hσm
    have hmem : evs.getD ((resortPerm (insertAll (emptyEventList tbl) evs)).getD m 0)
        default ∈ evs := by
      rw [List.getD_eq_getElem?_getD, List.getElem?_eq_getElem hσm]
      exact List.getElem_mem hσm
    constructor
    · rw [hcell]
      exact hcalls _ hmem
    · rw [hres]
      show m % u32 = m
      exact Nat.mod_eq_of_lt (by omega)
  -- unfold the first rebuild
  have htblr : (insertAll (emptyEventList tbl) evs).resortEvents.eventTypeTable = tbl := by
    rw [resort_table]
    exact insertAll_table evs (emptyEventList tbl)
  have hcntr : (insertAll (emptyEventList tbl) evs).resortEvents.count = evs.length := by
    rw [resort_count]
    exact hcount
  have hlenr : (insertAll (emptyEventList tbl) evs).resortEvents.eventData.length =
      evs.length := by
    rw [resort_length]
    exact hcount
  simp only [EventList.rebuild, EventList.rescopeEvents] at hre
  rw [htblr, hcntr] at hre
  cases hit : rescopeIter (specialIdsOf tbl) evs.length evs.length 0
      (initRescope (insertAll (emptyEventList tbl) evs).resortEvents) with
  | none =>
    rw [hit] at hre
    cases hre
  | some sE =>
    rw [hit] at hre
    injection hre with hre
    have hev0 := plain_iter_evolves (specialIdsOf tbl) evs.length evs.length 0
      (initRescope (insertAll (emptyEventList tbl) evs).resortEvents) sE hit hplain0
    have hstdata : st1.eventData = sE.data := by
      rw [← hre]
    have hsttbl : st1.eventTypeTable = tbl := by
      rw [← hre]
      show sE.table = tbl
      rw [hev0.1]
      exact htblr
    have hstcount : st1.count = evs.length := by
      rw [← hre]
    have hlenE : sE.data.length = evs.length := by
      rw [hev0.2.1]
      exact hlenr
    have hidE : ∀ m, m < evs.length → (recAt sE.data m).id = m := by
      intro m hm
      rw [(hev0.2.2.1 m).1]
      exact (hplain0 m hm).2
    have htimeE : ∀ m, (recAt sE.data m).time =
        (recAt (insertAll (emptyEventList tbl) evs).resortEvents.eventData m).time :=
      fun m => (hev0.2.2.1 m).2.1
    -- the second resort is the identity on the buffer
    have hresort : st1.resortEvents.eventData = st1.eventData := by
      apply resort_eq_self
      · rw [hstdata, hlenE, hstcount]
      · rw [hstcount]
        exact hlen
      · intro m hm
        rw [hstdata]
        exact hidE m (by rw [← hstcount]; exact hm)
      · intro i j hij hj
        rw [hstdata, htimeE, htimeE]
        exact resort_time_mono (insertAll (emptyEventList tbl) evs) i j hij
          (by rw [hcount, ← hstcount]; exact hj)
    -- second rescope by simulation
    have hplainE : PlainData (specialIdsOf tbl) evs.length sE.data := by
      intro m hm
      constructor
      · rw [(hev0.2.2.1 m).2.2.1]
        exact (hplain0 m hm).1
      · exact hidE m hm
    have htblr2 : st1.resortEvents.eventTypeTable = tbl := by
      rw [resort_table]
      exact hsttbl
    have hcntr2 : st1.resortEvents.count = evs.length := by
      rw [resort_count]
      exact hstcount
    have hd20 : (initRescope st1.resortEvents).data = sE.data := by
      show st1.resortEvents.eventData = sE.data
      rw [hresort]
      exact hstdata
    have hL0 : SimLink (specialIdsOf tbl) evs.length 0
        (initRescope (insertAll (emptyEventList tbl) evs).resortEvents)
        (initRescope st1.resortEvents) sE := by
      refine ⟨rfl, rfl, rfl, rfl, rfl, rfl, ?_, ?_, ?_, hplain0, ?_, ?_, ?_, ?_, ?_, ?_⟩
      · show st1.resortEvents.eventTypeTable =
          (insertAll (emptyEventList tbl) evs).resortEvents.eventTypeTable
        rw [htblr2, htblr]
      · exact hlenr
      · show st1.resortEvents.eventData.length = sE.data.length
        rw [hresort, hstdata]
      · intro m
        exact cells11_of_eq (by rw [hd20])
      · intro m hop
        obtain ⟨j, hj1, hj2, _⟩ := hop
        exact absurd hj2 (by simp only [initRescope]; omega)
      · intro m _
        rw [hd20]
      · intro m hop
        obtain ⟨j, hj1, hj2, _⟩ := hop
        exact absurd hj2 (by simp only [initRescope]; omega)
      · intro j hj1 hj2
        exact absurd hj2 (by simp only [initRescope]; omega)
      · intro j j' hj1 hj2 hj3
        exact absurd hj3 (by simp only [initRescope]; omega)
    obtain ⟨s2E, hit2, hdat⟩ := plain_iter_sim (specialIdsOf tbl) evs.length
      evs.length 0 (initRescope (insertAll (emptyEventList tbl) evs).resortEvents)
      (initRescope st1.resortEvents) sE hit hL0
    refine ⟨{ st1.resortEvents with
      eventData := s2E.data
      eventTypeTable := s2E.table
      argumentData := s2E.argTable
      maximumScopeDepth := s2E.stackMax }, ?_, ?_⟩
    · simp only [EventList.rebuild, EventList.rescopeEvents]
      rw [htblr2, hcntr2, hit2]
    · show s2E.data = st1.eventData
      rw [hdat, hstdata]

/-- Closed witness for `claim_C6_rebuild_idempotent_amended`: the two nested
pre-declared scopes of spec scenario S3 rebuild, and a second rebuild keeps
the buffer bit-identical. -/
theorem claim_C6_rebuild_idempotent_amended_witness :
    ∃ st1 st2,
      EventList.rebuild (insertAll (emptyEventList c2Table) c2Events) = some st1 ∧
      EventList.rebuild st1 = some st2 ∧ st2.eventData = st1.eventData := by
  cases hre : EventList.rebuild (insertAll (emptyEventList c2Table) c2Events) with
  | none => exact absurd hre (by decide)
  | some st1 =>
    obtain ⟨st2, h1, h2⟩ := claim_C6_rebuild_idempotent_amended c2Table c2Events st1
      (by decide) (by decide) hre
    exact ⟨st1, st2, rfl, h1, h2⟩

end WtfDb
